import Mathlib

/-!
# Kaleidoscope-Simulator: the report dispatch engine

A shallow embedding of `Simulator::processReport`,
`Simulator::processReportAction` and `Simulator::evaluateActions`
(src/src/Simulator.h) together with the state they act on, of
`Simulator::processHIDReport` (src/src/kaleidoscope_simulator/Simulator.cpp)
and of the layer and report-count assertions, followed by theorems about them.

Conventions of the embedding

* C++ `int` counters are `Int`; signed overflow is undefined behaviour in the
  source and lies outside the model.
* A C++ object with virtual methods (a report action) is a record that
  carries its identity, its data members and its virtual method as a function.
* Two instrumentation logs, `eval_calls_` and `report_calls_`, record every
  call of `eval()` and `report()` on an action. They have no counterpart in the
  source; the engine only appends to them and no decision depends on them.
* What the engine uses and src/ does not define (the type-id constants, whether
  `Action_::report()` counts a failed action as an error) is a parameter,
  `Externals`; the theorems hold for every value of it.
* Of everything written to the output stream only the lines that go through
  `ErrorStream` are kept (`out_`); log, header and debug output is dropped.
* `Simulator::error()` is the function of Simulator.h: it counts and returns.
  The destructor of `ErrorStream` is outside src/ and does not end the call in
  `processReport`. What the spec says of it (abort on the first error) is
  modelled apart, in the definitions named `aborting.*`; with the switch off
  they agree with `processReport`.
* `Simulator::cycle()` is declared in Simulator.h and defined outside src/; the
  cycle driver is modelled from the spec.
* The firmware's `Layer` object and the `HID_REPORTID_*` constants of the HID
  library are parameters (`Layer_`, `HIDReportIds`).
-/

namespace kaleidoscope
namespace simulator

/-! ## Report types and their ids (Simulator.h, lines 52-98) -/

/-- The four report classes `processReport` is instantiated with
(`ReportTraits` has exactly these specialisations). -/
inductive ReportType where
  | BootKeyboardReport
  | KeyboardReport
  | MouseReport
  | AbsoluteMouseReport
  deriving DecidableEq, Repr

/-- Simulator.h line 61. -/
def AnyTypeReportSid : Fin 5 := 0
/-- Simulator.h line 62. -/
def BootKeyboardReportSid : Fin 5 := 1
/-- Simulator.h line 63. -/
def KeyboardReportSid : Fin 5 := 2
/-- Simulator.h line 64. -/
def MouseReportSid : Fin 5 := 3
/-- Simulator.h line 65. -/
def AbsoluteMouseReportSid : Fin 5 := 4

/-- The member `sid` of `ReportTraits<_ReportType>` (Simulator.h, lines 70-98). -/
def ReportTraits.sid : ReportType → Fin 5
  | .BootKeyboardReport => BootKeyboardReportSid
  | .KeyboardReport => KeyboardReportSid
  | .MouseReport => MouseReportSid
  | .AbsoluteMouseReport => AbsoluteMouseReportSid

/-- What `processReport` uses and src/ does not define; these are parameters
of the embedding. `Report_hid_report_type_` is `Report_::hid_report_type_`,
`hid_report_type_ T` is `_ReportType::hid_report_type_` of the report class
`T`, and `GenericReportTypeId` is the constant of that name (`reports/Report_.h`
and the HID library). `failed_report_is_error` says whether `Action_::report()`
(`actions/Action_.h`) sends the description of a failed action through
`Simulator::error()`, which counts it as an error, or only to the log. -/
structure Externals where
  Report_hid_report_type_ : Nat
  GenericReportTypeId : Nat
  hid_report_type_ : ReportType → Nat
  failed_report_is_error : Bool

/-- A report as it reaches `processReport`: its class and its payload bytes. -/
structure Report_ where
  report_type : ReportType
  data : List Nat
  deriving DecidableEq, Repr

/-! ## The simulator state (Simulator.h, lines 256-290) -/

/-- The lines sent through `Simulator::error()`.
`typeMismatch` is Simulator.h lines 768-770, `reportWithoutQueuedActions` is
line 787, `actionsLeftInQueue` is line 436 and `unknownHIDReport` is
Simulator.cpp line 87; `actionFailed` is the description `report()` gives of a
failed action, when it goes through `error()`. -/
inductive ErrorLine where
  | typeMismatch (expected : String) (encountered : ReportType)
  | reportWithoutQueuedActions (encountered : ReportType)
  | actionsLeftInQueue
  | unknownHIDReport (id : Nat)
  | actionFailed (action : Nat)
  deriving DecidableEq, Repr

/-- The data members of `Simulator` other than the action containers. This is
what an action can observe of the simulator while its predicate runs. -/
@[ext]
structure SimulatorState where
  out_ : List ErrorLine := []
  debug_ : Bool
  quiet_ : Bool := false
  cycle_duration_ : Int
  abort_on_first_error_ : Bool
  actions_passed_ : Bool := true
  test_success_ : Bool := true
  cycle_id_ : Int := 0
  time_ : Nat := 0
  scan_cycles_default_count_ : Int := 5
  error_count_ : Int := 0
  error_if_report_without_queued_actions_ : Bool := false
  n_typed_reports_in_cycle_ : Fin 5 → Int := fun _ => 0
  n_typed_overall_reports_ : Fin 5 → Int := fun _ => 0
  n_reports_in_cycle_ : Int := 0
  n_overall_reports_ : Int := 0

/-- Modelled from the spec: `actions/generic_report/ReportAction.h` and
`actions/Action_.h` are not under src/. A check has an identity (`id`, the
object reference), a type tag (`report_type_id_`, read by `getReportTypeId`),
a type string, the mutable binding to the current report (`report_`, written
by `setReport`) and a predicate (`evalInternal`). The predicate is a function
of the simulator's state and of the bound report; it does not change the
simulator. -/
structure ReportAction_ where
  id : Nat
  report_type_id_ : Nat
  type_string_ : String
  report_ : Option Report_ := none
  evalInternal : SimulatorState → Option Report_ → Bool

/-- Modelled from the spec: `actions/Action_.h` is not under src/. An action
that is not tied to a report: identity, whether `setSimulator` has been called
on it, and its predicate. -/
structure Action_ where
  id : Nat
  simulator_ : Bool := false
  evalInternal : SimulatorState → Bool

/-- Modelled from the spec: `ActionContainer.h` is not under src/. An ordered
sequence of checks; `add` appends, `popFront` removes and returns the head. -/
structure ActionContainer (α : Type) where
  queue_ : List α := []

/-- Modelled from the spec: `size()` is the number of entries. -/
def ActionContainer.size {α : Type} (c : ActionContainer α) : Nat :=
  c.queue_.length

/-- Modelled from the spec: `empty()` holds exactly when there is no entry. -/
def ActionContainer.empty {α : Type} (c : ActionContainer α) : Bool :=
  c.queue_.isEmpty

/-- Modelled from the spec: `popFront()` fails on an empty container (`none`),
otherwise it removes the head and returns it. -/
def ActionContainer.popFront {α : Type} (c : ActionContainer α) :
    Option (α × ActionContainer α) :=
  match c.queue_ with
  | [] => none
  | a :: rest => some (a, { queue_ := rest })

/-- The entries in insertion order (`directAccess()`, AssertionQueue.h line 113). -/
def ActionContainer.directAccess {α : Type} (c : ActionContainer α) : List α :=
  c.queue_

/-- One call of `eval()` on a report action: which action, the report that was
bound to it at that moment, and the value returned. -/
structure EvalCall where
  action : Nat
  report : Option Report_
  result : Bool
  deriving DecidableEq, Repr

/-- The simulator: its data members, the action containers (Simulator.h lines
281-290) and the two instrumentation logs. -/
structure Simulator extends SimulatorState where
  queued_report_actions_ : ActionContainer ReportAction_ := {}
  permanent_boot_keyboard_report_actions_ : ActionContainer ReportAction_ := {}
  permanent_keyboard_report_actions_ : ActionContainer ReportAction_ := {}
  permanent_mouse_report_actions_ : ActionContainer ReportAction_ := {}
  permanent_absolute_mouse_report_actions_ : ActionContainer ReportAction_ := {}
  permanent_generic_report_actions_ : ActionContainer ReportAction_ := {}
  queued_cycle_actions_ : ActionContainer Action_ := {}
  permanent_cycle_actions_ : ActionContainer Action_ := {}
  eval_calls_ : List EvalCall := []
  report_calls_ : List Nat := []

/-- The constructor (declared at Simulator.h lines 662-665): the arguments set
`debug_`, `cycle_duration_` and `abort_on_first_error_`, every other member has
its in-class initialiser. -/
def Simulator.init (debug : Bool) (cycle_duration : Int) (abort_on_first_error : Bool) :
    Simulator :=
  { debug_ := debug, cycle_duration_ := cycle_duration,
    abort_on_first_error_ := abort_on_first_error }

/-! ## Accessors -/

/-- Simulator.h line 301. -/
def Simulator.setErrorIfReportWithoutQueuedActions (s : Simulator) (state : Bool) : Simulator :=
  { s with error_if_report_without_queued_actions_ := state }

/-- Simulator.h line 309. -/
def Simulator.getErrorIfReportWithoutQueuedActions (s : Simulator) : Bool :=
  s.error_if_report_without_queued_actions_

/-- Simulator.h lines 487-490: `error()` increments `error_count_` and hands out
the error stream. Nothing in src/ reads `abort_on_first_error_` but its getter;
the call returns to its caller. -/
def Simulator.error (s : Simulator) : Simulator :=
  { s with error_count_ := s.error_count_ + 1 }

/-- Modelled from the spec: the bodies of the `ErrorStream` constructor and
destructor are not under src/. The stream returned by `error()` is a writable
description sink: what is written to it is appended to the output. -/
def ErrorStream.output (line : ErrorLine) (s : Simulator) : Simulator :=
  { s with out_ := s.out_ ++ [line] }

/-- Simulator.h line 494. -/
def Simulator.getErrorCount (s : Simulator) : Int := s.error_count_

/-- Simulator.h line 502. -/
def Simulator.getAbortOnFirstError (s : Simulator) : Bool := s.abort_on_first_error_

/-- Simulator.h line 516. -/
def Simulator.getCycleId (s : Simulator) : Int := s.cycle_id_

/-- Simulator.h line 527. -/
def Simulator.getDebug (s : Simulator) : Bool := s.debug_

/-- Simulator.h line 623. -/
def SimulatorState.getNumReportsInCycle (s : SimulatorState) : Int :=
  s.n_typed_reports_in_cycle_ AnyTypeReportSid

/-- Simulator.h line 624. -/
def SimulatorState.getNumOverallReports (s : SimulatorState) : Int :=
  s.n_typed_overall_reports_ AnyTypeReportSid

/-- Simulator.h lines 638-641. -/
def SimulatorState.getNumTypedReportsInCycle (s : SimulatorState) (T : ReportType) : Int :=
  s.n_typed_reports_in_cycle_ (ReportTraits.sid T)

/-- Simulator.h lines 643-646. -/
def SimulatorState.getNumTypedOverallReports (s : SimulatorState) (T : ReportType) : Int :=
  s.n_typed_overall_reports_ (ReportTraits.sid T)

/-- Simulator.h lines 677-691: the permanent container registered for a report
class. -/
def Simulator.getPermanentReportActions (s : Simulator) :
    ReportType → ActionContainer ReportAction_
  | .BootKeyboardReport => s.permanent_boot_keyboard_report_actions_
  | .KeyboardReport => s.permanent_keyboard_report_actions_
  | .MouseReport => s.permanent_mouse_report_actions_
  | .AbsoluteMouseReport => s.permanent_absolute_mouse_report_actions_

/-- The permanent actions of a report class are objects held by reference, so
what `processReportAction` does to them stays in the container. -/
def Simulator.setPermanentReportActions (s : Simulator) (T : ReportType)
    (c : ActionContainer ReportAction_) : Simulator :=
  match T with
  | .BootKeyboardReport => { s with permanent_boot_keyboard_report_actions_ := c }
  | .KeyboardReport => { s with permanent_keyboard_report_actions_ := c }
  | .MouseReport => { s with permanent_mouse_report_actions_ := c }
  | .AbsoluteMouseReport => { s with permanent_absolute_mouse_report_actions_ := c }

/-! ## Methods of a report action -/

/-- Modelled from the spec: `getReportTypeId()` returns the type tag. -/
def ReportAction_.getReportTypeId (a : ReportAction_) : Nat := a.report_type_id_

/-- Modelled from the spec: `getTypeString()` names the expected report type. -/
def ReportAction_.getTypeString (a : ReportAction_) : String := a.type_string_

/-- Modelled from the spec: `setReport` binds the event to the check, or
unbinds it (`nullptr`). -/
def ReportAction_.setReport (a : ReportAction_) (report : Option Report_) : ReportAction_ :=
  { a with report_ := report }

/-- Modelled from the spec: `eval()` runs the predicate of the check on the
simulator it belongs to and on the report bound to it. The call is logged. -/
def ReportAction_.eval (a : ReportAction_) (s : Simulator) : Bool × Simulator :=
  let r := a.evalInternal s.toSimulatorState a.report_
  (r, { s with eval_calls_ := s.eval_calls_ ++ [{ action := a.id, report := a.report_, result := r }] })

/-- Modelled from the spec: `report()` emits a human-readable description of
the check and of the observed state. `passed` is the outcome of the evaluation
it describes. The call is logged; the description of a failed action goes
through `error()` when `failed_report_is_error` is set, else to the log. -/
def ReportAction_.report (ext : Externals) (a : ReportAction_) (passed : Bool)
    (s : Simulator) : Simulator :=
  let s := { s with report_calls_ := s.report_calls_ ++ [a.id] }
  if !passed && ext.failed_report_is_error then
    ErrorStream.output (.actionFailed a.id) s.error
  else s

/-! ## The dispatch engine (Simulator.h, lines 717-789) -/

/-- Simulator.h lines 717-730. Returns the action (its binding is changed) and
the simulator. -/
def Simulator.processReportAction (ext : Externals) (s : Simulator) (action : ReportAction_)
    (report : Report_) : ReportAction_ × Simulator :=
  let action := action.setReport (some report)
  let (action_passed, s) := action.eval s
  let s := if !action_passed || s.debug_ then action.report ext action_passed s else s
  let s := { s with actions_passed_ := s.actions_passed_ && action_passed }
  (action.setReport none, s)

/-- Increment of one slot of a counter array (`++a[i]`). -/
def incr (a : Fin 5 → Int) (i : Fin 5) : Fin 5 → Int :=
  Function.update a i (a i + 1)

/-- Simulator.h lines 735-741: the four counter increments. -/
def Simulator.countReport (s : Simulator) (T : ReportType) : Simulator :=
  let s := { s with n_typed_overall_reports_ := incr s.n_typed_overall_reports_ AnyTypeReportSid }
  let s := { s with n_typed_reports_in_cycle_ := incr s.n_typed_reports_in_cycle_ AnyTypeReportSid }
  let sid := ReportTraits.sid T
  let s := { s with n_typed_overall_reports_ := incr s.n_typed_overall_reports_ sid }
  { s with n_typed_reports_in_cycle_ := incr s.n_typed_reports_in_cycle_ sid }

/-- Simulator.h lines 753-772: the queued step. -/
def Simulator.processQueuedReportAction (ext : Externals) (s : Simulator)
    (report : Report_) : Simulator :=
  if !s.queued_report_actions_.empty then
    match s.queued_report_actions_.popFront with
    | none => s
    | some (action, rest) =>
      let s := { s with queued_report_actions_ := rest }
      let report_type := action.getReportTypeId
      if report_type = ext.Report_hid_report_type_ then
        (s.processReportAction ext action report).2
      else if report_type = ext.hid_report_type_ report.report_type then
        (s.processReportAction ext action report).2
      else
        ErrorStream.output
          (.typeMismatch action.getTypeString report.report_type) s.error
  else s

/-- The loop of Simulator.h lines 775-777 over the entries of a container. -/
def Simulator.processReportActionList (ext : Externals) (s : Simulator) (report : Report_) :
    List ReportAction_ → List ReportAction_ × Simulator
  | [] => ([], s)
  | action :: rest =>
    let (action, s) := s.processReportAction ext action report
    let (rest, s) := s.processReportActionList ext report rest
    (action :: rest, s)

/-- Simulator.h lines 774-777: the permanent actions registered for the class
of the report. -/
def Simulator.processPermanentReportActions (ext : Externals) (s : Simulator)
    (report : Report_) : Simulator :=
  let permanent_actions := s.getPermanentReportActions report.report_type
  let (actions, s) := s.processReportActionList ext report permanent_actions.directAccess
  s.setPermanentReportActions report.report_type { queue_ := actions }

/-- The condition of Simulator.h lines 780-781. -/
def genericActionApplies (ext : Externals) (T : ReportType) (action : ReportAction_) : Bool :=
  action.getReportTypeId == ext.hid_report_type_ T
    || action.getReportTypeId == ext.GenericReportTypeId

/-- The loop of Simulator.h lines 779-784 over the entries of the generic
container. -/
def Simulator.processGenericReportActionList (ext : Externals) (s : Simulator)
    (report : Report_) : List ReportAction_ → List ReportAction_ × Simulator
  | [] => ([], s)
  | action :: rest =>
    let (action, s) :=
      if genericActionApplies ext report.report_type action then
        s.processReportAction ext action report
      else (action, s)
    let (rest, s) := s.processGenericReportActionList ext report rest
    (action :: rest, s)

/-- Simulator.h lines 779-784: the generic permanent actions. -/
def Simulator.processPermanentGenericReportActions (ext : Externals) (s : Simulator)
    (report : Report_) : Simulator :=
  let (actions, s) :=
    s.processGenericReportActionList ext report s.permanent_generic_report_actions_.directAccess
  { s with permanent_generic_report_actions_ := { queue_ := actions } }

/-- Simulator.h lines 786-788: the test for a report that met an empty queue. -/
def Simulator.checkReportWithoutQueuedActions (s : Simulator) (n_actions_queued : Nat)
    (T : ReportType) : Simulator :=
  if n_actions_queued = 0 ∧ s.getErrorIfReportWithoutQueuedActions = true then
    ErrorStream.output (.reportWithoutQueuedActions T) s.error
  else s

/-- Simulator.h lines 732-789. -/
def Simulator.processReport (ext : Externals) (s : Simulator) (report : Report_) : Simulator :=
  let s := s.countReport report.report_type
  let n_actions_queued := s.queued_report_actions_.size
  let s := s.processQueuedReportAction ext report
  let s := s.processPermanentReportActions ext report
  let s := s.processPermanentGenericReportActions ext report
  s.checkReportWithoutQueuedActions n_actions_queued report.report_type

/-! ## Auxiliary definitions used to state the theorems -/

/-- What identifies an evaluation: the action and the report bound to it. -/
def EvalCall.key (e : EvalCall) : Nat × Option Report_ := (e.action, e.report)

/-- The error lines `report()` writes for a list of evaluations: one line for
each failed one, when failed reports go through `error()`. -/
def failLines (ext : Externals) (E : List EvalCall) : List ErrorLine :=
  if ext.failed_report_is_error then
    (E.filter (fun e => !e.result)).map (fun e => .actionFailed e.action)
  else []

/-- The simulator after a run of evaluations: another pass flag, longer
instrumentation logs, and `errs` further error lines, each counted; every
other member is the one of `s`. -/
def Simulator.withEval (s : Simulator) (passed : Bool) (evals : List EvalCall)
    (reports : List Nat) (errs : List ErrorLine) : Simulator :=
  { s with
    actions_passed_ := passed
    eval_calls_ := evals
    report_calls_ := reports
    error_count_ := s.error_count_ + errs.length
    out_ := s.out_ ++ errs }

/-- The evaluation that binding `report` to `action` and running it in state
`s` gives. -/
def evalOf (s : Simulator) (action : ReportAction_) (report : Report_) : EvalCall :=
  { action := action.id, report := some report,
    result := action.evalInternal s.toSimulatorState (some report) }

/-- The key of the evaluation of `action` on `report`. -/
def keyOf (report : Report_) (action : ReportAction_) : Nat × Option Report_ :=
  (action.id, some report)

/-- The head of the queue is evaluated: it is generic or of the class of the
report (the conditions of Simulator.h lines 758 and 763). -/
def queuedActionApplies (ext : Externals) (T : ReportType) (action : ReportAction_) : Bool :=
  action.getReportTypeId == ext.Report_hid_report_type_
    || action.getReportTypeId == ext.hid_report_type_ T

/-- The keys of the evaluations of the queued step: the head of the queue when
there is one and it applies to the report. -/
def queuedKeys (ext : Externals) (s : Simulator) (report : Report_) :
    List (Nat × Option Report_) :=
  match s.queued_report_actions_.directAccess with
  | [] => []
  | a :: _ => if queuedActionApplies ext report.report_type a then [keyOf report a] else []

/-- The keys of the evaluations of the permanent actions registered for the
class of the report, in insertion order. -/
def permanentKeys (s : Simulator) (report : Report_) : List (Nat × Option Report_) :=
  (s.getPermanentReportActions report.report_type).directAccess.map (keyOf report)

/-- The keys of the evaluations of the generic permanent actions: those whose
tag is the class of the report or `GenericReportTypeId`, in insertion order. -/
def genericKeys (ext : Externals) (s : Simulator) (report : Report_) :
    List (Nat × Option Report_) :=
  (s.permanent_generic_report_actions_.directAccess.filter
    (genericActionApplies ext report.report_type)).map (keyOf report)

/-- The error lines of the type test of the queued step: one line when the
head of the queue does not apply to the report. -/
def queuedErrors (ext : Externals) (s : Simulator) (report : Report_) : List ErrorLine :=
  match s.queued_report_actions_.directAccess with
  | [] => []
  | a :: _ =>
    if queuedActionApplies ext report.report_type a then []
    else [.typeMismatch a.getTypeString report.report_type]

/-- The error lines of the final test: one line when the queue was empty and the
flag is set. -/
def unconsumedErrors (s : Simulator) (report : Report_) : List ErrorLine :=
  if s.queued_report_actions_.empty && s.getErrorIfReportWithoutQueuedActions then
    [.reportWithoutQueuedActions report.report_type]
  else []

/-- The error lines one report gives rise to, in the order they are written;
`E` are the evaluations made for it. -/
def reportErrors (ext : Externals) (s : Simulator) (report : Report_) (E : List EvalCall) :
    List ErrorLine :=
  queuedErrors ext s report ++ failLines ext E ++ unconsumedErrors s report

/-- The error lines written between state `s` and the later state `t`. -/
def newErrors (s t : Simulator) : List ErrorLine := t.out_.drop s.out_.length

/-- The line is the description of a failed action. -/
def ErrorLine.isActionFailed : ErrorLine → Bool
  | .actionFailed _ => true
  | _ => false

/-- The error lines written between `s` and `t` by the engine itself, that is
all but the descriptions of failed actions. -/
def engineErrors (s t : Simulator) : List ErrorLine :=
  (newErrors s t).filter (fun l => !l.isActionFailed)

/-! ## Example data -/

/-- An assignment of type ids: 0 for the generic tag, distinct numbers for the
four report classes; failed actions are reported as errors. -/
def exampleExt : Externals :=
  { Report_hid_report_type_ := 0
    GenericReportTypeId := 0
    hid_report_type_ := fun T =>
      match T with
      | .BootKeyboardReport => 2
      | .KeyboardReport => 8
      | .MouseReport => 1
      | .AbsoluteMouseReport => 7
    failed_report_is_error := true }

/-- A keyboard report with one payload byte. -/
def exampleKeyboardReport : Report_ := { report_type := .KeyboardReport, data := [4] }

/-- A keyboard check that holds when a report with payload is bound to it. -/
def exampleKeyboardAction : ReportAction_ :=
  { id := 1, report_type_id_ := 8, type_string_ := "keyboard",
    evalInternal := fun _ r =>
      match r with
      | some r => !r.data.isEmpty
      | none => false }

/-- A mouse check that never holds. -/
def exampleMouseAction : ReportAction_ :=
  { id := 2, report_type_id_ := 1, type_string_ := "mouse", evalInternal := fun _ _ => false }

/-- A generic check that holds for the first report of a cycle. -/
def exampleGenericAction : ReportAction_ :=
  { id := 3, report_type_id_ := 0, type_string_ := "generic",
    evalInternal := fun st _ => st.getNumReportsInCycle == 1 }

/-- A simulator with a mouse check at the head of the queue, one permanent
keyboard check and two generic permanent checks, and the
ErrorIfReportWithoutQueuedActions condition enabled. -/
def exampleMismatch : Simulator :=
  { Simulator.init false 1 false with
    error_if_report_without_queued_actions_ := true
    queued_report_actions_ := { queue_ := [exampleMouseAction, exampleKeyboardAction] }
    permanent_keyboard_report_actions_ := { queue_ := [exampleKeyboardAction] }
    permanent_generic_report_actions_ := { queue_ := [exampleMouseAction, exampleGenericAction] } }

/-- The same simulator with a keyboard check at the head of the queue. -/
def exampleMatch : Simulator :=
  { exampleMismatch with
    queued_report_actions_ := { queue_ := [exampleKeyboardAction, exampleMouseAction] } }

/-- The same simulator with nothing queued. -/
def exampleEmpty : Simulator :=
  { exampleMismatch with queued_report_actions_ := { queue_ := [] } }

/-! ## Actions evaluated at once (Simulator.h, lines 452-463 and 693-715) -/

/-- Modelled from the spec: `setSimulator` configures the check with a
back-reference to the driving engine. -/
def Action_.setSimulator (a : Action_) : Action_ := { a with simulator_ := true }

/-- Modelled from the spec: `eval()` runs the predicate of the check on the
simulator it belongs to. The call is logged; no report is bound. -/
def Action_.eval (a : Action_) (s : Simulator) : Bool × Simulator :=
  let r := a.evalInternal s.toSimulatorState
  (r, { s with eval_calls_ := s.eval_calls_ ++ [{ action := a.id, report := none, result := r }] })

/-- Modelled from the spec: `report()` emits a human-readable description of
the check and of the observed state. `passed` is the outcome of the evaluation
it describes. The call is logged; the description of a failed action goes
through `error()` when `failed_report_is_error` is set, else to the log. -/
def Action_.report (ext : Externals) (a : Action_) (passed : Bool) (s : Simulator) :
    Simulator :=
  let s := { s with report_calls_ := s.report_calls_ ++ [a.id] }
  if !passed && ext.failed_report_is_error then
    ErrorStream.output (.actionFailed a.id) s.error
  else s

/-- The loop of Simulator.h lines 701-714. Returns the actions (each has been
given the simulator) and the simulator. -/
def Simulator.evaluateActionsLoop (ext : Externals) (s : Simulator) :
    List Action_ → List Action_ × Simulator
  | [] => ([], s)
  | action :: rest =>
    let action := action.setSimulator
    let (action_passed, s) := action.eval s
    let s := if !action_passed || s.debug_ then action.report ext action_passed s else s
    let s := { s with actions_passed_ := s.actions_passed_ && action_passed }
    let (rest, s) := s.evaluateActionsLoop ext rest
    (action :: rest, s)

/-- Simulator.h lines 696-715. -/
def Simulator.evaluateActionsInternal (ext : Externals) (s : Simulator)
    (actions : List Action_) : List Action_ × Simulator :=
  if actions.isEmpty then (actions, s) else s.evaluateActionsLoop ext actions

/-- Simulator.h lines 456-463: the actions are collected in a vector and handed
to `evaluateActionsInternal`. -/
def Simulator.evaluateActions (ext : Externals) (s : Simulator) (actions : List Action_) :
    Simulator :=
  (s.evaluateActionsInternal ext actions).2

/-- One call of an operation that touches the verdict state. -/
inductive Call where
  | error
  | processReport (report : Report_)
  | evaluateActions (actions : List Action_)

/-- The simulator after one call. -/
def Simulator.call (ext : Externals) (s : Simulator) : Call → Simulator
  | .error => s.error
  | .processReport report => s.processReport ext report
  | .evaluateActions actions => s.evaluateActions ext actions

/-- The simulator after a sequence of calls, made in the order of the list. -/
def Simulator.calls (ext : Externals) (s : Simulator) : List Call → Simulator
  | [] => s
  | c :: rest => (s.call ext c).calls ext rest

/-- The evaluations logged between state `s` and the later state `t`. -/
def newEvals (s t : Simulator) : List EvalCall := t.eval_calls_.drop s.eval_calls_.length

/-- A cycle action that always holds. -/
def examplePassingAction : Action_ := { id := 4, evalInternal := fun _ => true }

/-- A cycle action that never holds. -/
def exampleFailingAction : Action_ := { id := 5, evalInternal := fun _ => false }

/-- A simulator in which an action has failed and two errors were counted. -/
def exampleFailed : Simulator :=
  { exampleEmpty with actions_passed_ := false, error_count_ := 2 }

/-- A fresh simulator (the constructor's state: all counters zero, no error, no
permanent check) with exactly one report check queued. -/
def freshWithQueued (debug : Bool) (cycle_duration : Int) (abort_on_first_error : Bool)
    (a : ReportAction_) : Simulator :=
  { Simulator.init debug cycle_duration abort_on_first_error with
    queued_report_actions_ := { queue_ := [a] } }

/-! ## The engine with a run that can end (`abort_on_first_error`) -/

/-- The outcome of a piece of the engine when the process may end inside it:
it returned a value, or the run ended in state `s`. -/
inductive Run (α : Type) where
  | returned (value : α)
  | exited (s : Simulator)

/-- Sequencing: what follows is not executed once the run has ended. -/
def Run.bind {α β : Type} (x : Run α) (f : α → Run β) : Run β :=
  match x with
  | .returned a => f a
  | .exited s => .exited s

instance : Monad Run where
  pure := Run.returned
  bind := Run.bind

/-- Modelled from the spec: the body of `ErrorStream::~ErrorStream` is not under
src/. Spec 4.4: with `abort_on_first_error` enabled the first recorded error
terminates the run. The statement `error() << line;` counts the error, writes
the line and, when the stream is destroyed at the end of the statement, ends
the run if the switch is on. -/
def aborting.error (line : ErrorLine) (s : Simulator) : Run Simulator :=
  let s := ErrorStream.output line s.error
  if s.getAbortOnFirstError then .exited s else .returned s

/-- Modelled from the spec: `report()` as in `ReportAction_.report`, its error
statement being one that can end the run. -/
def aborting.report (ext : Externals) (a : ReportAction_) (passed : Bool) (s : Simulator) :
    Run Simulator :=
  let s := { s with report_calls_ := s.report_calls_ ++ [a.id] }
  if !passed && ext.failed_report_is_error then
    aborting.error (.actionFailed a.id) s
  else pure s

/-- Simulator.h lines 717-730, with error statements that can end the run. -/
def aborting.processReportAction (ext : Externals) (s : Simulator) (action : ReportAction_)
    (report : Report_) : Run (ReportAction_ × Simulator) := do
  let action := action.setReport (some report)
  let (action_passed, s) := action.eval s
  let s ← if !action_passed || s.debug_ then aborting.report ext action action_passed s
    else pure s
  let s := { s with actions_passed_ := s.actions_passed_ && action_passed }
  pure (action.setReport none, s)

/-- Simulator.h lines 753-772, with error statements that can end the run. -/
def aborting.processQueuedReportAction (ext : Externals) (s : Simulator)
    (report : Report_) : Run Simulator :=
  if !s.queued_report_actions_.empty then
    match s.queued_report_actions_.popFront with
    | none => pure s
    | some (action, rest) =>
      let s := { s with queued_report_actions_ := rest }
      let report_type := action.getReportTypeId
      if report_type = ext.Report_hid_report_type_ then do
        let r ← aborting.processReportAction ext s action report
        pure r.2
      else if report_type = ext.hid_report_type_ report.report_type then do
        let r ← aborting.processReportAction ext s action report
        pure r.2
      else
        aborting.error (.typeMismatch action.getTypeString report.report_type) s
  else pure s

/-- The loop of Simulator.h lines 775-777, with error statements that can end
the run. -/
def aborting.processReportActionList (ext : Externals) (s : Simulator) (report : Report_) :
    List ReportAction_ → Run (List ReportAction_ × Simulator)
  | [] => pure ([], s)
  | action :: rest => do
    let r ← aborting.processReportAction ext s action report
    let t ← aborting.processReportActionList ext r.2 report rest
    pure (r.1 :: t.1, t.2)

/-- Simulator.h lines 774-777, with error statements that can end the run. -/
def aborting.processPermanentReportActions (ext : Externals) (s : Simulator)
    (report : Report_) : Run Simulator := do
  let permanent_actions := s.getPermanentReportActions report.report_type
  let r ← aborting.processReportActionList ext s report permanent_actions.directAccess
  pure (r.2.setPermanentReportActions report.report_type { queue_ := r.1 })

/-- The loop of Simulator.h lines 779-784, with error statements that can end
the run. -/
def aborting.processGenericReportActionList (ext : Externals) (s : Simulator)
    (report : Report_) : List ReportAction_ → Run (List ReportAction_ × Simulator)
  | [] => pure ([], s)
  | action :: rest => do
    let r ←
      if genericActionApplies ext report.report_type action then
        aborting.processReportAction ext s action report
      else pure (action, s)
    let t ← aborting.processGenericReportActionList ext r.2 report rest
    pure (r.1 :: t.1, t.2)

/-- Simulator.h lines 779-784, with error statements that can end the run. -/
def aborting.processPermanentGenericReportActions (ext : Externals) (s : Simulator)
    (report : Report_) : Run Simulator := do
  let r ← aborting.processGenericReportActionList ext s report
    s.permanent_generic_report_actions_.directAccess
  pure { r.2 with permanent_generic_report_actions_ := { queue_ := r.1 } }

/-- Simulator.h lines 786-788, with an error statement that can end the run. -/
def aborting.checkReportWithoutQueuedActions (s : Simulator) (n_actions_queued : Nat)
    (T : ReportType) : Run Simulator :=
  if n_actions_queued = 0 ∧ s.getErrorIfReportWithoutQueuedActions = true then
    aborting.error (.reportWithoutQueuedActions T) s
  else pure s

/-- Simulator.h lines 732-789, with error statements that can end the run. -/
def aborting.processReport (ext : Externals) (s : Simulator) (report : Report_) :
    Run Simulator := do
  let s := s.countReport report.report_type
  let n_actions_queued := s.queued_report_actions_.size
  let s ← aborting.processQueuedReportAction ext s report
  let s ← aborting.processPermanentReportActions ext s report
  let s ← aborting.processPermanentGenericReportActions ext s report
  aborting.checkReportWithoutQueuedActions s n_actions_queued report.report_type

/-- The reports of a list processed one after the other, as long as the run has
not ended. -/
def aborting.processReports (ext : Externals) (s : Simulator) : List Report_ → Run Simulator
  | [] => pure s
  | report :: rest => do
    let s ← aborting.processReport ext s report
    aborting.processReports ext s rest

/-- The reports of a list processed one after the other by `processReport`. -/
def Simulator.processReports (ext : Externals) (s : Simulator) : List Report_ → Simulator
  | [] => s
  | report :: rest => (s.processReport ext report).processReports ext rest

/-- The simulator of `exampleMismatch` with abort-on-first-error enabled. -/
def exampleAbort : Simulator := { exampleMismatch with abort_on_first_error_ := true }

/-! ## The cycle driver -/

/-- Modelled from the spec: the second half of a cycle (spec 4.3,
Running to Draining): evaluate all permanent cycle checks in insertion order,
then pop and evaluate one queued cycle check if there is one. -/
def Simulator.evaluateCycleActions (ext : Externals) (s : Simulator) : Simulator :=
  let r := s.evaluateActionsInternal ext s.permanent_cycle_actions_.directAccess
  let s := { r.2 with permanent_cycle_actions_ := { queue_ := r.1 } }
  match s.queued_cycle_actions_.popFront with
  | none => s
  | some (action, rest) =>
    ({ s with queued_cycle_actions_ := rest }.evaluateActionsInternal ext [action]).2

/-- Modelled from the spec: `cycle()` and `cycleInternal` are declared in
Simulator.h (lines 410 and 673) but not defined under src/. Spec 4.3: advance
the cycle counter, zero all per-cycle counters, route every report the device
emits through `processReport` as it is produced, then evaluate the cycle
checks. `reports` are the reports the device emits in this cycle, in emission
order. -/
def Simulator.cycle (ext : Externals) (s : Simulator) (reports : List Report_) : Simulator :=
  let s := { s with cycle_id_ := s.cycle_id_ + 1, n_typed_reports_in_cycle_ := fun _ => 0 }
  let s := s.processReports ext reports
  s.evaluateCycleActions ext

/-- The states at the end of each of a sequence of cycles; `emitted` lists, for
each cycle, the reports the device emits in it. -/
def Simulator.cycles (ext : Externals) (s : Simulator) : List (List Report_) → List Simulator
  | [] => []
  | reports :: rest => s.cycle ext reports :: (s.cycle ext reports).cycles ext rest

/-- The state after a sequence of cycles. -/
def Simulator.afterCycles (ext : Externals) (s : Simulator) : List (List Report_) → Simulator
  | [] => s
  | reports :: rest => (s.cycle ext reports).afterCycles ext rest

/-- State `b` is state `a` up to the verdict: the pass flag, the error count
and the error output may differ, every other data member is the same. -/
def sameButVerdict (a b : SimulatorState) : Prop :=
  ∃ (p : Bool) (c : Int) (o : List ErrorLine),
    b = { a with actions_passed_ := p, error_count_ := c, out_ := o }

/-- Evaluation `e` is the evaluation of the report action `a` with `report`
bound to it, in a state that is `st` up to the verdict. -/
def evaluates (st : SimulatorState) (report : Report_) (a : ReportAction_) (e : EvalCall) :
    Prop :=
  ∃ st', sameButVerdict st st' ∧
    e = { action := a.id, report := some report, result := a.evalInternal st' (some report) }

/-- Evaluation `e` is the evaluation of the action `a`, with no report bound,
in a state that is `st` up to the verdict. -/
def evaluatesAction (st : SimulatorState) (a : Action_) (e : EvalCall) : Prop :=
  ∃ st', sameButVerdict st st' ∧
    e = { action := a.id, report := none, result := a.evalInternal st' }

/-- The report actions `processReport` evaluates, in the order it evaluates
them: the head of the queue if it applies, the permanent actions of the class
of the report, the generic permanent actions that are selected. -/
def evaluatedActions (ext : Externals) (s : Simulator) (report : Report_) :
    List ReportAction_ :=
  (s.queued_report_actions_.directAccess.take 1).filter
      (fun a => decide (a.getReportTypeId = ext.Report_hid_report_type_
        ∨ a.getReportTypeId = ext.hid_report_type_ report.report_type)) ++
    ((s.getPermanentReportActions report.report_type).directAccess ++
      s.permanent_generic_report_actions_.directAccess.filter
        (fun g => decide (g.getReportTypeId = ext.hid_report_type_ report.report_type
          ∨ g.getReportTypeId = ext.GenericReportTypeId)))

/-! ## Assertions (src/src/assertions) -/

/-- ReportNthInCycle.h lines 51-53, `evalInternal` of the assertion
constructed with `report_id` (the source compares with `report_id`, which
stands for the member `report_id_`). `test_driver_` is the simulator the
assertion belongs to. -/
def ReportNthInCycle.evalInternal (report_id_ : Int) (test_driver_ : SimulatorState) : Bool :=
  test_driver_.getNumReportsInCycle == report_id_

/-- The assertion `ReportNthInCycle(report_id)` as a report check with identity
`id` and type tag `report_type_id`. -/
def ReportNthInCycle (report_id : Int) (id : Nat) (report_type_id : Nat) : ReportAction_ :=
  { id := id, report_type_id_ := report_type_id, type_string_ := "keyboard",
    evalInternal := fun test_driver _ => ReportNthInCycle.evalInternal report_id test_driver }

/-- The simulator after a first keyboard report of a cycle, with the assertion
that the next report is the second of the cycle at the head of the queue. -/
def exampleSecond : Simulator :=
  { exampleEmpty.processReport exampleExt exampleKeyboardReport with
    queued_report_actions_ := { queue_ := [ReportNthInCycle 2 7 8] } }

/-- The `Layer` object of the firmware (`kaleidoscope/layers.h`, outside the
repository) as far as the assertions use it: `isActive` tells for a layer
number (a `uint8_t`) whether that layer is active, `top` is the number of the
top active layer. The layer state is a parameter of the embedding. -/
structure Layer_ where
  isActive : Nat → Bool
  top : Nat

/-- The conversion `(uint8_t)` of an `int`: the value modulo 256. -/
def toUInt8 (n : Int) : Nat := (n % 256).toNat

/-- LayerIsActive.h lines 50-52, `evalInternal` of the assertion constructed
with `layer_id`. -/
def LayerIsActive.evalInternal (Layer : Layer_) (layer_id_ : Int) : Bool :=
  Layer.isActive (toUInt8 layer_id_)

/-- A layer state: the base layer 0 and layer 1 are active, layer 1 is the top
layer. -/
def exampleLayers : Layer_ := { isActive := fun l => decide (l ≤ 1), top := 1 }

/-- AssertTopActiveLayerIs.h lines 58-60, `evalInternal` of the action
constructed with `layer_id`. `Layer.top()` is a `uint8_t`, and so is the
converted `layer_id_`; the two are compared by value. -/
def AssertTopActiveLayerIs.evalInternal (Layer : Layer_) (layer_id_ : Int) : Bool :=
  Layer.top == toUInt8 layer_id_

/-- A layer state: only the base layer 0 is active, and it is the top layer. -/
def exampleBaseLayer : Layer_ := { isActive := fun l => decide (l = 0), top := 0 }

/-- Simulator.h line 630. -/
def SimulatorState.getNumOverallKeyboardReports (s : SimulatorState) : Int :=
  s.n_typed_overall_reports_ KeyboardReportSid

/-- NumOverallReportsGenerated.h lines 51-53, `evalInternal` of the assertion
constructed with `n_overall_reports`. The number is the only thing the
constructor stores (lines 40-41). `test_driver_` is the simulator the assertion
belongs to; its getter `getNOverallKeyboardReports()` is the cumulative
keyboard-report count, `getNumOverallKeyboardReports()` of Simulator.h. -/
def NumOverallReportsGenerated.evalInternal (n_overall_reports_ : Int)
    (test_driver_ : SimulatorState) : Bool :=
  test_driver_.getNumOverallKeyboardReports == n_overall_reports_

/-- The number of keyboard reports generated between the state in which an
assertion was instantiated and the state in which it is evaluated: the quantity
the doc comment of NumOverallReportsGenerated.h (lines 26-29) speaks of. -/
def keyboardReportsSince (instantiated now : SimulatorState) : Int :=
  now.getNumOverallKeyboardReports - instantiated.getNumOverallKeyboardReports

/-- The simulator after one keyboard report. -/
def exampleAfterOne : Simulator := exampleEmpty.processReport exampleExt exampleKeyboardReport

/-- The simulator after two keyboard reports. -/
def exampleAfterTwo : Simulator :=
  exampleAfterOne.processReport exampleExt exampleKeyboardReport

/-! ## Counter arrays -/

/-- The wildcard slot of a counter array holds the sum of the four typed
slots. -/
def balanced (a : Fin 5 → Int) : Prop :=
  a AnyTypeReportSid =
    a BootKeyboardReportSid + a KeyboardReportSid + a MouseReportSid + a AbsoluteMouseReportSid

/-! ## The queued step with the failure of `popFront` made explicit -/

/-- Simulator.h lines 753-772, as `Simulator.processQueuedReportAction`, but a
`popFront()` that is called on an empty container is an outcome of its own
(`none`) instead of being passed over. -/
def checked.processQueuedReportAction (ext : Externals) (s : Simulator)
    (report : Report_) : Option Simulator :=
  if !s.queued_report_actions_.empty then
    match s.queued_report_actions_.popFront with
    | none => none
    | some (action, rest) =>
      let s := { s with queued_report_actions_ := rest }
      let report_type := action.getReportTypeId
      if report_type = ext.Report_hid_report_type_ then
        some (s.processReportAction ext action report).2
      else if report_type = ext.hid_report_type_ report.report_type then
        some (s.processReportAction ext action report).2
      else
        some (ErrorStream.output
          (.typeMismatch action.getTypeString report.report_type) s.error)
  else some s

/-- Simulator.h lines 732-789, with the queued step that makes the failure of
`popFront` explicit. No other line of `processReport` calls `popFront`. -/
def checked.processReport (ext : Externals) (s : Simulator) (report : Report_) :
    Option Simulator :=
  let s := s.countReport report.report_type
  let n_actions_queued := s.queued_report_actions_.size
  match checked.processQueuedReportAction ext s report with
  | none => none
  | some s =>
    let s := s.processPermanentReportActions ext report
    let s := s.processPermanentGenericReportActions ext report
    some (s.checkReportWithoutQueuedActions n_actions_queued report.report_type)

/-! ## Reports that arrive from the HID layer (Simulator.cpp, lines 53-89) -/

/-- The report ids of the HID library (`HID_REPORTID_*`, outside the
repository) that `processHIDReport` tells apart; each is a `uint8_t`. -/
structure HIDReportIds where
  HID_REPORTID_GAMEPAD : Nat
  HID_REPORTID_CONSUMERCONTROL : Nat
  HID_REPORTID_SYSTEMCONTROL : Nat
  HID_REPORTID_KEYBOARD : Nat
  HID_REPORTID_MOUSE_ABSOLUTE : Nat
  HID_REPORTID_MOUSE : Nat
  HID_REPORTID_NKRO_KEYBOARD : Nat

/-- The ids are the `case` labels of one `switch` statement, which C++ accepts
only when they are pairwise different. -/
def HIDReportIds.distinct (ids : HIDReportIds) : Prop :=
  [ids.HID_REPORTID_GAMEPAD, ids.HID_REPORTID_CONSUMERCONTROL, ids.HID_REPORTID_SYSTEMCONTROL,
    ids.HID_REPORTID_KEYBOARD, ids.HID_REPORTID_MOUSE_ABSOLUTE, ids.HID_REPORTID_MOUSE,
    ids.HID_REPORTID_NKRO_KEYBOARD].Nodup

instance (ids : HIDReportIds) : Decidable ids.distinct := by
  unfold HIDReportIds.distinct
  infer_instance

/-- Simulator.cpp lines 53-89. The simulator singleton is the state `s`; `data`
is the payload the report object is constructed from; the arguments `len` and
`result` are not used by the function. The `switch` is the chain of tests in
the order of its labels; a report that is ignored is only logged. -/
def Simulator.processHIDReport (ext : Externals) (ids : HIDReportIds) (s : Simulator)
    (id : Nat) (data : List Nat) : Simulator :=
  if id = ids.HID_REPORTID_GAMEPAD ∨ id = ids.HID_REPORTID_CONSUMERCONTROL
      ∨ id = ids.HID_REPORTID_SYSTEMCONTROL then s
  else if id = ids.HID_REPORTID_KEYBOARD then
    s.processReport ext { report_type := .BootKeyboardReport, data := data }
  else if id = ids.HID_REPORTID_MOUSE_ABSOLUTE then
    s.processReport ext { report_type := .AbsoluteMouseReport, data := data }
  else if id = ids.HID_REPORTID_MOUSE then
    s.processReport ext { report_type := .MouseReport, data := data }
  else if id = ids.HID_REPORTID_NKRO_KEYBOARD then
    s.processReport ext { report_type := .KeyboardReport, data := data }
  else
    ErrorStream.output (.unknownHIDReport id) s.error

/-- The report ids as the HID library numbers them. -/
def exampleIds : HIDReportIds :=
  { HID_REPORTID_GAMEPAD := 6
    HID_REPORTID_CONSUMERCONTROL := 4
    HID_REPORTID_SYSTEMCONTROL := 5
    HID_REPORTID_KEYBOARD := 2
    HID_REPORTID_MOUSE_ABSOLUTE := 7
    HID_REPORTID_MOUSE := 1
    HID_REPORTID_NKRO_KEYBOARD := 8 }

/-- The simulator `s` sends the HID report with id `id` to `processReport` as a
report of class `T`: the call is that call of `processReport`, the cumulative
and the per-cycle counter of `T` and of the wildcard slot grow by one, and no
other slot changes. -/
def routesTo (ext : Externals) (ids : HIDReportIds) (s : Simulator) (id : Nat)
    (data : List Nat) (T : ReportType) : Prop :=
  s.processHIDReport ext ids id data = s.processReport ext { report_type := T, data := data }
  ∧ ∀ i : Fin 5,
      (s.processHIDReport ext ids id data).n_typed_overall_reports_ i =
          s.n_typed_overall_reports_ i +
            (if i = AnyTypeReportSid ∨ i = ReportTraits.sid T then 1 else 0)
      ∧ (s.processHIDReport ext ids id data).n_typed_reports_in_cycle_ i =
          s.n_typed_reports_in_cycle_ i +
            (if i = AnyTypeReportSid ∨ i = ReportTraits.sid T then 1 else 0)

/-! ## Lemmas -/

theorem failLines_nil (ext : Externals) : failLines ext [] = [] := by
  simp [failLines]

theorem failLines_append (ext : Externals) (E F : List EvalCall) :
    failLines ext (E ++ F) = failLines ext E ++ failLines ext F := by
  cases h : ext.failed_report_is_error <;> simp [failLines, h]

theorem failLines_cons (ext : Externals) (e : EvalCall) (E : List EvalCall) :
    failLines ext (e :: E) = failLines ext [e] ++ failLines ext E :=
  failLines_append ext [e] E

theorem failLines_isActionFailed (ext : Externals) (E : List EvalCall) :
    ∀ l ∈ failLines ext E, l.isActionFailed = true := by
  intro l hl
  cases h : ext.failed_report_is_error
  · simp [failLines, h] at hl
  · simp only [failLines, h, if_true, List.mem_map] at hl
    obtain ⟨e, -, rfl⟩ := hl
    rfl

theorem failLines_of_all (ext : Externals) (E : List EvalCall)
    (h : E.all (fun e => e.result) = true) : failLines ext E = [] := by
  cases hf : ext.failed_report_is_error
  · simp [failLines, hf]
  · simp only [failLines, hf, if_true, List.map_eq_nil_iff, List.filter_eq_nil_iff]
    intro e he
    simp only [List.all_eq_true] at h
    simp [h e he]

theorem withEval_withEval (s : Simulator) (p q : Bool) (e f : List EvalCall) (r t : List Nat)
    (l m : List ErrorLine) :
    (s.withEval p e r l).withEval q f t m = s.withEval q f t (l ++ m) := by
  simp [Simulator.withEval, add_assoc]

theorem withEval_self (s : Simulator) :
    s.withEval s.actions_passed_ s.eval_calls_ s.report_calls_ [] = s := by
  simp [Simulator.withEval]

theorem processReportAction_eq (ext : Externals) (s : Simulator) (action : ReportAction_)
    (report : Report_) :
    s.processReportAction ext action report =
      ({ action with report_ := none },
        s.withEval (s.actions_passed_ && (evalOf s action report).result)
          (s.eval_calls_ ++ [evalOf s action report])
          (if !(evalOf s action report).result || s.debug_ then s.report_calls_ ++ [action.id]
            else s.report_calls_)
          (failLines ext [evalOf s action report])) := by
  rcases Bool.eq_false_or_eq_true (action.evalInternal s.toSimulatorState (some report))
    with hr | hr <;>
  rcases Bool.eq_false_or_eq_true s.debug_ with hd | hd <;>
  rcases Bool.eq_false_or_eq_true ext.failed_report_is_error with hf | hf <;>
  simp [Simulator.processReportAction, ReportAction_.eval, ReportAction_.setReport,
    ReportAction_.report, Simulator.withEval, evalOf, failLines, ErrorStream.output,
    Simulator.error, hr, hd, hf]

theorem processReportActionList_spec (ext : Externals) (report : Report_) :
    ∀ (l : List ReportAction_) (s : Simulator), ∃ E : List EvalCall,
      (s.processReportActionList ext report l).2 =
        s.withEval (s.actions_passed_ && E.all (fun e => e.result)) (s.eval_calls_ ++ E)
          (s.processReportActionList ext report l).2.report_calls_ (failLines ext E)
      ∧ E.map EvalCall.key = l.map (keyOf report)
      ∧ (s.processReportActionList ext report l).1 =
          l.map (fun a => { a with report_ := none }) := by
  intro l
  induction l with
  | nil =>
    intro s
    refine ⟨[], ?_, rfl, rfl⟩
    simp [Simulator.processReportActionList, Simulator.withEval, failLines_nil]
  | cons a rest ih =>
    intro s
    obtain ⟨E, h1, h2, h3⟩ := ih (s.processReportAction ext a report).2
    refine ⟨evalOf s a report :: E, ?_, ?_, ?_⟩
    · simp only [Simulator.processReportActionList]
      rw [h1]
      simp only [processReportAction_eq, withEval_withEval, failLines_cons ext _ E]
      simp [Simulator.withEval, Bool.and_assoc]
    · simp [h2, EvalCall.key, evalOf, keyOf]
    · simp only [Simulator.processReportActionList]
      rw [h3]
      simp [processReportAction_eq]

theorem processGenericReportActionList_spec (ext : Externals) (report : Report_) :
    ∀ (l : List ReportAction_) (s : Simulator), ∃ E : List EvalCall,
      (s.processGenericReportActionList ext report l).2 =
        s.withEval (s.actions_passed_ && E.all (fun e => e.result)) (s.eval_calls_ ++ E)
          (s.processGenericReportActionList ext report l).2.report_calls_ (failLines ext E)
      ∧ E.map EvalCall.key =
          (l.filter (genericActionApplies ext report.report_type)).map (keyOf report) := by
  intro l
  induction l with
  | nil =>
    intro s
    refine ⟨[], ?_, rfl⟩
    simp [Simulator.processGenericReportActionList, Simulator.withEval, failLines_nil]
  | cons a rest ih =>
    intro s
    by_cases ha : genericActionApplies ext report.report_type a = true
    · obtain ⟨E, h1, h2⟩ := ih (s.processReportAction ext a report).2
      refine ⟨evalOf s a report :: E, ?_, ?_⟩
      · simp only [Simulator.processGenericReportActionList, ha, if_true]
        rw [h1]
        simp only [processReportAction_eq, withEval_withEval, failLines_cons ext _ E]
        simp [Simulator.withEval, Bool.and_assoc]
      · simp [h2, ha, EvalCall.key, evalOf, keyOf]
    · obtain ⟨E, h1, h2⟩ := ih s
      refine ⟨E, ?_, ?_⟩
      · simp only [Simulator.processGenericReportActionList, ha]
        exact h1
      · simp [h2, ha]

theorem setPermanentReportActions_toSimulatorState (s : Simulator) (T : ReportType)
    (c : ActionContainer ReportAction_) :
    (s.setPermanentReportActions T c).toSimulatorState = s.toSimulatorState := by
  cases T <;> rfl

theorem setPermanentReportActions_eval_calls (s : Simulator) (T : ReportType)
    (c : ActionContainer ReportAction_) :
    (s.setPermanentReportActions T c).eval_calls_ = s.eval_calls_ := by
  cases T <;> rfl

theorem setPermanentReportActions_queued (s : Simulator) (T : ReportType)
    (c : ActionContainer ReportAction_) :
    (s.setPermanentReportActions T c).queued_report_actions_ = s.queued_report_actions_ := by
  cases T <;> rfl

theorem setPermanentReportActions_generic (s : Simulator) (T : ReportType)
    (c : ActionContainer ReportAction_) :
    (s.setPermanentReportActions T c).permanent_generic_report_actions_ =
      s.permanent_generic_report_actions_ := by
  cases T <;> rfl

theorem processPermanentReportActions_spec (ext : Externals) (s : Simulator)
    (report : Report_) :
    ∃ E : List EvalCall,
      (s.processPermanentReportActions ext report).toSimulatorState =
        { s.toSimulatorState with
          actions_passed_ := s.actions_passed_ && E.all (fun e => e.result)
          error_count_ := s.error_count_ + (failLines ext E).length
          out_ := s.out_ ++ failLines ext E }
      ∧ (s.processPermanentReportActions ext report).eval_calls_ = s.eval_calls_ ++ E
      ∧ E.map EvalCall.key =
          (s.getPermanentReportActions report.report_type).directAccess.map (keyOf report)
      ∧ (s.processPermanentReportActions ext report).queued_report_actions_ =
          s.queued_report_actions_
      ∧ (s.processPermanentReportActions ext report).permanent_generic_report_actions_ =
          s.permanent_generic_report_actions_ := by
  obtain ⟨E, h1, h2, _⟩ := processReportActionList_spec ext report
    (s.getPermanentReportActions report.report_type).directAccess s
  refine ⟨E, ?_, ?_, h2, ?_, ?_⟩
  · simp only [Simulator.processPermanentReportActions,
      setPermanentReportActions_toSimulatorState]
    rw [h1]; rfl
  · simp only [Simulator.processPermanentReportActions, setPermanentReportActions_eval_calls]
    rw [h1]; rfl
  · simp only [Simulator.processPermanentReportActions, setPermanentReportActions_queued]
    rw [h1]; rfl
  · simp only [Simulator.processPermanentReportActions, setPermanentReportActions_generic]
    rw [h1]; rfl

theorem processPermanentGenericReportActions_spec (ext : Externals) (s : Simulator)
    (report : Report_) :
    ∃ E : List EvalCall,
      (s.processPermanentGenericReportActions ext report).toSimulatorState =
        { s.toSimulatorState with
          actions_passed_ := s.actions_passed_ && E.all (fun e => e.result)
          error_count_ := s.error_count_ + (failLines ext E).length
          out_ := s.out_ ++ failLines ext E }
      ∧ (s.processPermanentGenericReportActions ext report).eval_calls_ = s.eval_calls_ ++ E
      ∧ E.map EvalCall.key =
          (s.permanent_generic_report_actions_.directAccess.filter
            (genericActionApplies ext report.report_type)).map (keyOf report)
      ∧ (s.processPermanentGenericReportActions ext report).queued_report_actions_ =
          s.queued_report_actions_ := by
  obtain ⟨E, h1, h2⟩ := processGenericReportActionList_spec ext report
    s.permanent_generic_report_actions_.directAccess s
  refine ⟨E, ?_, ?_, h2, ?_⟩
  · simp only [Simulator.processPermanentGenericReportActions]
    rw [h1]; rfl
  · simp only [Simulator.processPermanentGenericReportActions]
    rw [h1]; rfl
  · simp only [Simulator.processPermanentGenericReportActions]
    rw [h1]; rfl

theorem processQueuedReportAction_nil (ext : Externals) (s : Simulator) (report : Report_)
    (h : s.queued_report_actions_.directAccess = []) :
    s.processQueuedReportAction ext report = s := by
  have h0 : s.queued_report_actions_.queue_ = [] := h
  simp [Simulator.processQueuedReportAction, ActionContainer.empty, h0]

theorem processQueuedReportAction_applies (ext : Externals) (s : Simulator)
    (report : Report_) (a : ReportAction_) (rest : List ReportAction_)
    (h : s.queued_report_actions_.directAccess = a :: rest)
    (ha : queuedActionApplies ext report.report_type a = true) :
    s.processQueuedReportAction ext report =
      ({ s with queued_report_actions_ := { queue_ := rest } }.processReportAction ext a
        report).2 := by
  have h0 : s.queued_report_actions_.queue_ = a :: rest := h
  simp only [queuedActionApplies, Bool.or_eq_true, beq_iff_eq] at ha
  simp only [Simulator.processQueuedReportAction, ActionContainer.empty,
    ActionContainer.popFront, h0]
  rcases ha with ha | ha
  · simp [ha]
  · simp [ha]

theorem processQueuedReportAction_mismatch (ext : Externals) (s : Simulator)
    (report : Report_) (a : ReportAction_) (rest : List ReportAction_)
    (h : s.queued_report_actions_.directAccess = a :: rest)
    (ha : queuedActionApplies ext report.report_type a = false) :
    s.processQueuedReportAction ext report =
      ErrorStream.output (.typeMismatch a.getTypeString report.report_type)
        { s with queued_report_actions_ := { queue_ := rest } }.error := by
  have h0 : s.queued_report_actions_.queue_ = a :: rest := h
  simp only [queuedActionApplies, Bool.or_eq_false_iff, beq_eq_false_iff_ne, ne_eq] at ha
  simp [Simulator.processQueuedReportAction, ActionContainer.empty,
    ActionContainer.popFront, h0, ha.1, ha.2]

theorem getPermanentReportActions_congr (s t : Simulator) (T : ReportType)
    (h1 : t.permanent_boot_keyboard_report_actions_ = s.permanent_boot_keyboard_report_actions_)
    (h2 : t.permanent_keyboard_report_actions_ = s.permanent_keyboard_report_actions_)
    (h3 : t.permanent_mouse_report_actions_ = s.permanent_mouse_report_actions_)
    (h4 : t.permanent_absolute_mouse_report_actions_ =
      s.permanent_absolute_mouse_report_actions_) :
    t.getPermanentReportActions T = s.getPermanentReportActions T := by
  cases T <;> simp [Simulator.getPermanentReportActions, h1, h2, h3, h4]

theorem processQueuedReportAction_spec (ext : Externals) (s : Simulator)
    (report : Report_) :
    ∃ Q : List EvalCall,
      (s.processQueuedReportAction ext report).toSimulatorState =
        { s.toSimulatorState with
          actions_passed_ := s.actions_passed_ && Q.all (fun e => e.result)
          error_count_ := s.error_count_ +
            (queuedErrors ext s report ++ failLines ext Q).length
          out_ := s.out_ ++ (queuedErrors ext s report ++ failLines ext Q) }
      ∧ (s.processQueuedReportAction ext report).eval_calls_ = s.eval_calls_ ++ Q
      ∧ (s.processQueuedReportAction ext report).queued_report_actions_.directAccess =
          s.queued_report_actions_.directAccess.tail
      ∧ Q.map EvalCall.key = queuedKeys ext s report
      ∧ (∀ T, (s.processQueuedReportAction ext report).getPermanentReportActions T =
          s.getPermanentReportActions T)
      ∧ (s.processQueuedReportAction ext report).permanent_generic_report_actions_ =
          s.permanent_generic_report_actions_ := by
  cases hq : s.queued_report_actions_.directAccess with
  | nil =>
    rw [processQueuedReportAction_nil ext s report hq]
    refine ⟨[], ?_, ?_, ?_, ?_, fun _ => rfl, rfl⟩
    · ext : 1 <;> simp [queuedErrors, hq, failLines_nil]
    · simp
    · simp [hq]
    · simp [queuedKeys, hq]
  | cons a rest =>
    by_cases ha : queuedActionApplies ext report.report_type a = true
    · rw [processQueuedReportAction_applies ext s report a rest hq ha, processReportAction_eq]
      refine ⟨[evalOf { s with queued_report_actions_ := { queue_ := rest } } a report],
        ?_, ?_, ?_, ?_, ?_, rfl⟩
      · ext : 1 <;> simp [queuedErrors, hq, ha, Simulator.withEval]
      · simp [Simulator.withEval]
      · simp [Simulator.withEval, ActionContainer.directAccess]
      · simp [queuedKeys, hq, ha, EvalCall.key, evalOf, keyOf]
      · intro T; cases T <;> rfl
    · simp only [Bool.not_eq_true] at ha
      rw [processQueuedReportAction_mismatch ext s report a rest hq ha]
      refine ⟨[], ?_, ?_, ?_, ?_, ?_, rfl⟩
      · ext : 1 <;>
          simp [queuedErrors, hq, ha, ErrorStream.output, Simulator.error, failLines_nil]
      · simp [ErrorStream.output, Simulator.error]
      · simp [ErrorStream.output, Simulator.error, ActionContainer.directAccess]
      · simp [queuedKeys, hq, ha]
      · intro T; cases T <;> rfl

theorem checkReportWithoutQueuedActions_spec (s : Simulator) (n : Nat) (T : ReportType) :
    (s.checkReportWithoutQueuedActions n T).toSimulatorState =
        { s.toSimulatorState with
          error_count_ := s.error_count_ +
            (if n = 0 ∧ s.error_if_report_without_queued_actions_ = true then 1 else 0)
          out_ := s.out_ ++
            (if n = 0 ∧ s.error_if_report_without_queued_actions_ = true then
              [.reportWithoutQueuedActions T] else []) }
      ∧ (s.checkReportWithoutQueuedActions n T).eval_calls_ = s.eval_calls_
      ∧ (s.checkReportWithoutQueuedActions n T).queued_report_actions_ =
          s.queued_report_actions_ := by
  by_cases h : n = 0 ∧ s.error_if_report_without_queued_actions_ = true
  · have e : s.checkReportWithoutQueuedActions n T =
        ErrorStream.output (.reportWithoutQueuedActions T) s.error := by
      simp only [Simulator.checkReportWithoutQueuedActions,
        Simulator.getErrorIfReportWithoutQueuedActions, if_pos h]
    rw [e, if_pos h, if_pos h]
    exact ⟨rfl, rfl, rfl⟩
  · have e : s.checkReportWithoutQueuedActions n T = s := by
      simp only [Simulator.checkReportWithoutQueuedActions,
        Simulator.getErrorIfReportWithoutQueuedActions, if_neg h]
    rw [e, if_neg h, if_neg h]
    refine ⟨?_, rfl, rfl⟩
    ext : 1 <;> simp

theorem countReport_toSimulatorState (s : Simulator) (T : ReportType) :
    (s.countReport T).toSimulatorState =
      { s.toSimulatorState with
        n_typed_overall_reports_ :=
          incr (incr s.n_typed_overall_reports_ AnyTypeReportSid) (ReportTraits.sid T)
        n_typed_reports_in_cycle_ :=
          incr (incr s.n_typed_reports_in_cycle_ AnyTypeReportSid) (ReportTraits.sid T) } :=
  rfl

/-- The complete effect of `processReport` on the data members, on the queue
and on the log of evaluations. -/
theorem processReport_spec (ext : Externals) (s : Simulator) (report : Report_) :
    ∃ Q P G : List EvalCall,
      (s.processReport ext report).toSimulatorState =
        { s.toSimulatorState with
          n_typed_overall_reports_ :=
            incr (incr s.n_typed_overall_reports_ AnyTypeReportSid)
              (ReportTraits.sid report.report_type)
          n_typed_reports_in_cycle_ :=
            incr (incr s.n_typed_reports_in_cycle_ AnyTypeReportSid)
              (ReportTraits.sid report.report_type)
          actions_passed_ := s.actions_passed_ && (Q ++ P ++ G).all (fun e => e.result)
          error_count_ := s.error_count_ + (reportErrors ext s report (Q ++ P ++ G)).length
          out_ := s.out_ ++ reportErrors ext s report (Q ++ P ++ G) }
      ∧ (s.processReport ext report).eval_calls_ = s.eval_calls_ ++ (Q ++ P ++ G)
      ∧ (s.processReport ext report).queued_report_actions_.directAccess =
          s.queued_report_actions_.directAccess.tail
      ∧ Q.map EvalCall.key = queuedKeys ext s report
      ∧ P.map EvalCall.key = permanentKeys s report
      ∧ G.map EvalCall.key = genericKeys ext s report := by
  obtain ⟨Q, hQ1, hQ2, hQ3, hQ4, hQ5, hQ6⟩ :=
    processQueuedReportAction_spec ext (s.countReport report.report_type) report
  obtain ⟨P, hP1, hP2, hP3, hP4, hP5⟩ := processPermanentReportActions_spec ext
    ((s.countReport report.report_type).processQueuedReportAction ext report) report
  obtain ⟨G, hG1, hG2, hG3, hG4⟩ := processPermanentGenericReportActions_spec ext
    (((s.countReport report.report_type).processQueuedReportAction ext report
      ).processPermanentReportActions ext report) report
  obtain ⟨hC1, hC2, hC3⟩ := checkReportWithoutQueuedActions_spec
    ((((s.countReport report.report_type).processQueuedReportAction ext report
      ).processPermanentReportActions ext report).processPermanentGenericReportActions ext
      report)
    (s.countReport report.report_type).queued_report_actions_.size report.report_type
  refine ⟨Q, P, G, ?_, ?_, ?_, ?_, ?_, ?_⟩
  · show (Simulator.checkReportWithoutQueuedActions _ _ _).toSimulatorState = _
    rw [hC1]
    have hn : s.queued_report_actions_.size =
        s.queued_report_actions_.directAccess.length := rfl
    have hflag : s.getErrorIfReportWithoutQueuedActions =
        s.error_if_report_without_queued_actions_ := rfl
    have hempty : s.queued_report_actions_.empty = s.queued_report_actions_.directAccess.isEmpty :=
      rfl
    have hcq : (s.countReport report.report_type).queued_report_actions_ =
        s.queued_report_actions_ := rfl
    cases hq : s.queued_report_actions_.directAccess with
    | nil =>
      cases hf : s.error_if_report_without_queued_actions_ <;>
      · ext : 1 <;>
          simp only [hG1, hP1, hQ1, countReport_toSimulatorState, hn, hcq, hflag, hempty,
            reportErrors, unconsumedErrors, queuedErrors, hq, hf, failLines_append] <;>
          ((try simp [Bool.and_assoc]); (try omega))
    | cons a rest =>
      cases ha : queuedActionApplies ext report.report_type a <;>
      · ext : 1 <;>
          simp only [hG1, hP1, hQ1, countReport_toSimulatorState, hn, hcq, hflag, hempty,
            reportErrors, unconsumedErrors, queuedErrors, hq, ha, failLines_append] <;>
          ((try simp [Bool.and_assoc]); (try omega))
  · show (Simulator.checkReportWithoutQueuedActions _ _ _).eval_calls_ = _
    rw [hC2, hG2, hP2, hQ2]
    simp [Simulator.countReport]
  · show (Simulator.checkReportWithoutQueuedActions _ _ _).queued_report_actions_.directAccess
      = _
    rw [hC3, hG4, hP4, hQ3]
    rfl
  · rw [hQ4]; rfl
  · rw [hP3, hQ5]; rfl
  · rw [hG3, hP5, hQ6]; rfl

theorem sid_ne_any (T : ReportType) : ReportTraits.sid T ≠ AnyTypeReportSid := by
  cases T <;> decide

theorem incr_incr_any (a : Fin 5 → Int) (T : ReportType) :
    incr (incr a AnyTypeReportSid) (ReportTraits.sid T) AnyTypeReportSid =
      a AnyTypeReportSid + 1 := by
  simp [incr, Function.update, (sid_ne_any T).symm]

theorem incr_incr_sid (a : Fin 5 → Int) (T : ReportType) :
    incr (incr a AnyTypeReportSid) (ReportTraits.sid T) (ReportTraits.sid T) =
      a (ReportTraits.sid T) + 1 := by
  simp [incr, Function.update, sid_ne_any T]

theorem incr_incr_other (a : Fin 5 → Int) (T : ReportType) (i : Fin 5)
    (h0 : i ≠ AnyTypeReportSid) (h1 : i ≠ ReportTraits.sid T) :
    incr (incr a AnyTypeReportSid) (ReportTraits.sid T) i = a i := by
  simp [incr, Function.update, h0, h1]

theorem newErrors_append (s t : Simulator) (l : List ErrorLine) (h : t.out_ = s.out_ ++ l) :
    newErrors s t = l := by
  simp [newErrors, h]

theorem filter_failLines (ext : Externals) (E : List EvalCall) :
    (failLines ext E).filter (fun l => !l.isActionFailed) = [] := by
  rw [List.filter_eq_nil_iff]
  intro l hl
  simp [failLines_isActionFailed ext E l hl]

theorem filter_queuedErrors (ext : Externals) (s : Simulator) (report : Report_) :
    (queuedErrors ext s report).filter (fun l => !l.isActionFailed) =
      queuedErrors ext s report := by
  unfold queuedErrors
  cases s.queued_report_actions_.directAccess with
  | nil => rfl
  | cons a rest =>
    cases queuedActionApplies ext report.report_type a <;> simp [ErrorLine.isActionFailed]

theorem filter_unconsumedErrors (s : Simulator) (report : Report_) :
    (unconsumedErrors s report).filter (fun l => !l.isActionFailed) =
      unconsumedErrors s report := by
  unfold unconsumedErrors
  cases (s.queued_report_actions_.empty && s.getErrorIfReportWithoutQueuedActions) <;>
    simp [ErrorLine.isActionFailed]

/-- What `processReport` writes to the error output and how it counts it. -/
theorem processReport_errors (ext : Externals) (s : Simulator) (report : Report_) :
    ∃ E : List EvalCall,
      newErrors s (s.processReport ext report) = reportErrors ext s report E
      ∧ (s.processReport ext report).out_ = s.out_ ++ newErrors s (s.processReport ext report)
      ∧ (s.processReport ext report).error_count_ =
          s.error_count_ + (newErrors s (s.processReport ext report)).length
      ∧ engineErrors s (s.processReport ext report) =
          queuedErrors ext s report ++ unconsumedErrors s report
      ∧ (newErrors s (s.processReport ext report)).filter (fun l => l.isActionFailed) =
          failLines ext E := by
  obtain ⟨Q, P, G, h1, -⟩ := processReport_spec ext s report
  have hN : newErrors s (s.processReport ext report) =
      reportErrors ext s report (Q ++ P ++ G) := by
    apply newErrors_append
    rw [h1]
  refine ⟨Q ++ P ++ G, hN, ?_, ?_, ?_, ?_⟩
  · rw [hN, h1]
  · rw [hN, h1]
  · rw [engineErrors, hN, reportErrors, List.filter_append, List.filter_append,
      filter_failLines, filter_queuedErrors, filter_unconsumedErrors, List.append_nil]
  · have hq := filter_queuedErrors ext s report
    have hu := filter_unconsumedErrors s report
    have hf := failLines_isActionFailed ext (Q ++ P ++ G)
    rw [hN, reportErrors, List.filter_append, List.filter_append]
    have h1 : (queuedErrors ext s report).filter (fun l => l.isActionFailed) = [] := by
      rw [List.filter_eq_nil_iff]
      intro l hl
      have : l ∈ (queuedErrors ext s report).filter (fun l => !l.isActionFailed) := by
        rw [hq]; exact hl
      simpa using (List.mem_filter.mp this).2
    have h2 : (unconsumedErrors s report).filter (fun l => l.isActionFailed) = [] := by
      rw [List.filter_eq_nil_iff]
      intro l hl
      have : l ∈ (unconsumedErrors s report).filter (fun l => !l.isActionFailed) := by
        rw [hu]; exact hl
      simpa using (List.mem_filter.mp this).2
    have h3 : (failLines ext (Q ++ P ++ G)).filter (fun l => l.isActionFailed) =
        failLines ext (Q ++ P ++ G) := by
      rw [List.filter_eq_self]
      exact hf
    rw [h1, h2, h3, List.nil_append, List.append_nil]

theorem engineErrors_cases (ext : Externals) (s : Simulator) (report : Report_) :
    (s.queued_report_actions_.directAccess = []
        ∧ s.queued_report_actions_.empty = true
        ∧ s.getErrorIfReportWithoutQueuedActions = true
        ∧ queuedErrors ext s report = []
        ∧ unconsumedErrors s report = [.reportWithoutQueuedActions report.report_type])
    ∨ (s.queued_report_actions_.directAccess = []
        ∧ s.queued_report_actions_.empty = true
        ∧ s.getErrorIfReportWithoutQueuedActions = false
        ∧ queuedErrors ext s report = []
        ∧ unconsumedErrors s report = [])
    ∨ (∃ a rest, s.queued_report_actions_.directAccess = a :: rest
        ∧ s.queued_report_actions_.empty = false
        ∧ queuedActionApplies ext report.report_type a = true
        ∧ queuedErrors ext s report = []
        ∧ unconsumedErrors s report = [])
    ∨ (∃ a rest, s.queued_report_actions_.directAccess = a :: rest
        ∧ s.queued_report_actions_.empty = false
        ∧ queuedActionApplies ext report.report_type a = false
        ∧ queuedErrors ext s report = [.typeMismatch a.getTypeString report.report_type]
        ∧ unconsumedErrors s report = []) := by
  have hempty : s.queued_report_actions_.empty = s.queued_report_actions_.directAccess.isEmpty :=
    rfl
  cases hq : s.queued_report_actions_.directAccess with
  | nil =>
    cases hf : s.getErrorIfReportWithoutQueuedActions
    · right; left
      simp [queuedErrors, unconsumedErrors, hq, hf, hempty]
    · left
      simp [queuedErrors, unconsumedErrors, hq, hf, hempty]
  | cons a rest =>
    cases ha : queuedActionApplies ext report.report_type a
    · right; right; right
      exact ⟨a, rest, rfl, by simp [hempty, hq], ha,
        by simp [queuedErrors, hq, ha], by simp [unconsumedErrors, hq, hempty]⟩
    · right; right; left
      exact ⟨a, rest, rfl, by simp [hempty, hq], ha,
        by simp [queuedErrors, hq, ha], by simp [unconsumedErrors, hq, hempty]⟩

theorem permanentKeys_eq (s : Simulator) (report : Report_) :
    permanentKeys s report =
      (s.getPermanentReportActions report.report_type).directAccess.map
        (fun p => (p.id, some report)) := rfl

theorem genericKeys_eq (ext : Externals) (s : Simulator) (report : Report_) :
    genericKeys ext s report =
      (s.permanent_generic_report_actions_.directAccess.filter
        (fun g => decide (g.getReportTypeId = ext.hid_report_type_ report.report_type
          ∨ g.getReportTypeId = ext.GenericReportTypeId))).map
        (fun g => (g.id, some report)) := by
  have h : genericActionApplies ext report.report_type =
      fun g => decide (g.getReportTypeId = ext.hid_report_type_ report.report_type
        ∨ g.getReportTypeId = ext.GenericReportTypeId) := by
    funext g
    rw [Bool.eq_iff_iff]
    simp [genericActionApplies]
  simp only [genericKeys, h]
  rfl

theorem queuedKeys_eq (ext : Externals) (s : Simulator) (report : Report_) :
    queuedKeys ext s report =
      ((s.queued_report_actions_.directAccess.take 1).filter
        (fun a => decide (a.getReportTypeId = ext.Report_hid_report_type_
          ∨ a.getReportTypeId = ext.hid_report_type_ report.report_type))).map
        (fun a => (a.id, some report)) := by
  have h : ∀ a, queuedActionApplies ext report.report_type a =
      decide (a.getReportTypeId = ext.Report_hid_report_type_
        ∨ a.getReportTypeId = ext.hid_report_type_ report.report_type) := by
    intro a
    rw [Bool.eq_iff_iff]
    simp [queuedActionApplies]
  unfold queuedKeys
  cases s.queued_report_actions_.directAccess with
  | nil => rfl
  | cons a rest =>
    simp only [List.take_succ_cons, List.take_zero, h a]
    by_cases hc : a.getReportTypeId = ext.Report_hid_report_type_
        ∨ a.getReportTypeId = ext.hid_report_type_ report.report_type
    · simp [hc, keyOf]
    · simp [hc]

theorem processReport_eval_keys (ext : Externals) (s : Simulator)
    (report : Report_) :
    (s.processReport ext report).eval_calls_.map EvalCall.key =
      s.eval_calls_.map EvalCall.key ++
        (((s.queued_report_actions_.directAccess.take 1).filter
            (fun a => decide (a.getReportTypeId = ext.Report_hid_report_type_
              ∨ a.getReportTypeId = ext.hid_report_type_ report.report_type))).map
            (fun a => (a.id, some report)) ++
          ((s.getPermanentReportActions report.report_type).directAccess.map
              (fun p => (p.id, some report)) ++
            (s.permanent_generic_report_actions_.directAccess.filter
              (fun g => decide (g.getReportTypeId = ext.hid_report_type_ report.report_type
                ∨ g.getReportTypeId = ext.GenericReportTypeId))).map
              (fun g => (g.id, some report)))) := by
  obtain ⟨Q, P, G, -, h2, -, h4, h5, h6⟩ := processReport_spec ext s report
  rw [h2, List.map_append, List.map_append, List.map_append, h4, h5, h6, queuedKeys_eq,
    permanentKeys_eq, genericKeys_eq, List.append_assoc]

/-! ## Theorems -/

/-- C1: one call of `processReport` raises the cumulative and the per-cycle
counter of the wildcard slot and of the slot of the report's class by exactly
one each, and leaves both counters of every other slot as they were. -/
theorem processReport_counters (ext : Externals) (s : Simulator) (report : Report_) :
    (s.processReport ext report).n_typed_overall_reports_ AnyTypeReportSid =
        s.n_typed_overall_reports_ AnyTypeReportSid + 1
    ∧ (s.processReport ext report).n_typed_reports_in_cycle_ AnyTypeReportSid =
        s.n_typed_reports_in_cycle_ AnyTypeReportSid + 1
    ∧ (s.processReport ext report).getNumTypedOverallReports report.report_type =
        s.getNumTypedOverallReports report.report_type + 1
    ∧ (s.processReport ext report).getNumTypedReportsInCycle report.report_type =
        s.getNumTypedReportsInCycle report.report_type + 1
    ∧ ∀ i : Fin 5, i ≠ AnyTypeReportSid → i ≠ ReportTraits.sid report.report_type →
        (s.processReport ext report).n_typed_overall_reports_ i = s.n_typed_overall_reports_ i
        ∧ (s.processReport ext report).n_typed_reports_in_cycle_ i =
            s.n_typed_reports_in_cycle_ i := by
  obtain ⟨Q, P, G, h1, -⟩ := processReport_spec ext s report
  simp only [SimulatorState.getNumTypedOverallReports, SimulatorState.getNumTypedReportsInCycle]
  rw [h1]
  refine ⟨incr_incr_any _ _, incr_incr_any _ _, incr_incr_sid _ _, incr_incr_sid _ _, ?_⟩
  intro i h0 hi
  exact ⟨incr_incr_other _ _ i h0 hi, incr_incr_other _ _ i h0 hi⟩

/-- C1, at a concrete input: a keyboard report raises the wildcard and the
keyboard counters from 0 to 1 and leaves the mouse counters at 0. -/
theorem processReport_counters_witness :
    (exampleMatch.processReport exampleExt exampleKeyboardReport).n_typed_overall_reports_
        AnyTypeReportSid = 1
    ∧ (exampleMatch.processReport exampleExt exampleKeyboardReport).n_typed_overall_reports_
        KeyboardReportSid = 1
    ∧ (exampleMatch.processReport exampleExt exampleKeyboardReport).n_typed_overall_reports_
        MouseReportSid = 0
    ∧ (exampleMatch.processReport exampleExt exampleKeyboardReport).n_typed_reports_in_cycle_
        MouseReportSid = 0 :=
  have h := processReport_counters exampleExt exampleMatch exampleKeyboardReport
  have hm := h.2.2.2.2 MouseReportSid (by decide) (by decide)
  ⟨h.1, h.2.2.1, hm.1, hm.2⟩

/-- C2: after `processReport` the queue of report actions is the former queue
without its first element, the remaining entries unchanged and in the same
order, whether or not the head applied to the report; an empty queue stays
empty (`List.tail [] = []`). -/
theorem processReport_queue (ext : Externals) (s : Simulator) (report : Report_) :
    (s.processReport ext report).queued_report_actions_.directAccess =
        s.queued_report_actions_.directAccess.tail
    ∧ (s.processReport ext report).queued_report_actions_.size =
        s.queued_report_actions_.size - 1 := by
  obtain ⟨Q, P, G, -, -, h3, -⟩ := processReport_spec ext s report
  refine ⟨h3, ?_⟩
  have h : (s.processReport ext report).queued_report_actions_.size =
      (s.processReport ext report).queued_report_actions_.directAccess.length := rfl
  rw [h, h3, List.length_tail]
  rfl

/-- C3: when the head of the queue has a type tag that is neither
`Report_::hid_report_type_` nor the tag of the class of the arriving report,
the queued step of `processReport` (run after the counters were incremented)
raises the error count by exactly one, writes exactly the type-mismatch line
and evaluates nothing; over the whole call the engine writes that one
type-mismatch line and the only evaluations are those of the permanent
actions. -/
theorem processReport_type_mismatch (ext : Externals) (s : Simulator) (report : Report_)
    (a : ReportAction_) (rest : List ReportAction_)
    (hq : s.queued_report_actions_.directAccess = a :: rest)
    (hgeneric : a.getReportTypeId ≠ ext.Report_hid_report_type_)
    (htyped : a.getReportTypeId ≠ ext.hid_report_type_ report.report_type) :
    ((s.countReport report.report_type).processQueuedReportAction ext report).error_count_ =
        s.error_count_ + 1
    ∧ ((s.countReport report.report_type).processQueuedReportAction ext report).out_ =
        s.out_ ++ [.typeMismatch a.getTypeString report.report_type]
    ∧ ((s.countReport report.report_type).processQueuedReportAction ext report).eval_calls_ =
        s.eval_calls_
    ∧ engineErrors s (s.processReport ext report) =
        [.typeMismatch a.getTypeString report.report_type]
    ∧ (s.processReport ext report).eval_calls_.map EvalCall.key =
        s.eval_calls_.map EvalCall.key ++
          ((s.getPermanentReportActions report.report_type).directAccess.map
              (fun p => (p.id, some report)) ++
            (s.permanent_generic_report_actions_.directAccess.filter
              (fun g => decide (g.getReportTypeId = ext.hid_report_type_ report.report_type
                ∨ g.getReportTypeId = ext.GenericReportTypeId))).map
              (fun g => (g.id, some report))) := by
  have ha : queuedActionApplies ext report.report_type a = false := by
    simp [queuedActionApplies, hgeneric, htyped]
  have hq1 : (s.countReport report.report_type).queued_report_actions_.directAccess =
      a :: rest := hq
  obtain ⟨E, -, -, -, hE, -⟩ := processReport_errors ext s report
  have hEng : queuedErrors ext s report ++ unconsumedErrors s report =
      [.typeMismatch a.getTypeString report.report_type] := by
    have he : s.queued_report_actions_.empty = false := by
      have h0 : s.queued_report_actions_.queue_ = a :: rest := hq
      simp [ActionContainer.empty, h0]
    simp [queuedErrors, unconsumedErrors, hq, ha, he]
  refine ⟨?_, ?_, ?_, ?_, ?_⟩
  · rw [processQueuedReportAction_mismatch ext _ report a rest hq1 ha]; rfl
  · rw [processQueuedReportAction_mismatch ext _ report a rest hq1 ha]; rfl
  · rw [processQueuedReportAction_mismatch ext _ report a rest hq1 ha]; rfl
  · rw [hE, hEng]
  · rw [processReport_eval_keys, hq]
    simp [hgeneric, htyped]

/-- C3, at a concrete input: a mouse check heads the queue and a keyboard
report arrives. -/
theorem processReport_type_mismatch_witness :
    exampleMismatch.queued_report_actions_.directAccess =
        exampleMouseAction :: [exampleKeyboardAction]
    ∧ exampleMouseAction.getReportTypeId ≠ exampleExt.Report_hid_report_type_
    ∧ exampleMouseAction.getReportTypeId ≠
        exampleExt.hid_report_type_ exampleKeyboardReport.report_type
    ∧ ((exampleMismatch.countReport .KeyboardReport).processQueuedReportAction exampleExt
        exampleKeyboardReport).error_count_ = exampleMismatch.error_count_ + 1
    ∧ engineErrors exampleMismatch
        (exampleMismatch.processReport exampleExt exampleKeyboardReport) =
        [.typeMismatch "mouse" .KeyboardReport] :=
  have h := processReport_type_mismatch exampleExt exampleMismatch exampleKeyboardReport
    exampleMouseAction [exampleKeyboardAction] rfl (by decide) (by decide)
  ⟨rfl, by decide, by decide, h.1, h.2.2.2.1⟩

/-- C4: when the head of the queue is generic (its tag is
`Report_::hid_report_type_`) or has the tag of the class of the arriving
report, the queued step of `processReport` evaluates its predicate exactly
once, with the arriving report bound to it, and records no type-mismatch
error: the engine writes no error line in that step, nor in the whole call. -/
theorem processReport_queued_evaluated (ext : Externals) (s : Simulator) (report : Report_)
    (a : ReportAction_) (rest : List ReportAction_)
    (hq : s.queued_report_actions_.directAccess = a :: rest)
    (ha : a.getReportTypeId = ext.Report_hid_report_type_
      ∨ a.getReportTypeId = ext.hid_report_type_ report.report_type) :
    ((s.countReport report.report_type).processQueuedReportAction ext report).eval_calls_ =
        s.eval_calls_ ++
          [{ action := a.id, report := some report,
             result := a.evalInternal (s.countReport report.report_type).toSimulatorState
               (some report) }]
    ∧ engineErrors s ((s.countReport report.report_type).processQueuedReportAction ext report)
        = []
    ∧ engineErrors s (s.processReport ext report) = [] := by
  have ha1 : queuedActionApplies ext report.report_type a = true := by
    simpa [queuedActionApplies] using ha
  have hq1 : (s.countReport report.report_type).queued_report_actions_.directAccess =
      a :: rest := hq
  obtain ⟨E, -, -, -, hE, -⟩ := processReport_errors ext s report
  have hEng : queuedErrors ext s report ++ unconsumedErrors s report = [] := by
    have he : s.queued_report_actions_.empty = false := by
      have h0 : s.queued_report_actions_.queue_ = a :: rest := hq
      simp [ActionContainer.empty, h0]
    simp [queuedErrors, unconsumedErrors, hq, ha1, he]
  refine ⟨?_, ?_, ?_⟩
  · rw [processQueuedReportAction_applies ext _ report a rest hq1 ha1, processReportAction_eq]
    rfl
  · rw [processQueuedReportAction_applies ext _ report a rest hq1 ha1, processReportAction_eq,
      engineErrors, newErrors_append s _ (failLines ext
        [evalOf { s.countReport report.report_type with
          queued_report_actions_ := { queue_ := rest } } a report]) rfl,
      filter_failLines]
  · rw [hE, hEng]

/-- C4, at a concrete input: a keyboard check heads the queue and a keyboard
report arrives; the check is evaluated once, to true. -/
theorem processReport_queued_evaluated_witness :
    exampleMatch.queued_report_actions_.directAccess =
        exampleKeyboardAction :: [exampleMouseAction]
    ∧ (exampleKeyboardAction.getReportTypeId = exampleExt.Report_hid_report_type_
      ∨ exampleKeyboardAction.getReportTypeId =
        exampleExt.hid_report_type_ exampleKeyboardReport.report_type)
    ∧ ((exampleMatch.countReport .KeyboardReport).processQueuedReportAction exampleExt
        exampleKeyboardReport).eval_calls_ =
          [{ action := 1, report := some exampleKeyboardReport, result := true }]
    ∧ engineErrors exampleMatch (exampleMatch.processReport exampleExt exampleKeyboardReport)
        = [] :=
  have h := processReport_queued_evaluated exampleExt exampleMatch exampleKeyboardReport
    exampleKeyboardAction [exampleMouseAction] rfl (Or.inr (by decide))
  ⟨rfl, Or.inr (by decide), h.1, h.2.2⟩

theorem mem_reportErrors_unconsumed (ext : Externals) (s : Simulator) (report : Report_)
    (E : List EvalCall) (T : ReportType) :
    ErrorLine.reportWithoutQueuedActions T ∈ reportErrors ext s report E ↔
      ErrorLine.reportWithoutQueuedActions T ∈
        queuedErrors ext s report ++ unconsumedErrors s report := by
  have hf : ErrorLine.reportWithoutQueuedActions T ∉ failLines ext E := by
    intro h
    have := failLines_isActionFailed ext E _ h
    simp [ErrorLine.isActionFailed] at this
  simp only [reportErrors, List.mem_append]
  tauto

theorem mem_reportErrors_mismatch (ext : Externals) (s : Simulator) (report : Report_)
    (E : List EvalCall) (e : String) (T : ReportType) :
    ErrorLine.typeMismatch e T ∈ reportErrors ext s report E ↔
      ErrorLine.typeMismatch e T ∈
        queuedErrors ext s report ++ unconsumedErrors s report := by
  have hf : ErrorLine.typeMismatch e T ∉ failLines ext E := by
    intro h
    have := failLines_isActionFailed ext E _ h
    simp [ErrorLine.isActionFailed] at this
  simp only [reportErrors, List.mem_append]
  tauto

theorem count_reportErrors_unconsumed (ext : Externals) (s : Simulator) (report : Report_)
    (E : List EvalCall) (T : ReportType) :
    (reportErrors ext s report E).count (.reportWithoutQueuedActions T) =
      (queuedErrors ext s report ++ unconsumedErrors s report).count
        (.reportWithoutQueuedActions T) := by
  have hf : (failLines ext E).count (.reportWithoutQueuedActions T) = 0 := by
    rw [List.count_eq_zero]
    intro h
    have := failLines_isActionFailed ext E _ h
    simp [ErrorLine.isActionFailed] at this
  simp only [reportErrors, List.count_append, hf]
  omega

/-! ## Theorems, continued -/

/-- C5: the lines `processReport` adds to the error output contain the "report
without actions being queued" line if and only if the queue of report actions
was empty when the report arrived and ErrorIfReportWithoutQueuedActions is
enabled; the line then names the class of the report and is written once. -/
theorem processReport_unconsumed_error (ext : Externals) (s : Simulator)
    (report : Report_) :
    s.out_ ++ newErrors s (s.processReport ext report) = (s.processReport ext report).out_
    ∧ (∀ T : ReportType,
        ErrorLine.reportWithoutQueuedActions T ∈ newErrors s (s.processReport ext report) ↔
          (T = report.report_type ∧ s.queued_report_actions_.empty = true
            ∧ s.getErrorIfReportWithoutQueuedActions = true))
    ∧ (newErrors s (s.processReport ext report)).count
          (.reportWithoutQueuedActions report.report_type) =
        if s.queued_report_actions_.empty = true
            ∧ s.getErrorIfReportWithoutQueuedActions = true then 1 else 0 := by
  obtain ⟨E, hN, hO, -⟩ := processReport_errors ext s report
  refine ⟨hO.symm, ?_, ?_⟩
  · intro T
    rw [hN, mem_reportErrors_unconsumed]
    rcases engineErrors_cases ext s report with ⟨-, he, hf, hQ, hU⟩ | ⟨-, he, hf, hQ, hU⟩ |
      ⟨a, rest, -, he, hf, hQ, hU⟩ | ⟨a, rest, -, he, hf, hQ, hU⟩ <;>
    simp [hQ, hU, he, hf]
  · rw [hN, count_reportErrors_unconsumed]
    rcases engineErrors_cases ext s report with ⟨-, he, hf, hQ, hU⟩ | ⟨-, he, hf, hQ, hU⟩ |
      ⟨a, rest, -, he, hf, hQ, hU⟩ | ⟨a, rest, -, he, hf, hQ, hU⟩ <;>
    simp [hQ, hU, he, hf]

/-- C5, at concrete inputs: with the flag enabled a report that meets an empty
queue writes the line, a report that meets a queued check does not. -/
theorem processReport_unconsumed_error_witness :
    ErrorLine.reportWithoutQueuedActions .KeyboardReport ∈
        newErrors exampleEmpty (exampleEmpty.processReport exampleExt exampleKeyboardReport)
    ∧ ErrorLine.reportWithoutQueuedActions .KeyboardReport ∉
        newErrors exampleMatch (exampleMatch.processReport exampleExt exampleKeyboardReport) :=
  ⟨((processReport_unconsumed_error exampleExt exampleEmpty exampleKeyboardReport).2.1
      .KeyboardReport).2 ⟨rfl, rfl, rfl⟩,
    fun h => Bool.false_ne_true
      (((processReport_unconsumed_error exampleExt exampleMatch exampleKeyboardReport).2.1
        .KeyboardReport).1 h).2.1⟩

/-- C6: one call of `processReport` never writes both a type-mismatch line and
a "report without actions being queued" line: the engine itself writes at most
one error line, and the error count rises by the number of lines written (the
engine's and the descriptions of failed actions). When the head of the queue
does not apply to the report and ErrorIfReportWithoutQueuedActions is enabled,
the type-mismatch line is the engine's only line, so the error count rises by
one plus the number of failed actions reported as errors. -/
theorem processReport_single_error (ext : Externals) (s : Simulator) (report : Report_) :
    ¬ ((∃ e T, ErrorLine.typeMismatch e T ∈ newErrors s (s.processReport ext report))
        ∧ (∃ T, ErrorLine.reportWithoutQueuedActions T ∈
            newErrors s (s.processReport ext report)))
    ∧ (engineErrors s (s.processReport ext report)).length ≤ 1
    ∧ (s.processReport ext report).error_count_ =
        s.error_count_ + (newErrors s (s.processReport ext report)).length
    ∧ ∀ (a : ReportAction_) (rest : List ReportAction_),
        s.queued_report_actions_.directAccess = a :: rest →
        a.getReportTypeId ≠ ext.Report_hid_report_type_ →
        a.getReportTypeId ≠ ext.hid_report_type_ report.report_type →
        s.getErrorIfReportWithoutQueuedActions = true →
          engineErrors s (s.processReport ext report) =
              [.typeMismatch a.getTypeString report.report_type]
          ∧ (s.processReport ext report).error_count_ =
              s.error_count_ + 1 +
                ((newErrors s (s.processReport ext report)).filter
                  (fun l => l.isActionFailed)).length := by
  obtain ⟨E, hN, -, hC, hE, hF⟩ := processReport_errors ext s report
  refine ⟨?_, ?_, hC, ?_⟩
  · rw [hN]
    simp only [mem_reportErrors_mismatch, mem_reportErrors_unconsumed]
    rcases engineErrors_cases ext s report with ⟨-, -, -, hQ, hU⟩ | ⟨-, -, -, hQ, hU⟩ |
      ⟨a, rest, -, -, -, hQ, hU⟩ | ⟨a, rest, -, -, -, hQ, hU⟩ <;>
    simp [hQ, hU]
  · rw [hE]
    rcases engineErrors_cases ext s report with ⟨-, -, -, hQ, hU⟩ | ⟨-, -, -, hQ, hU⟩ |
      ⟨a, rest, -, -, -, hQ, hU⟩ | ⟨a, rest, -, -, -, hQ, hU⟩ <;>
    simp [hQ, hU]
  · intro a rest hq hgeneric htyped _
    have ha : queuedActionApplies ext report.report_type a = false := by
      simp [queuedActionApplies, hgeneric, htyped]
    have hQU : queuedErrors ext s report = [.typeMismatch a.getTypeString report.report_type]
        ∧ unconsumedErrors s report = [] := by
      rcases engineErrors_cases ext s report with ⟨hq2, -⟩ | ⟨hq2, -⟩ |
        ⟨a2, rest2, hq2, -, ha2, -⟩ | ⟨a2, rest2, hq2, -, ha2, hQ, hU⟩
      · rw [hq] at hq2; cases hq2
      · rw [hq] at hq2; cases hq2
      · rw [hq] at hq2; cases hq2; rw [ha] at ha2; cases ha2
      · rw [hq] at hq2; cases hq2; exact ⟨hQ, hU⟩
    refine ⟨by rw [hE, hQU.1, hQU.2]; rfl, ?_⟩
    rw [hC, hF, hN, reportErrors, hQU.1, hQU.2]
    simp only [List.append_nil, List.length_append, List.length_singleton]
    push_cast
    ring

/-- C6, at a concrete input: a mouse check heads the queue, the flag is enabled
and a keyboard report arrives; the engine writes the type-mismatch line only. -/
theorem processReport_single_error_witness :
    exampleMismatch.getErrorIfReportWithoutQueuedActions = true
    ∧ engineErrors exampleMismatch
        (exampleMismatch.processReport exampleExt exampleKeyboardReport) =
        [.typeMismatch "mouse" .KeyboardReport] :=
  have h := (processReport_single_error exampleExt exampleMismatch exampleKeyboardReport).2.2.2
    exampleMouseAction [exampleKeyboardAction] rfl (by decide) (by decide) rfl
  ⟨rfl, h.1⟩

/-- The lines of `processReport` in Simulator.h after a type mismatch: when the
head `a` of the queue does not apply to the report, the permanent actions of
the class and the applicable generic permanent actions are all evaluated, in
the same order as after a head `b` that applies, and the final test for a
report without queued actions is carried out on the resulting state. Whether
the call gets that far is decided by the error stream, see
`aborting.processReport`. -/
theorem processReport_mismatch_falls_through (ext : Externals) (s : Simulator)
    (report : Report_) (a b : ReportAction_) (rest : List ReportAction_)
    (hq : s.queued_report_actions_.directAccess = a :: rest)
    (hgeneric : a.getReportTypeId ≠ ext.Report_hid_report_type_)
    (htyped : a.getReportTypeId ≠ ext.hid_report_type_ report.report_type)
    (hb : b.getReportTypeId = ext.Report_hid_report_type_
      ∨ b.getReportTypeId = ext.hid_report_type_ report.report_type) :
    (s.processReport ext report).eval_calls_.map EvalCall.key =
        s.eval_calls_.map EvalCall.key ++
          ((s.getPermanentReportActions report.report_type).directAccess.map
              (fun p => (p.id, some report)) ++
            (s.permanent_generic_report_actions_.directAccess.filter
              (fun g => decide (g.getReportTypeId = ext.hid_report_type_ report.report_type
                ∨ g.getReportTypeId = ext.GenericReportTypeId))).map
              (fun g => (g.id, some report)))
    ∧ ({ s with queued_report_actions_ := { queue_ := b :: rest } }.processReport ext
          report).eval_calls_.map EvalCall.key =
        s.eval_calls_.map EvalCall.key ++
          ((b.id, some report) ::
            ((s.getPermanentReportActions report.report_type).directAccess.map
                (fun p => (p.id, some report)) ++
              (s.permanent_generic_report_actions_.directAccess.filter
                (fun g => decide (g.getReportTypeId = ext.hid_report_type_ report.report_type
                  ∨ g.getReportTypeId = ext.GenericReportTypeId))).map
                (fun g => (g.id, some report))))
    ∧ s.processReport ext report =
        (((ErrorStream.output (.typeMismatch a.getTypeString report.report_type)
              { s.countReport report.report_type with
                queued_report_actions_ := { queue_ := rest } }.error
            ).processPermanentReportActions ext report
          ).processPermanentGenericReportActions ext report
        ).checkReportWithoutQueuedActions (rest.length + 1) report.report_type := by
  have ha : queuedActionApplies ext report.report_type a = false := by
    simp [queuedActionApplies, hgeneric, htyped]
  have hq0 : s.queued_report_actions_.queue_ = a :: rest := hq
  have hq1 : (s.countReport report.report_type).queued_report_actions_.directAccess =
      a :: rest := hq
  refine ⟨?_, ?_, ?_⟩
  · rw [processReport_eval_keys, hq]
    simp [hgeneric, htyped]
  · rw [processReport_eval_keys]
    have hperm : ∀ T, ({ s with queued_report_actions_ := { queue_ := b :: rest } } :
        Simulator).getPermanentReportActions T = s.getPermanentReportActions T := by
      intro T; cases T <;> rfl
    rw [hperm]
    simp [ActionContainer.directAccess, hb]
  · have hn : (s.countReport report.report_type).queued_report_actions_.size =
        rest.length + 1 := by
      show s.queued_report_actions_.queue_.length = rest.length + 1
      rw [hq0]; rfl
    simp only [Simulator.processReport, hn]
    rw [processQueuedReportAction_mismatch ext _ report a rest hq1 ha]

/-- C10: `processReportAction` evaluates the check with the report bound to it
and leaves in `actions_passed_` the conjunction of its former value and the
result: a false result makes the flag false, a true result leaves it as it
was. -/
theorem processReportAction_actions_passed (ext : Externals) (s : Simulator)
    (action : ReportAction_) (report : Report_) :
    (s.processReportAction ext action report).2.actions_passed_ =
        (s.actions_passed_ && action.evalInternal s.toSimulatorState (some report))
    ∧ (s.processReportAction ext action report).2.eval_calls_ =
        s.eval_calls_ ++
          [{ action := action.id, report := some report,
             result := action.evalInternal s.toSimulatorState (some report) }]
    ∧ (action.evalInternal s.toSimulatorState (some report) = false →
        (s.processReportAction ext action report).2.actions_passed_ = false)
    ∧ (action.evalInternal s.toSimulatorState (some report) = true →
        (s.processReportAction ext action report).2.actions_passed_ = s.actions_passed_) := by
  rw [processReportAction_eq]
  refine ⟨rfl, rfl, ?_, ?_⟩
  · intro h
    simp [Simulator.withEval, evalOf, h]
  · intro h
    simp [Simulator.withEval, evalOf, h]

/-- C10, at concrete inputs: a check that fails makes the flag false, a check
that holds leaves it true. -/
theorem processReportAction_actions_passed_witness :
    exampleMatch.actions_passed_ = true
    ∧ (exampleMatch.processReportAction exampleExt exampleMouseAction
        exampleKeyboardReport).2.actions_passed_ = false
    ∧ (exampleMatch.processReportAction exampleExt exampleKeyboardAction
        exampleKeyboardReport).2.actions_passed_ = exampleMatch.actions_passed_ :=
  ⟨rfl,
    (processReportAction_actions_passed exampleExt exampleMatch exampleMouseAction
      exampleKeyboardReport).2.2.1 rfl,
    (processReportAction_actions_passed exampleExt exampleMatch exampleKeyboardAction
      exampleKeyboardReport).2.2.2 rfl⟩

/-! ## Lemmas on bindings, on `evaluateActions` and on sequences of calls -/

theorem getPermanent_setPermanent (s : Simulator) (T : ReportType)
    (c : ActionContainer ReportAction_) :
    (s.setPermanentReportActions T c).getPermanentReportActions T = c := by
  cases T <;> rfl

theorem withEval_getPermanent (s : Simulator) (p : Bool) (e : List EvalCall) (r : List Nat)
    (l : List ErrorLine) (T : ReportType) :
    (s.withEval p e r l).getPermanentReportActions T = s.getPermanentReportActions T := by
  cases T <;> rfl

theorem processPermanentReportActions_container (ext : Externals) (s : Simulator)
    (report : Report_) :
    ((s.processPermanentReportActions ext report).getPermanentReportActions
        report.report_type).directAccess =
      (s.getPermanentReportActions report.report_type).directAccess.map
        (fun a => { a with report_ := none }) := by
  obtain ⟨E, -, -, h3⟩ := processReportActionList_spec ext report
    (s.getPermanentReportActions report.report_type).directAccess s
  simp only [Simulator.processPermanentReportActions, getPermanent_setPermanent]
  exact h3

theorem processGenericReportActionList_fst (ext : Externals) (report : Report_) :
    ∀ (l : List ReportAction_) (s : Simulator),
      (s.processGenericReportActionList ext report l).1 =
        l.map (fun a =>
          if genericActionApplies ext report.report_type a then { a with report_ := none }
          else a) := by
  intro l
  induction l with
  | nil => intro s; rfl
  | cons a rest ih =>
    intro s
    by_cases ha : genericActionApplies ext report.report_type a = true
    · simp only [Simulator.processGenericReportActionList, ha, if_true, List.map_cons]
      rw [ih]
      simp [processReportAction_eq]
    · simp only [Simulator.processGenericReportActionList, ha, List.map_cons]
      rw [ih]
      simp

theorem processPermanentGenericReportActions_container (ext : Externals) (s : Simulator)
    (report : Report_) :
    (s.processPermanentGenericReportActions ext report
        ).permanent_generic_report_actions_.directAccess =
        s.permanent_generic_report_actions_.directAccess.map (fun a =>
          if genericActionApplies ext report.report_type a then { a with report_ := none }
          else a)
    ∧ ∀ T, (s.processPermanentGenericReportActions ext report).getPermanentReportActions T =
        s.getPermanentReportActions T := by
  obtain ⟨E, h1, -⟩ := processGenericReportActionList_spec ext report
    s.permanent_generic_report_actions_.directAccess s
  refine ⟨?_, ?_⟩
  · simp only [Simulator.processPermanentGenericReportActions]
    exact processGenericReportActionList_fst ext report _ s
  · intro T
    have h : (s.processPermanentGenericReportActions ext report).getPermanentReportActions T =
        (s.processGenericReportActionList ext report
          s.permanent_generic_report_actions_.directAccess).2.getPermanentReportActions T := by
      cases T <;> rfl
    rw [h, h1, withEval_getPermanent]

theorem checkReportWithoutQueuedActions_containers (s : Simulator) (n : Nat) (T : ReportType) :
    (s.checkReportWithoutQueuedActions n T).permanent_generic_report_actions_ =
        s.permanent_generic_report_actions_
    ∧ ∀ U, (s.checkReportWithoutQueuedActions n T).getPermanentReportActions U =
        s.getPermanentReportActions U := by
  by_cases h : n = 0 ∧ s.getErrorIfReportWithoutQueuedActions = true
  · simp only [Simulator.checkReportWithoutQueuedActions, if_pos h]
    exact ⟨rfl, fun U => by cases U <;> rfl⟩
  · simp only [Simulator.checkReportWithoutQueuedActions, if_neg h]
    exact ⟨trivial, fun U => trivial⟩

/-- The permanent containers after `processReport`. -/
theorem processReport_containers (ext : Externals) (s : Simulator) (report : Report_) :
    ((s.processReport ext report).getPermanentReportActions report.report_type).directAccess =
        (s.getPermanentReportActions report.report_type).directAccess.map
          (fun a => { a with report_ := none })
    ∧ (s.processReport ext report).permanent_generic_report_actions_.directAccess =
        s.permanent_generic_report_actions_.directAccess.map (fun a =>
          if genericActionApplies ext report.report_type a then { a with report_ := none }
          else a) := by
  obtain ⟨Q, -, -, -, -, hQ5, hQ6⟩ :=
    processQueuedReportAction_spec ext (s.countReport report.report_type) report
  obtain ⟨-, -, -, -, hP5⟩ := (processPermanentReportActions_spec ext
    ((s.countReport report.report_type).processQueuedReportAction ext report) report).choose_spec
  have hP := processPermanentReportActions_container ext
    ((s.countReport report.report_type).processQueuedReportAction ext report) report
  obtain ⟨hG1, hG2⟩ := processPermanentGenericReportActions_container ext
    (((s.countReport report.report_type).processQueuedReportAction ext report
      ).processPermanentReportActions ext report) report
  obtain ⟨hC1, hC2⟩ := checkReportWithoutQueuedActions_containers
    ((((s.countReport report.report_type).processQueuedReportAction ext report
      ).processPermanentReportActions ext report).processPermanentGenericReportActions ext
      report)
    (s.countReport report.report_type).queued_report_actions_.size report.report_type
  have hc : ∀ T, (s.countReport report.report_type).getPermanentReportActions T =
      s.getPermanentReportActions T := fun T => by cases T <;> rfl
  refine ⟨?_, ?_⟩
  · show ((Simulator.checkReportWithoutQueuedActions _ _ _).getPermanentReportActions
      _).directAccess = _
    rw [hC2, hG2, hP, hQ5, hc]
  · show (Simulator.checkReportWithoutQueuedActions _ _ _
      ).permanent_generic_report_actions_.directAccess = _
    rw [hC1, hG1, hP5, hQ6]
    rfl

theorem evaluateActionsLoop_cons (ext : Externals) (s : Simulator) (a : Action_)
    (rest : List Action_) :
    s.evaluateActionsLoop ext (a :: rest) =
      (a.setSimulator ::
          ((s.withEval (s.actions_passed_ && a.evalInternal s.toSimulatorState)
            (s.eval_calls_ ++
              [{ action := a.id, report := none, result := a.evalInternal s.toSimulatorState }])
            (if !a.evalInternal s.toSimulatorState || s.debug_ then s.report_calls_ ++ [a.id]
              else s.report_calls_)
            (failLines ext
              [{ action := a.id, report := none,
                 result := a.evalInternal s.toSimulatorState }])).evaluateActionsLoop ext
            rest).1,
        ((s.withEval (s.actions_passed_ && a.evalInternal s.toSimulatorState)
            (s.eval_calls_ ++
              [{ action := a.id, report := none, result := a.evalInternal s.toSimulatorState }])
            (if !a.evalInternal s.toSimulatorState || s.debug_ then s.report_calls_ ++ [a.id]
              else s.report_calls_)
            (failLines ext
              [{ action := a.id, report := none,
                 result := a.evalInternal s.toSimulatorState }])).evaluateActionsLoop ext
            rest).2) := by
  rcases Bool.eq_false_or_eq_true (a.evalInternal s.toSimulatorState) with hr | hr <;>
  rcases Bool.eq_false_or_eq_true s.debug_ with hd | hd <;>
  rcases Bool.eq_false_or_eq_true ext.failed_report_is_error with hf | hf <;>
  simp [Simulator.evaluateActionsLoop, Action_.eval, Action_.setSimulator, Action_.report,
    Simulator.withEval, failLines, ErrorStream.output, Simulator.error, hr, hd, hf]

theorem evaluateActionsLoop_spec (ext : Externals) :
    ∀ (l : List Action_) (s : Simulator), ∃ E : List EvalCall,
      (s.evaluateActionsLoop ext l).2 =
        s.withEval (s.actions_passed_ && E.all (fun e => e.result)) (s.eval_calls_ ++ E)
          (s.evaluateActionsLoop ext l).2.report_calls_ (failLines ext E)
      ∧ E.map EvalCall.key = l.map (fun a => (a.id, none))
      ∧ (s.evaluateActionsLoop ext l).1 = l.map Action_.setSimulator := by
  intro l
  induction l with
  | nil =>
    intro s
    refine ⟨[], ?_, rfl, rfl⟩
    simp [Simulator.evaluateActionsLoop, Simulator.withEval, failLines_nil]
  | cons a rest ih =>
    intro s
    rw [evaluateActionsLoop_cons]
    obtain ⟨E, h1, h2, h3⟩ := ih
      (s.withEval (s.actions_passed_ && a.evalInternal s.toSimulatorState)
        (s.eval_calls_ ++
          [{ action := a.id, report := none, result := a.evalInternal s.toSimulatorState }])
        (if !a.evalInternal s.toSimulatorState || s.debug_ then s.report_calls_ ++ [a.id]
          else s.report_calls_)
        (failLines ext
          [{ action := a.id, report := none, result := a.evalInternal s.toSimulatorState }]))
    refine ⟨{ action := a.id, report := none, result := a.evalInternal s.toSimulatorState }
      :: E, ?_, ?_, ?_⟩
    · simp only []
      rw [h1]
      simp only [withEval_withEval, failLines_cons ext _ E]
      simp [Simulator.withEval, Bool.and_assoc]
    · simp [h2, EvalCall.key]
    · simp only []
      rw [h3]
      rfl

/-- The complete effect of `evaluateActions` on the data members and on the
log of evaluations. -/
theorem evaluateActions_spec (ext : Externals) (s : Simulator) (actions : List Action_) :
    ∃ E : List EvalCall,
      (s.evaluateActions ext actions).toSimulatorState =
        { s.toSimulatorState with
          actions_passed_ := s.actions_passed_ && E.all (fun e => e.result)
          error_count_ := s.error_count_ + (failLines ext E).length
          out_ := s.out_ ++ failLines ext E }
      ∧ (s.evaluateActions ext actions).eval_calls_ = s.eval_calls_ ++ E
      ∧ E.map EvalCall.key = actions.map (fun a => (a.id, none)) := by
  cases actions with
  | nil =>
    refine ⟨[], ?_, ?_, rfl⟩
    · show s.toSimulatorState = _
      ext : 1 <;> simp [failLines_nil]
    · show s.eval_calls_ = _
      simp
  | cons a rest =>
    obtain ⟨E, h1, h2, -⟩ := evaluateActionsLoop_spec ext (a :: rest) s
    refine ⟨E, ?_, ?_, h2⟩
    · show (s.evaluateActionsLoop ext (a :: rest)).2.toSimulatorState = _
      rw [h1]; rfl
    · show (s.evaluateActionsLoop ext (a :: rest)).2.eval_calls_ = _
      rw [h1]; rfl

theorem newEvals_append (s t : Simulator) (E : List EvalCall)
    (h : t.eval_calls_ = s.eval_calls_ ++ E) : newEvals s t = E := by
  simp [newEvals, h]

theorem call_verdict (ext : Externals) (s : Simulator) (c : Call) :
    s.error_count_ ≤ (s.call ext c).error_count_
    ∧ (s.actions_passed_ = false → (s.call ext c).actions_passed_ = false) := by
  cases c with
  | error =>
    refine ⟨?_, fun h => h⟩
    show s.error_count_ ≤ s.error_count_ + 1
    omega
  | processReport report =>
    obtain ⟨Q, P, G, h1, -⟩ := processReport_spec ext s report
    refine ⟨?_, ?_⟩
    · show s.error_count_ ≤ (s.processReport ext report).error_count_
      rw [h1]
      show s.error_count_ ≤ s.error_count_ + _
      omega
    · intro h
      show (s.processReport ext report).actions_passed_ = false
      rw [h1]
      show (s.actions_passed_ && _) = false
      rw [h]; rfl
  | evaluateActions actions =>
    obtain ⟨E, h1, -⟩ := evaluateActions_spec ext s actions
    refine ⟨?_, ?_⟩
    · show s.error_count_ ≤ (s.evaluateActions ext actions).error_count_
      rw [h1]
      show s.error_count_ ≤ s.error_count_ + _
      omega
    · intro h
      show (s.evaluateActions ext actions).actions_passed_ = false
      rw [h1]
      show (s.actions_passed_ && _) = false
      rw [h]; rfl

/-! ## Theorems on bindings and on the verdict state -/

/-- C11: `processReportAction` runs the predicate with the arriving report
bound to the check and returns the check with a null binding, whatever the
result and whatever the debug switch; nothing else of the check changes. After
`processReport` every permanent check of the class of the report and every
generic permanent check that was selected has a null binding (a generic check
that was skipped keeps the binding it had). -/
theorem processReportAction_unbinds (ext : Externals) (s : Simulator) (action : ReportAction_)
    (report : Report_) :
    (s.processReportAction ext action report).1.report_ = none
    ∧ (s.processReportAction ext action report).1 = { action with report_ := none }
    ∧ newEvals s (s.processReportAction ext action report).2 =
        [{ action := action.id, report := some report,
           result := action.evalInternal s.toSimulatorState (some report) }]
    ∧ ((s.processReport ext report).getPermanentReportActions
          report.report_type).directAccess.map (fun a => a.report_) =
        (s.getPermanentReportActions report.report_type).directAccess.map (fun _ => none)
    ∧ (s.processReport ext report).permanent_generic_report_actions_.directAccess.map
          (fun g => g.report_) =
        s.permanent_generic_report_actions_.directAccess.map (fun g =>
          if g.getReportTypeId = ext.hid_report_type_ report.report_type
              ∨ g.getReportTypeId = ext.GenericReportTypeId then none
          else g.report_) := by
  obtain ⟨hT, hG⟩ := processReport_containers ext s report
  refine ⟨?_, ?_, ?_, ?_, ?_⟩
  · rw [processReportAction_eq]
  · rw [processReportAction_eq]
  · rw [processReportAction_eq]
    exact newEvals_append s _ _ rfl
  · rw [hT, List.map_map]
    rfl
  · rw [hG, List.map_map]
    apply List.map_congr_left
    intro g _
    by_cases hg : g.getReportTypeId = ext.hid_report_type_ report.report_type
        ∨ g.getReportTypeId = ext.GenericReportTypeId
    · have : genericActionApplies ext report.report_type g = true := by
        simpa [genericActionApplies] using hg
      simp [this, hg]
    · have : genericActionApplies ext report.report_type g = false := by
        simpa [genericActionApplies, not_or] using hg
      simp [this, hg]

/-- C11, at a concrete input: a check that arrives with a stale binding leaves
`processReportAction` unbound, after a failed evaluation too. -/
theorem processReportAction_unbinds_witness :
    (exampleMatch.processReportAction exampleExt
        { exampleMouseAction with report_ := some exampleKeyboardReport }
        exampleKeyboardReport).1.report_ = none
    ∧ ((exampleMatch.processReport exampleExt exampleKeyboardReport
        ).getPermanentReportActions .KeyboardReport).directAccess.map (fun a => a.report_) =
        [none] :=
  ⟨(processReportAction_unbinds exampleExt exampleMatch
      { exampleMouseAction with report_ := some exampleKeyboardReport }
      exampleKeyboardReport).1,
    (processReportAction_unbinds exampleExt exampleMatch exampleMouseAction
      exampleKeyboardReport).2.2.2.1⟩

/-- C12: every call of `error()` raises the value of `getErrorCount()` by
exactly one and changes nothing else, in every state of the simulator, so
whatever the debug, quiet and abort-on-first-error switches are; writing to the
returned stream does not touch the count. -/
theorem error_counts_one (s : Simulator) :
    s.error.getErrorCount = s.getErrorCount + 1
    ∧ s.error = { s with error_count_ := s.error_count_ + 1 }
    ∧ ∀ line : ErrorLine, (ErrorStream.output line s.error).getErrorCount =
        s.getErrorCount + 1 :=
  ⟨rfl, rfl, fun _ => rfl⟩

/-- C12, at a concrete input: two calls in a state with two errors give four. -/
theorem error_counts_one_witness :
    exampleFailed.error.error.getErrorCount = 4 :=
  ((error_counts_one exampleFailed.error).1).trans
    (congrArg (fun n => n + 1) (error_counts_one exampleFailed).1)

/-- C13: over every sequence of calls of `error()`, `processReport` and
`evaluateActions` the error count does not decrease, and an `actions_passed_`
flag that is false stays false. -/
theorem calls_verdict_monotone (ext : Externals) (cs : List Call) (s : Simulator) :
    s.getErrorCount ≤ (s.calls ext cs).getErrorCount
    ∧ (s.actions_passed_ = false → (s.calls ext cs).actions_passed_ = false) := by
  induction cs generalizing s with
  | nil => exact ⟨le_refl _, fun h => h⟩
  | cons c rest ih =>
    obtain ⟨h1, h2⟩ := call_verdict ext s c
    obtain ⟨h3, h4⟩ := ih (s.call ext c)
    exact ⟨le_trans h1 h3, fun h => h4 (h2 h)⟩

/-- C13, at a concrete input: after an error, a report and two actions
evaluated at once the flag is still false and the count is not below 2. -/
theorem calls_verdict_monotone_witness :
    exampleFailed.actions_passed_ = false
    ∧ (exampleFailed.calls exampleExt
        [.error, .processReport exampleKeyboardReport,
          .evaluateActions [examplePassingAction, exampleFailingAction]]).actions_passed_ = false
    ∧ (2 : Int) ≤ (exampleFailed.calls exampleExt
        [.error, .processReport exampleKeyboardReport,
          .evaluateActions [examplePassingAction, exampleFailingAction]]).getErrorCount :=
  have h := calls_verdict_monotone exampleExt
    [.error, .processReport exampleKeyboardReport,
      .evaluateActions [examplePassingAction, exampleFailingAction]] exampleFailed
  ⟨rfl, h.2 rfl, h.1⟩

/-- C14: in a fresh simulator with exactly one queued keyboard-report check
whose predicate holds for the report, processing one keyboard report leaves the
queue empty, evaluates the check once, to true, makes the cumulative
keyboard-report count 1, and leaves the error count at 0 and `actions_passed_`
true. -/
theorem processReport_fresh_keyboard (ext : Externals) (debug : Bool) (cycle_duration : Int)
    (abort_on_first_error : Bool) (a : ReportAction_) (data : List Nat)
    (ha : a.getReportTypeId = ext.hid_report_type_ .KeyboardReport)
    (hp : a.evalInternal
      ((freshWithQueued debug cycle_duration abort_on_first_error a).countReport
        .KeyboardReport).toSimulatorState
      (some { report_type := .KeyboardReport, data := data }) = true) :
    ((freshWithQueued debug cycle_duration abort_on_first_error a).processReport ext
        { report_type := .KeyboardReport, data := data }).queued_report_actions_.directAccess = []
    ∧ newEvals (freshWithQueued debug cycle_duration abort_on_first_error a)
        ((freshWithQueued debug cycle_duration abort_on_first_error a).processReport ext
          { report_type := .KeyboardReport, data := data }) =
        [{ action := a.id, report := some { report_type := .KeyboardReport, data := data },
           result := true }]
    ∧ ((freshWithQueued debug cycle_duration abort_on_first_error a).processReport ext
        { report_type := .KeyboardReport, data := data }).getNumTypedOverallReports
          .KeyboardReport = 1
    ∧ ((freshWithQueued debug cycle_duration abort_on_first_error a).processReport ext
        { report_type := .KeyboardReport, data := data }).getErrorCount = 0
    ∧ ((freshWithQueued debug cycle_duration abort_on_first_error a).processReport ext
        { report_type := .KeyboardReport, data := data }).actions_passed_ = true := by
  have happ : queuedActionApplies ext .KeyboardReport a = true := by
    simp [queuedActionApplies, ha]
  have hq : ((freshWithQueued debug cycle_duration abort_on_first_error a).countReport
      .KeyboardReport).queued_report_actions_.directAccess = a :: [] := rfl
  have hres : (evalOf
      { (freshWithQueued debug cycle_duration abort_on_first_error a).countReport
          .KeyboardReport with queued_report_actions_ := { queue_ := [] } }
      a { report_type := .KeyboardReport, data := data }).result = true := hp
  have hstep : (freshWithQueued debug cycle_duration abort_on_first_error a).processReport ext
      { report_type := .KeyboardReport, data := data } =
      ({ (freshWithQueued debug cycle_duration abort_on_first_error a).countReport
          .KeyboardReport with queued_report_actions_ := { queue_ := [] } } : Simulator).withEval
        true
        [{ action := a.id, report := some { report_type := .KeyboardReport, data := data },
           result := true }]
        (if debug then [a.id] else [])
        [] := by
    simp only [Simulator.processReport]
    rw [processQueuedReportAction_applies ext _ _ a [] hq happ, processReportAction_eq, hres]
    have he : evalOf
        { (freshWithQueued debug cycle_duration abort_on_first_error a).countReport
            .KeyboardReport with queued_report_actions_ := { queue_ := [] } }
        a { report_type := .KeyboardReport, data := data } =
        { action := a.id, report := some { report_type := .KeyboardReport, data := data },
          result := true } := by
      rw [← hres]; rfl
    rw [he]
    cases debug <;>
      simp [Simulator.processPermanentReportActions, Simulator.processReportActionList,
        Simulator.processPermanentGenericReportActions,
        Simulator.processGenericReportActionList, Simulator.checkReportWithoutQueuedActions,
        Simulator.getPermanentReportActions, Simulator.setPermanentReportActions,
        Simulator.withEval, Simulator.countReport, freshWithQueued, Simulator.init,
        ActionContainer.directAccess, ActionContainer.size, failLines]
  rw [hstep]
  refine ⟨rfl, ?_, ?_, rfl, rfl⟩
  · exact newEvals_append _ _ _ rfl
  · show incr (incr (fun _ => (0 : Int)) AnyTypeReportSid) KeyboardReportSid KeyboardReportSid = 1
    decide

/-- C14, at a concrete input: the keyboard check of the examples and a keyboard
report with one payload byte. -/
theorem processReport_fresh_keyboard_witness :
    exampleKeyboardAction.getReportTypeId = exampleExt.hid_report_type_ .KeyboardReport
    ∧ ((freshWithQueued false 1 false exampleKeyboardAction).processReport exampleExt
        exampleKeyboardReport).queued_report_actions_.directAccess.length = 0
    ∧ ((freshWithQueued false 1 false exampleKeyboardAction).processReport exampleExt
        exampleKeyboardReport).getNumTypedOverallReports .KeyboardReport = 1
    ∧ ((freshWithQueued false 1 false exampleKeyboardAction).processReport exampleExt
        exampleKeyboardReport).getErrorCount = 0
    ∧ ((freshWithQueued false 1 false exampleKeyboardAction).processReport exampleExt
        exampleKeyboardReport).actions_passed_ = true :=
  have h := processReport_fresh_keyboard exampleExt false 1 false exampleKeyboardAction [4]
    rfl rfl
  ⟨rfl, congrArg List.length h.1, h.2.2.1, h.2.2.2.1, h.2.2.2.2⟩

/-! ## Lemmas on runs that can end -/

theorem Run.returned_bind {α β : Type} (a : α) (f : α → Run β) :
    (Run.returned a >>= f) = f a := rfl

theorem Run.pure_bind {α β : Type} (a : α) (f : α → Run β) :
    ((pure a : Run α) >>= f) = f a := rfl

theorem Run.exited_bind {α β : Type} (s : Simulator) (f : α → Run β) :
    ((Run.exited s : Run α) >>= f) = Run.exited s := rfl

theorem aborting_error_off (line : ErrorLine) (s : Simulator)
    (h : s.abort_on_first_error_ = false) :
    aborting.error line s = .returned (ErrorStream.output line s.error) := by
  have h1 : (ErrorStream.output line s.error).getAbortOnFirstError = false := h
  simp [aborting.error, h1]

theorem aborting_error_on (line : ErrorLine) (s : Simulator)
    (h : s.abort_on_first_error_ = true) :
    aborting.error line s = .exited (ErrorStream.output line s.error) := by
  have h1 : (ErrorStream.output line s.error).getAbortOnFirstError = true := h
  simp [aborting.error, h1]

theorem aborting_report_off (ext : Externals) (a : ReportAction_) (passed : Bool)
    (s : Simulator) (h : s.abort_on_first_error_ = false) :
    aborting.report ext a passed s = .returned (a.report ext passed s) := by
  unfold aborting.report ReportAction_.report
  by_cases hc : (!passed && ext.failed_report_is_error) = true
  · simp only [hc, if_true]
    exact aborting_error_off _ _ h
  · simp only [hc]
    rfl

theorem aborting_processReportAction_off (ext : Externals) (s : Simulator)
    (a : ReportAction_) (report : Report_) (h : s.abort_on_first_error_ = false) :
    aborting.processReportAction ext s a report =
      .returned (s.processReportAction ext a report) := by
  rcases Bool.eq_false_or_eq_true (a.evalInternal s.toSimulatorState (some report))
    with hr | hr <;>
  rcases Bool.eq_false_or_eq_true s.debug_ with hd | hd <;>
  rcases Bool.eq_false_or_eq_true ext.failed_report_is_error with hf | hf <;>
  simp [aborting.processReportAction, Simulator.processReportAction, aborting.report,
    ReportAction_.report, aborting.error, ReportAction_.eval, ReportAction_.setReport,
    ErrorStream.output, Simulator.error, Simulator.getAbortOnFirstError, Bind.bind, Run.bind,
    pure, h, hr, hd, hf]

theorem processReportAction_abort_flag (ext : Externals) (s : Simulator) (a : ReportAction_)
    (report : Report_) :
    (s.processReportAction ext a report).2.abort_on_first_error_ = s.abort_on_first_error_ := by
  rw [processReportAction_eq]; rfl

theorem aborting_processReportActionList_off (ext : Externals) (report : Report_) :
    ∀ (l : List ReportAction_) (s : Simulator), s.abort_on_first_error_ = false →
      aborting.processReportActionList ext s report l =
        .returned (s.processReportActionList ext report l) := by
  intro l
  induction l with
  | nil => intro s _; rfl
  | cons a rest ih =>
    intro s h
    have h1 : (s.processReportAction ext a report).2.abort_on_first_error_ = false := by
      rw [processReportAction_abort_flag]; exact h
    simp only [aborting.processReportActionList, Simulator.processReportActionList,
      aborting_processReportAction_off ext s a report h, Run.returned_bind, ih _ h1]
    rfl

theorem aborting_processGenericReportActionList_off (ext : Externals) (report : Report_) :
    ∀ (l : List ReportAction_) (s : Simulator), s.abort_on_first_error_ = false →
      aborting.processGenericReportActionList ext s report l =
        .returned (s.processGenericReportActionList ext report l) := by
  intro l
  induction l with
  | nil => intro s _; rfl
  | cons a rest ih =>
    intro s h
    by_cases ha : genericActionApplies ext report.report_type a = true
    · have h1 : (s.processReportAction ext a report).2.abort_on_first_error_ = false := by
        rw [processReportAction_abort_flag]; exact h
      simp only [aborting.processGenericReportActionList,
        Simulator.processGenericReportActionList, ha, if_true,
        aborting_processReportAction_off ext s a report h, Run.returned_bind, ih _ h1]
      rfl
    · simp only [aborting.processGenericReportActionList,
        Simulator.processGenericReportActionList, ha, Run.pure_bind, ih _ h]
      rfl

theorem aborting_processQueuedReportAction_off (ext : Externals) (s : Simulator)
    (report : Report_) (h : s.abort_on_first_error_ = false) :
    aborting.processQueuedReportAction ext s report =
      .returned (s.processQueuedReportAction ext report) := by
  unfold aborting.processQueuedReportAction Simulator.processQueuedReportAction
  cases hq : s.queued_report_actions_.queue_ with
  | nil => simp [ActionContainer.empty, hq]; rfl
  | cons a rest =>
    have h1 : ({ s with queued_report_actions_ := { queue_ := rest } } :
        Simulator).abort_on_first_error_ = false := h
    simp only [ActionContainer.empty, ActionContainer.popFront, hq, List.isEmpty_cons,
      Bool.not_false, if_true, aborting_processReportAction_off ext _ a report h1,
      Run.returned_bind, aborting_error_off _ _ h1]
    split
    · rfl
    · split <;> rfl

theorem aborting_processPermanentReportActions_off (ext : Externals) (s : Simulator)
    (report : Report_) (h : s.abort_on_first_error_ = false) :
    aborting.processPermanentReportActions ext s report =
      .returned (s.processPermanentReportActions ext report) := by
  simp only [aborting.processPermanentReportActions, Simulator.processPermanentReportActions,
    aborting_processReportActionList_off ext report _ s h, Run.returned_bind]
  rfl

theorem aborting_processPermanentGenericReportActions_off (ext : Externals) (s : Simulator)
    (report : Report_) (h : s.abort_on_first_error_ = false) :
    aborting.processPermanentGenericReportActions ext s report =
      .returned (s.processPermanentGenericReportActions ext report) := by
  simp only [aborting.processPermanentGenericReportActions,
    Simulator.processPermanentGenericReportActions,
    aborting_processGenericReportActionList_off ext report _ s h, Run.returned_bind]
  rfl

theorem aborting_checkReportWithoutQueuedActions_off (s : Simulator) (n : Nat)
    (T : ReportType) (h : s.abort_on_first_error_ = false) :
    aborting.checkReportWithoutQueuedActions s n T =
      .returned (s.checkReportWithoutQueuedActions n T) := by
  unfold aborting.checkReportWithoutQueuedActions Simulator.checkReportWithoutQueuedActions
  split
  · exact aborting_error_off _ _ h
  · rfl

theorem processReport_abort_flag (ext : Externals) (s : Simulator) (report : Report_) :
    (s.processReport ext report).abort_on_first_error_ = s.abort_on_first_error_ := by
  obtain ⟨Q, P, G, h1, -⟩ := processReport_spec ext s report
  rw [h1]

theorem aborting_processReport_off (ext : Externals) (s : Simulator) (report : Report_)
    (h : s.abort_on_first_error_ = false) :
    aborting.processReport ext s report = .returned (s.processReport ext report) := by
  have h1 : (s.countReport report.report_type).abort_on_first_error_ = false := h
  have h2 : ((s.countReport report.report_type).processQueuedReportAction ext
      report).abort_on_first_error_ = false := by
    obtain ⟨Q, hQ, -⟩ :=
      processQueuedReportAction_spec ext (s.countReport report.report_type) report
    rw [hQ]; exact h
  have h3 : (((s.countReport report.report_type).processQueuedReportAction ext
      report).processPermanentReportActions ext report).abort_on_first_error_ = false := by
    obtain ⟨P, hP, -⟩ := processPermanentReportActions_spec ext
      ((s.countReport report.report_type).processQueuedReportAction ext report) report
    rw [hP]; exact h2
  have h4 : ((((s.countReport report.report_type).processQueuedReportAction ext
      report).processPermanentReportActions ext report).processPermanentGenericReportActions
      ext report).abort_on_first_error_ = false := by
    obtain ⟨G, hG, -⟩ := processPermanentGenericReportActions_spec ext
      (((s.countReport report.report_type).processQueuedReportAction ext
        report).processPermanentReportActions ext report) report
    rw [hG]; exact h3
  simp only [aborting.processReport, Simulator.processReport,
    aborting_processQueuedReportAction_off ext _ report h1, Run.returned_bind,
    aborting_processPermanentReportActions_off ext _ report h2,
    aborting_processPermanentGenericReportActions_off ext _ report h3,
    aborting_checkReportWithoutQueuedActions_off _ _ _ h4]

theorem aborting_processReports_off (ext : Externals) :
    ∀ (reports : List Report_) (s : Simulator), s.abort_on_first_error_ = false →
      aborting.processReports ext s reports = .returned (s.processReports ext reports) := by
  intro reports
  induction reports with
  | nil => intro s _; rfl
  | cons r rest ih =>
    intro s h
    have h1 : (s.processReport ext r).abort_on_first_error_ = false := by
      rw [processReport_abort_flag]; exact h
    simp only [aborting.processReports, Simulator.processReports,
      aborting_processReport_off ext s r h, Run.returned_bind, ih _ h1]

theorem aborting_processReport_mismatch (ext : Externals) (s : Simulator) (report : Report_)
    (a : ReportAction_) (rest : List ReportAction_)
    (hq : s.queued_report_actions_.directAccess = a :: rest)
    (hgeneric : a.getReportTypeId ≠ ext.Report_hid_report_type_)
    (htyped : a.getReportTypeId ≠ ext.hid_report_type_ report.report_type)
    (h : s.abort_on_first_error_ = true) :
    aborting.processReport ext s report =
      .exited (ErrorStream.output (.typeMismatch a.getTypeString report.report_type)
        { s.countReport report.report_type with
          queued_report_actions_ := { queue_ := rest } }.error) := by
  have hq0 : (s.countReport report.report_type).queued_report_actions_.queue_ = a :: rest := hq
  have h1 : ({ s.countReport report.report_type with
      queued_report_actions_ := { queue_ := rest } } : Simulator).abort_on_first_error_ = true :=
    h
  have hstep : aborting.processQueuedReportAction ext (s.countReport report.report_type)
      report =
      .exited (ErrorStream.output (.typeMismatch a.getTypeString report.report_type)
        { s.countReport report.report_type with
          queued_report_actions_ := { queue_ := rest } }.error) := by
    unfold aborting.processQueuedReportAction
    simp only [ActionContainer.empty, ActionContainer.popFront, hq0, List.isEmpty_cons,
      Bool.not_false, if_true, if_neg hgeneric, if_neg htyped]
    exact aborting_error_on _ _ h1
  simp only [aborting.processReport, hstep, Run.exited_bind]

theorem failLines_length (ext : Externals) (E : List EvalCall)
    (h : ext.failed_report_is_error = true) :
    (failLines ext E).length = (E.filter (fun e => !e.result)).length := by
  simp [failLines, h]

theorem call_failures (ext : Externals) (s : Simulator) (c : Call)
    (h : ext.failed_report_is_error = true) :
    s.error_count_ + ((newEvals s (s.call ext c)).filter (fun e => !e.result)).length ≤
      (s.call ext c).error_count_ := by
  cases c with
  | error =>
    have hN : newEvals s (s.call ext .error) = [] := newEvals_append s _ [] (by simp; rfl)
    rw [hN]
    show s.error_count_ + ((0 : Nat) : Int) ≤ s.error_count_ + 1
    omega
  | processReport report =>
    obtain ⟨Q, P, G, h1, h2, -⟩ := processReport_spec ext s report
    have hN : newEvals s (s.call ext (.processReport report)) = Q ++ P ++ G :=
      newEvals_append s _ _ h2
    rw [hN]
    show _ ≤ (s.processReport ext report).error_count_
    rw [h1]
    show _ ≤ s.error_count_ + ((reportErrors ext s report (Q ++ P ++ G)).length : Int)
    simp only [reportErrors, List.length_append, failLines_length ext _ h]
    push_cast
    omega
  | evaluateActions actions =>
    obtain ⟨E, h1, h2, -⟩ := evaluateActions_spec ext s actions
    have hN : newEvals s (s.call ext (.evaluateActions actions)) = E :=
      newEvals_append s _ _ h2
    rw [hN]
    show _ ≤ (s.evaluateActions ext actions).error_count_
    rw [h1]
    show _ ≤ s.error_count_ + ((failLines ext E).length : Int)
    rw [failLines_length ext _ h]

theorem calls_error_count_le (ext : Externals) (cs : List Call) (s : Simulator) :
    s.error_count_ ≤ (s.calls ext cs).error_count_ := by
  induction cs generalizing s with
  | nil => exact le_refl _
  | cons c rest ih => exact le_trans (call_verdict ext s c).1 (ih _)

theorem calls_append (ext : Externals) (pre post : List Call) (s : Simulator) :
    s.calls ext (pre ++ post) = (s.calls ext pre).calls ext post := by
  induction pre generalizing s with
  | nil => rfl
  | cons c rest ih => exact ih _

/-! ## Theorems on failed predicates and on abort-on-first-error -/

/-- C15: when `report()` sends the description of a failed action through
`error()`, every predicate that evaluates to false during `processReport` or
`evaluateActions` raises the error count: the count grows at least by the
number of failed evaluations, and a sequence of calls in which some predicate
fails ends with an error count above the one it started with. -/
theorem failed_predicate_is_error (ext : Externals) (s : Simulator)
    (hspec : ext.failed_report_is_error = true) :
    (∀ report : Report_,
        s.getErrorCount +
            ((newEvals s (s.processReport ext report)).filter (fun e => !e.result)).length ≤
          (s.processReport ext report).getErrorCount)
    ∧ (∀ actions : List Action_,
        s.getErrorCount +
            ((newEvals s (s.evaluateActions ext actions)).filter (fun e => !e.result)).length ≤
          (s.evaluateActions ext actions).getErrorCount)
    ∧ ∀ (pre post : List Call) (c : Call),
        (∃ e ∈ newEvals (s.calls ext pre) ((s.calls ext pre).call ext c), e.result = false) →
          s.getErrorCount < (s.calls ext (pre ++ c :: post)).getErrorCount := by
  refine ⟨fun report => call_failures ext s (.processReport report) hspec,
    fun actions => call_failures ext s (.evaluateActions actions) hspec, ?_⟩
  intro pre post c ⟨e, he, hr⟩
  have h1 := calls_error_count_le ext pre s
  have h2 := call_failures ext (s.calls ext pre) c hspec
  have h3 := calls_error_count_le ext post ((s.calls ext pre).call ext c)
  have h4 : 0 < ((newEvals (s.calls ext pre) ((s.calls ext pre).call ext c)).filter
      (fun e => !e.result)).length := by
    apply List.length_pos_of_mem (a := e)
    rw [List.mem_filter]
    exact ⟨he, by simp [hr]⟩
  have h5 : s.calls ext (pre ++ c :: post) =
      ((s.calls ext pre).call ext c).calls ext post := by
    rw [calls_append]; rfl
  show s.error_count_ < (s.calls ext (pre ++ c :: post)).error_count_
  rw [h5]
  omega

/-- C15, at a concrete input: evaluating an action that holds and one that
fails raises the error count from 0 to at least 1. -/
theorem failed_predicate_is_error_witness :
    exampleExt.failed_report_is_error = true
    ∧ exampleMatch.getErrorCount = 0
    ∧ exampleMatch.getErrorCount <
        (exampleMatch.calls exampleExt
          ([] ++ Call.evaluateActions [examplePassingAction, exampleFailingAction] ::
            [])).getErrorCount :=
  ⟨rfl, rfl,
    (failed_predicate_is_error exampleExt exampleMatch rfl).2.2 [] []
      (.evaluateActions [examplePassingAction, exampleFailingAction])
      ⟨{ action := 5, report := none, result := false }, by decide, rfl⟩⟩

/-- C16: with the destructor of the error stream modelled from the spec, and
abort-on-first-error enabled, a type-mismatch error ends the run: no permanent
check is evaluated for that report and none of the following reports is
processed. With the switch disabled the run goes on exactly as `processReport`
describes: the permanent checks are evaluated and the following reports are
processed. -/
theorem abort_on_first_error_halts (ext : Externals) (s : Simulator) (report : Report_)
    (more : List Report_) (a : ReportAction_) (rest : List ReportAction_)
    (hq : s.queued_report_actions_.directAccess = a :: rest)
    (hgeneric : a.getReportTypeId ≠ ext.Report_hid_report_type_)
    (htyped : a.getReportTypeId ≠ ext.hid_report_type_ report.report_type) :
    (s.abort_on_first_error_ = true →
      aborting.processReports ext s (report :: more) =
          .exited (ErrorStream.output (.typeMismatch a.getTypeString report.report_type)
            { s.countReport report.report_type with
              queued_report_actions_ := { queue_ := rest } }.error)
      ∧ newEvals s (ErrorStream.output (.typeMismatch a.getTypeString report.report_type)
            { s.countReport report.report_type with
              queued_report_actions_ := { queue_ := rest } }.error) = [])
    ∧ (s.abort_on_first_error_ = false →
      aborting.processReports ext s (report :: more) =
          .returned ((s.processReport ext report).processReports ext more)
      ∧ (newEvals s (s.processReport ext report)).map EvalCall.key =
          (s.getPermanentReportActions report.report_type).directAccess.map
              (fun p => (p.id, some report)) ++
            (s.permanent_generic_report_actions_.directAccess.filter
              (fun g => decide (g.getReportTypeId = ext.hid_report_type_ report.report_type
                ∨ g.getReportTypeId = ext.GenericReportTypeId))).map
              (fun g => (g.id, some report))) := by
  refine ⟨fun h => ⟨?_, ?_⟩, fun h => ⟨?_, ?_⟩⟩
  · simp only [aborting.processReports,
      aborting_processReport_mismatch ext s report a rest hq hgeneric htyped h,
      Run.exited_bind]
  · exact newEvals_append s _ [] (by simp; rfl)
  · exact aborting_processReports_off ext (report :: more) s h
  · have hk := processReport_eval_keys ext s report
    rw [hq] at hk
    simp only [List.take_succ_cons, List.take_zero, hgeneric, htyped, or_self, decide_False,
      List.filter_cons_of_neg, Bool.false_eq_true, not_false_eq_true, List.filter_nil,
      List.map_nil, List.nil_append] at hk
    obtain ⟨Q, P, G, -, h2, -⟩ := processReport_spec ext s report
    rw [newEvals_append s _ _ h2]
    rw [h2, List.map_append] at hk
    exact List.append_cancel_left hk

/-- C16, at a concrete input: a mouse check heads the queue and two keyboard
reports arrive; with the switch enabled the run ends at the first one. -/
theorem abort_on_first_error_halts_witness :
    exampleAbort.abort_on_first_error_ = true
    ∧ exampleMouseAction.getReportTypeId ≠ exampleExt.Report_hid_report_type_
    ∧ exampleMouseAction.getReportTypeId ≠
        exampleExt.hid_report_type_ exampleKeyboardReport.report_type
    ∧ aborting.processReports exampleExt exampleAbort
        [exampleKeyboardReport, exampleKeyboardReport] =
        .exited (ErrorStream.output (.typeMismatch "mouse" .KeyboardReport)
          { exampleAbort.countReport .KeyboardReport with
            queued_report_actions_ := { queue_ := [exampleKeyboardAction] } }.error) :=
  ⟨rfl, by decide, by decide,
    ((abort_on_first_error_halts exampleExt exampleAbort exampleKeyboardReport
      [exampleKeyboardReport] exampleMouseAction [exampleKeyboardAction] rfl (by decide)
      (by decide)).1 rfl).1⟩

/-! ## Lemmas on counters over cycles -/

theorem incr_incr_delta (a b : Fin 5 → Int) (T : ReportType) (i : Fin 5) :
    incr (incr a AnyTypeReportSid) (ReportTraits.sid T) i - a i =
      incr (incr b AnyTypeReportSid) (ReportTraits.sid T) i - b i := by
  by_cases h0 : i = AnyTypeReportSid
  · subst h0; rw [incr_incr_any, incr_incr_any]; omega
  · by_cases h1 : i = ReportTraits.sid T
    · subst h1; rw [incr_incr_sid, incr_incr_sid]; omega
    · rw [incr_incr_other _ _ _ h0 h1, incr_incr_other _ _ _ h0 h1]; omega

theorem incr_incr_le (a : Fin 5 → Int) (T : ReportType) (i : Fin 5) :
    a i ≤ incr (incr a AnyTypeReportSid) (ReportTraits.sid T) i := by
  by_cases h0 : i = AnyTypeReportSid
  · subst h0; rw [incr_incr_any]; omega
  · by_cases h1 : i = ReportTraits.sid T
    · subst h1; rw [incr_incr_sid]; omega
    · rw [incr_incr_other _ _ _ h0 h1]

theorem processReport_counter_delta (ext : Externals) (s : Simulator) (report : Report_)
    (i : Fin 5) :
    (s.processReport ext report).n_typed_overall_reports_ i - s.n_typed_overall_reports_ i =
        (s.processReport ext report).n_typed_reports_in_cycle_ i -
          s.n_typed_reports_in_cycle_ i
    ∧ s.n_typed_overall_reports_ i ≤ (s.processReport ext report).n_typed_overall_reports_ i := by
  obtain ⟨Q, P, G, h1, -⟩ := processReport_spec ext s report
  rw [h1]
  exact ⟨incr_incr_delta _ _ _ _, incr_incr_le _ _ _⟩

theorem processReports_counter_delta (ext : Externals) (reports : List Report_)
    (s : Simulator) (i : Fin 5) :
    (s.processReports ext reports).n_typed_overall_reports_ i - s.n_typed_overall_reports_ i =
      (s.processReports ext reports).n_typed_reports_in_cycle_ i -
        s.n_typed_reports_in_cycle_ i := by
  induction reports generalizing s with
  | nil => simp [Simulator.processReports]
  | cons r rest ih =>
    have h1 := (processReport_counter_delta ext s r i).1
    have h2 := ih (s.processReport ext r)
    simp only [Simulator.processReports]
    omega

theorem evaluateActionsInternal_counters (ext : Externals) (s : Simulator)
    (actions : List Action_) :
    (s.evaluateActionsInternal ext actions).2.n_typed_overall_reports_ =
        s.n_typed_overall_reports_
    ∧ (s.evaluateActionsInternal ext actions).2.n_typed_reports_in_cycle_ =
        s.n_typed_reports_in_cycle_ := by
  obtain ⟨E, h1, -⟩ := evaluateActions_spec ext s actions
  have h : (s.evaluateActionsInternal ext actions).2.toSimulatorState =
      (s.evaluateActions ext actions).toSimulatorState := rfl
  exact ⟨by rw [h, h1], by rw [h, h1]⟩

theorem evaluateCycleActions_counters (ext : Externals) (s : Simulator) :
    (s.evaluateCycleActions ext).n_typed_overall_reports_ = s.n_typed_overall_reports_
    ∧ (s.evaluateCycleActions ext).n_typed_reports_in_cycle_ = s.n_typed_reports_in_cycle_ := by
  obtain ⟨h1, h2⟩ := evaluateActionsInternal_counters ext s
    s.permanent_cycle_actions_.directAccess
  unfold Simulator.evaluateCycleActions
  simp only []
  split
  · exact ⟨h1, h2⟩
  · exact ⟨(evaluateActionsInternal_counters ext _ _).1.trans h1,
      (evaluateActionsInternal_counters ext _ _).2.trans h2⟩

theorem cycle_counters (ext : Externals) (s : Simulator) (reports : List Report_) :
    (s.cycle ext reports).n_typed_overall_reports_ =
        (({ s with cycle_id_ := s.cycle_id_ + 1, n_typed_reports_in_cycle_ := fun _ => 0 } :
          Simulator).processReports ext reports).n_typed_overall_reports_
    ∧ (s.cycle ext reports).n_typed_reports_in_cycle_ =
        (({ s with cycle_id_ := s.cycle_id_ + 1, n_typed_reports_in_cycle_ := fun _ => 0 } :
          Simulator).processReports ext reports).n_typed_reports_in_cycle_ :=
  evaluateCycleActions_counters ext _

theorem cycle_counter_delta (ext : Externals) (s : Simulator) (reports : List Report_)
    (i : Fin 5) :
    (s.cycle ext reports).n_typed_overall_reports_ i - s.n_typed_overall_reports_ i =
      (s.cycle ext reports).n_typed_reports_in_cycle_ i := by
  obtain ⟨h1, h2⟩ := cycle_counters ext s reports
  rw [h1, h2]
  have h := processReports_counter_delta ext reports
    ({ s with cycle_id_ := s.cycle_id_ + 1, n_typed_reports_in_cycle_ := fun _ => 0 } :
      Simulator) i
  have h0 : ({ s with cycle_id_ := s.cycle_id_ + 1, n_typed_reports_in_cycle_ := fun _ => 0 } :
      Simulator).n_typed_reports_in_cycle_ i = 0 := rfl
  have h3 : ({ s with cycle_id_ := s.cycle_id_ + 1, n_typed_reports_in_cycle_ := fun _ => 0 } :
      Simulator).n_typed_overall_reports_ i = s.n_typed_overall_reports_ i := rfl
  omega

/-! ## Lemmas on the state a predicate sees -/

theorem sameButVerdict_refl (a : SimulatorState) : sameButVerdict a a :=
  ⟨a.actions_passed_, a.error_count_, a.out_, rfl⟩

theorem sameButVerdict_trans {a b c : SimulatorState} (h1 : sameButVerdict a b)
    (h2 : sameButVerdict b c) : sameButVerdict a c := by
  obtain ⟨p, n, o, rfl⟩ := h1
  obtain ⟨q, m, r, rfl⟩ := h2
  exact ⟨q, m, r, rfl⟩

theorem sameButVerdict_withEval (s : Simulator) (p : Bool) (e : List EvalCall) (r : List Nat)
    (l : List ErrorLine) : sameButVerdict s.toSimulatorState (s.withEval p e r l).toSimulatorState :=
  ⟨p, s.error_count_ + l.length, s.out_ ++ l, rfl⟩

theorem evaluates_mono {st st' : SimulatorState} (h : sameButVerdict st st') (report : Report_)
    (a : ReportAction_) (e : EvalCall) (he : evaluates st' report a e) :
    evaluates st report a e := by
  obtain ⟨t, ht, rfl⟩ := he
  exact ⟨t, sameButVerdict_trans h ht, rfl⟩

theorem evaluatesAction_mono {st st' : SimulatorState} (h : sameButVerdict st st')
    (a : Action_) (e : EvalCall) (he : evaluatesAction st' a e) : evaluatesAction st a e := by
  obtain ⟨t, ht, rfl⟩ := he
  exact ⟨t, sameButVerdict_trans h ht, rfl⟩

theorem newEvals_cons (s t u : Simulator) (e : EvalCall) (E : List EvalCall)
    (h1 : t.eval_calls_ = s.eval_calls_ ++ [e]) (h2 : u.eval_calls_ = t.eval_calls_ ++ E) :
    newEvals s u = e :: newEvals t u := by
  rw [newEvals_append t u E h2]
  apply newEvals_append
  rw [h2, h1, List.append_assoc]
  rfl

theorem evaluateActionsLoop_results (ext : Externals) :
    ∀ (l : List Action_) (s : Simulator),
      List.Forall₂ (evaluatesAction s.toSimulatorState) l
        (newEvals s (s.evaluateActionsLoop ext l).2) := by
  intro l
  induction l with
  | nil =>
    intro s
    have h : newEvals s (s.evaluateActionsLoop ext []).2 = [] :=
      newEvals_append s _ [] (by simp [Simulator.evaluateActionsLoop])
    rw [h]
    exact List.Forall₂.nil
  | cons a rest ih =>
    intro s
    rw [evaluateActionsLoop_cons]
    obtain ⟨E, h1, -⟩ := evaluateActionsLoop_spec ext rest
      (s.withEval (s.actions_passed_ && a.evalInternal s.toSimulatorState)
        (s.eval_calls_ ++
          [{ action := a.id, report := none, result := a.evalInternal s.toSimulatorState }])
        (if !a.evalInternal s.toSimulatorState || s.debug_ then s.report_calls_ ++ [a.id]
          else s.report_calls_)
        (failLines ext
          [{ action := a.id, report := none, result := a.evalInternal s.toSimulatorState }]))
    have h2 := ih
      (s.withEval (s.actions_passed_ && a.evalInternal s.toSimulatorState)
        (s.eval_calls_ ++
          [{ action := a.id, report := none, result := a.evalInternal s.toSimulatorState }])
        (if !a.evalInternal s.toSimulatorState || s.debug_ then s.report_calls_ ++ [a.id]
          else s.report_calls_)
        (failLines ext
          [{ action := a.id, report := none, result := a.evalInternal s.toSimulatorState }]))
    simp only []
    rw [newEvals_cons s _ _ _ E rfl (by rw [h1]; rfl)]
    refine List.Forall₂.cons ⟨s.toSimulatorState, sameButVerdict_refl _, rfl⟩ ?_
    exact h2.imp (fun x e he => evaluatesAction_mono (sameButVerdict_withEval s _ _ _ _) x e he)

/-! ## Theorems on cycles and on `evaluateActions` -/

/-- C17: over every sequence of cycles, each of which zeroes the per-cycle
counters at its start and routes the emitted reports through `processReport`,
the increase of each cumulative counter (the four report classes and the
wildcard) equals the sum of the values the per-cycle counter of the same slot
has at the end of each cycle; and `processReport` never lowers a cumulative
counter. -/
theorem cumulative_counter_is_sum (ext : Externals) (emitted : List (List Report_))
    (s : Simulator) (i : Fin 5) :
    (s.afterCycles ext emitted).n_typed_overall_reports_ i - s.n_typed_overall_reports_ i =
        ((s.cycles ext emitted).map (fun t => t.n_typed_reports_in_cycle_ i)).sum
    ∧ ∀ report : Report_,
        s.n_typed_overall_reports_ i ≤ (s.processReport ext report).n_typed_overall_reports_ i := by
  refine ⟨?_, fun report => (processReport_counter_delta ext s report i).2⟩
  induction emitted generalizing s with
  | nil => simp [Simulator.afterCycles, Simulator.cycles]
  | cons reports rest ih =>
    have h1 := cycle_counter_delta ext s reports i
    have h2 := ih (s.cycle ext reports)
    simp only [Simulator.afterCycles, Simulator.cycles, List.map_cons, List.sum_cons]
    omega

/-- C17, at a concrete input: three cycles that emit two, no and one keyboard
report raise the cumulative keyboard counter by 2 + 0 + 1. -/
theorem cumulative_counter_is_sum_witness :
    (exampleEmpty.afterCycles exampleExt
        [[exampleKeyboardReport, exampleKeyboardReport], [], [exampleKeyboardReport]]
      ).n_typed_overall_reports_ KeyboardReportSid -
        exampleEmpty.n_typed_overall_reports_ KeyboardReportSid = 2 + 0 + 1 :=
  (cumulative_counter_is_sum exampleExt
    [[exampleKeyboardReport, exampleKeyboardReport], [], [exampleKeyboardReport]]
    exampleEmpty KeyboardReportSid).1.trans (by decide)

/-- C18: `evaluateActions` evaluates every action of the list exactly once, in
the order of the list, also those that follow a failing one, each in the state
of the simulator up to the verdict; afterwards `actions_passed_` is its former
value AND the conjunction of all results. An empty list changes nothing. -/
theorem evaluateActions_all (ext : Externals) (s : Simulator) (actions : List Action_) :
    (newEvals s (s.evaluateActions ext actions)).map EvalCall.key =
        actions.map (fun a => (a.id, none))
    ∧ List.Forall₂ (evaluatesAction s.toSimulatorState) actions
        (newEvals s (s.evaluateActions ext actions))
    ∧ (s.evaluateActions ext actions).actions_passed_ =
        (s.actions_passed_ &&
          (newEvals s (s.evaluateActions ext actions)).all (fun e => e.result))
    ∧ s.evaluateActions ext [] = s := by
  obtain ⟨E, h1, h2, h3⟩ := evaluateActions_spec ext s actions
  have hN := newEvals_append s _ _ h2
  refine ⟨by rw [hN, h3], ?_, by rw [hN, h1], rfl⟩
  cases actions with
  | nil =>
    have h : newEvals s (s.evaluateActions ext []) = [] := newEvals_append s _ [] (by simp; rfl)
    rw [h]
    exact List.Forall₂.nil
  | cons a rest => exact evaluateActionsLoop_results ext (a :: rest) s

/-- C18, at a concrete input: a failing action followed by a passing one; both
are evaluated and the flag becomes false. -/
theorem evaluateActions_all_witness :
    newEvals exampleMatch
        (exampleMatch.evaluateActions exampleExt [exampleFailingAction, examplePassingAction]) =
      [{ action := 5, report := none, result := false },
        { action := 4, report := none, result := true }]
    ∧ (exampleMatch.evaluateActions exampleExt
        [exampleFailingAction, examplePassingAction]).actions_passed_ = false :=
  ⟨by decide,
    (evaluateActions_all exampleExt exampleMatch
      [exampleFailingAction, examplePassingAction]).2.2.1⟩

theorem processReportActionList_results (ext : Externals) (report : Report_) :
    ∀ (l : List ReportAction_) (s : Simulator),
      List.Forall₂ (evaluates s.toSimulatorState report) l
        (newEvals s (s.processReportActionList ext report l).2) := by
  intro l
  induction l with
  | nil =>
    intro s
    have h : newEvals s (s.processReportActionList ext report []).2 = [] :=
      newEvals_append s _ [] (by simp [Simulator.processReportActionList])
    rw [h]
    exact List.Forall₂.nil
  | cons a rest ih =>
    intro s
    obtain ⟨E, h1, -⟩ := processReportActionList_spec ext report rest
      (s.processReportAction ext a report).2
    have h2 := ih (s.processReportAction ext a report).2
    have h3 : (s.processReportActionList ext report (a :: rest)).2 =
        ((s.processReportAction ext a report).2.processReportActionList ext report rest).2 :=
      rfl
    have h4 : (s.processReportAction ext a report).2.eval_calls_ =
        s.eval_calls_ ++ [evalOf s a report] := by
      rw [processReportAction_eq]; rfl
    have h5 : sameButVerdict s.toSimulatorState
        (s.processReportAction ext a report).2.toSimulatorState := by
      rw [processReportAction_eq]
      exact sameButVerdict_withEval s _ _ _ _
    rw [h3, newEvals_cons s _ _ _ E h4 (by rw [h1]; rfl)]
    refine List.Forall₂.cons ⟨s.toSimulatorState, sameButVerdict_refl _, rfl⟩ ?_
    exact h2.imp (fun x e he => evaluates_mono h5 report x e he)

theorem processGenericReportActionList_results (ext : Externals) (report : Report_) :
    ∀ (l : List ReportAction_) (s : Simulator),
      List.Forall₂ (evaluates s.toSimulatorState report)
        (l.filter (genericActionApplies ext report.report_type))
        (newEvals s (s.processGenericReportActionList ext report l).2) := by
  intro l
  induction l with
  | nil =>
    intro s
    have h : newEvals s (s.processGenericReportActionList ext report []).2 = [] :=
      newEvals_append s _ [] (by simp [Simulator.processGenericReportActionList])
    rw [h]
    exact List.Forall₂.nil
  | cons a rest ih =>
    intro s
    by_cases ha : genericActionApplies ext report.report_type a = true
    · obtain ⟨E, h1, -⟩ := processGenericReportActionList_spec ext report rest
        (s.processReportAction ext a report).2
      have h2 := ih (s.processReportAction ext a report).2
      have h3 : (s.processGenericReportActionList ext report (a :: rest)).2 =
          ((s.processReportAction ext a report).2.processGenericReportActionList ext report
            rest).2 := by
        simp only [Simulator.processGenericReportActionList, ha, if_true]
      have h4 : (s.processReportAction ext a report).2.eval_calls_ =
          s.eval_calls_ ++ [evalOf s a report] := by
        rw [processReportAction_eq]; rfl
      have h5 : sameButVerdict s.toSimulatorState
          (s.processReportAction ext a report).2.toSimulatorState := by
        rw [processReportAction_eq]
        exact sameButVerdict_withEval s _ _ _ _
      rw [h3, newEvals_cons s _ _ _ E h4 (by rw [h1]; rfl), List.filter_cons_of_pos ha]
      refine List.Forall₂.cons ⟨s.toSimulatorState, sameButVerdict_refl _, rfl⟩ ?_
      exact h2.imp (fun x e he => evaluates_mono h5 report x e he)
    · have h3 : (s.processGenericReportActionList ext report (a :: rest)).2 =
          (s.processGenericReportActionList ext report rest).2 := by
        simp only [Simulator.processGenericReportActionList, ha]
        rfl
      rw [h3, List.filter_cons_of_neg ha]
      exact ih s

theorem processQueuedReportAction_results (ext : Externals) (s : Simulator)
    (report : Report_) :
    List.Forall₂ (evaluates s.toSimulatorState report)
      ((s.queued_report_actions_.directAccess.take 1).filter
        (fun a => decide (a.getReportTypeId = ext.Report_hid_report_type_
          ∨ a.getReportTypeId = ext.hid_report_type_ report.report_type)))
      (newEvals s (s.processQueuedReportAction ext report)) := by
  cases hq : s.queued_report_actions_.directAccess with
  | nil =>
    rw [processQueuedReportAction_nil ext s report hq]
    have h : newEvals s s = [] := newEvals_append s s [] (by simp)
    rw [h]
    exact List.Forall₂.nil
  | cons a rest =>
    by_cases ha : queuedActionApplies ext report.report_type a = true
    · have hc : a.getReportTypeId = ext.Report_hid_report_type_
          ∨ a.getReportTypeId = ext.hid_report_type_ report.report_type := by
        simpa [queuedActionApplies] using ha
      rw [processQueuedReportAction_applies ext s report a rest hq ha, processReportAction_eq]
      have h : newEvals s (({ s with queued_report_actions_ := { queue_ := rest } } :
          Simulator).withEval
            (s.actions_passed_ &&
              (evalOf { s with queued_report_actions_ := { queue_ := rest } } a report).result)
            (s.eval_calls_ ++
              [evalOf { s with queued_report_actions_ := { queue_ := rest } } a report])
            (if !(evalOf { s with queued_report_actions_ := { queue_ := rest } } a
                report).result || s.debug_ then s.report_calls_ ++ [a.id]
              else s.report_calls_)
            (failLines ext
              [evalOf { s with queued_report_actions_ := { queue_ := rest } } a report])) =
          [evalOf { s with queued_report_actions_ := { queue_ := rest } } a report] :=
        newEvals_append s _ _ rfl
      simp only [List.take_succ_cons, List.take_zero, hc, decide_True, List.filter_cons_of_pos,
        List.filter_nil]
      rw [h]
      exact List.Forall₂.cons ⟨s.toSimulatorState, sameButVerdict_refl _, rfl⟩ List.Forall₂.nil
    · have hc : ¬ (a.getReportTypeId = ext.Report_hid_report_type_
          ∨ a.getReportTypeId = ext.hid_report_type_ report.report_type) := by
        simpa [queuedActionApplies] using ha
      simp only [Bool.not_eq_true] at ha
      rw [processQueuedReportAction_mismatch ext s report a rest hq ha]
      have h : newEvals s (ErrorStream.output
          (.typeMismatch a.getTypeString report.report_type)
          ({ s with queued_report_actions_ := { queue_ := rest } } : Simulator).error) = [] :=
        newEvals_append s _ [] (by simp; rfl)
      simp only [List.take_succ_cons, List.take_zero, hc, decide_False, Bool.false_eq_true,
        not_false_eq_true, List.filter_cons_of_neg, List.filter_nil]
      rw [h]
      exact List.Forall₂.nil

theorem genericActionApplies_eq (ext : Externals) (T : ReportType) :
    genericActionApplies ext T =
      fun g => decide (g.getReportTypeId = ext.hid_report_type_ T
        ∨ g.getReportTypeId = ext.GenericReportTypeId) := by
  funext g
  rw [Bool.eq_iff_iff]
  simp [genericActionApplies]

theorem newEvals_congr (s t u : Simulator) (h : t.eval_calls_ = u.eval_calls_) :
    newEvals s t = newEvals s u := by
  simp [newEvals, h]

theorem newEvals_congr_left (s t u : Simulator) (h : s.eval_calls_ = t.eval_calls_) :
    newEvals s u = newEvals t u := by
  simp [newEvals, h]

/-- Every evaluation `processReport` makes is the evaluation of the action at
the same place in the list of evaluated actions, in a state that is the one
after the counters were incremented, up to the verdict. -/
theorem processReport_results (ext : Externals) (s : Simulator) (report : Report_) :
    List.Forall₂ (evaluates (s.countReport report.report_type).toSimulatorState report)
      (evaluatedActions ext s report) (newEvals s (s.processReport ext report)) := by
  obtain ⟨Q, hQ1, hQ2, -, -, hQ5, hQ6⟩ :=
    processQueuedReportAction_spec ext (s.countReport report.report_type) report
  obtain ⟨P, hP1, hP2, -, -, hP5⟩ := processPermanentReportActions_spec ext
    ((s.countReport report.report_type).processQueuedReportAction ext report) report
  obtain ⟨G, hG1, hG2, -, -⟩ := processPermanentGenericReportActions_spec ext
    (((s.countReport report.report_type).processQueuedReportAction ext report
      ).processPermanentReportActions ext report) report
  obtain ⟨-, hC2, -⟩ := checkReportWithoutQueuedActions_spec
    ((((s.countReport report.report_type).processQueuedReportAction ext report
      ).processPermanentReportActions ext report).processPermanentGenericReportActions ext
      report)
    (s.countReport report.report_type).queued_report_actions_.size report.report_type
  have h12 : sameButVerdict (s.countReport report.report_type).toSimulatorState
      ((s.countReport report.report_type).processQueuedReportAction ext
        report).toSimulatorState := ⟨_, _, _, hQ1⟩
  have h23 : sameButVerdict
      ((s.countReport report.report_type).processQueuedReportAction ext
        report).toSimulatorState
      (((s.countReport report.report_type).processQueuedReportAction ext
        report).processPermanentReportActions ext report).toSimulatorState := ⟨_, _, _, hP1⟩
  have hc : ∀ T, (s.countReport report.report_type).getPermanentReportActions T =
      s.getPermanentReportActions T := fun T => by cases T <;> rfl
  -- the three runs of evaluations
  have rQ := processQueuedReportAction_results ext (s.countReport report.report_type) report
  have rP := processReportActionList_results ext report
    (((s.countReport report.report_type).processQueuedReportAction ext
      report).getPermanentReportActions report.report_type).directAccess
    ((s.countReport report.report_type).processQueuedReportAction ext report)
  have rG := processGenericReportActionList_results ext report
    (((s.countReport report.report_type).processQueuedReportAction ext
      report).processPermanentReportActions ext report
      ).permanent_generic_report_actions_.directAccess
    (((s.countReport report.report_type).processQueuedReportAction ext
      report).processPermanentReportActions ext report)
  rw [newEvals_congr _ _ (((s.countReport report.report_type).processQueuedReportAction ext
      report).processPermanentReportActions ext report)
      (by simp only [Simulator.processPermanentReportActions,
        setPermanentReportActions_eval_calls]),
    newEvals_append _ _ P hP2, hQ5, hc] at rP
  rw [newEvals_congr _ _ ((((s.countReport report.report_type).processQueuedReportAction ext
      report).processPermanentReportActions ext report).processPermanentGenericReportActions
      ext report) (by simp only [Simulator.processPermanentGenericReportActions]),
    newEvals_append _ _ G hG2, hP5, hQ6, genericActionApplies_eq] at rG
  rw [newEvals_append _ _ Q hQ2] at rQ
  have hN : newEvals s (s.processReport ext report) = Q ++ (P ++ G) := by
    apply newEvals_append
    show (Simulator.checkReportWithoutQueuedActions _ _ _).eval_calls_ = _
    rw [hC2, hG2, hP2, hQ2]
    simp [Simulator.countReport]
  rw [hN]
  unfold evaluatedActions
  refine List.rel_append rQ (List.rel_append ?_ ?_)
  · exact rP.imp (fun x e he => evaluates_mono h12 report x e he)
  · exact rG.imp (fun x e he =>
      evaluates_mono (sameButVerdict_trans h12 h23) report x e he)

theorem evaluates_count (s : Simulator) (report : Report_) (a : ReportAction_) (e : EvalCall)
    (h : evaluates (s.countReport report.report_type).toSimulatorState report a e) :
    e.action = a.id ∧ e.report = some report
      ∧ ∃ st : SimulatorState, st.getNumReportsInCycle = s.getNumReportsInCycle + 1
        ∧ e.result = a.evalInternal st (some report) := by
  obtain ⟨st, ⟨p, c, o, rfl⟩, rfl⟩ := h
  refine ⟨rfl, rfl, _, ?_, rfl⟩
  show incr (incr s.n_typed_reports_in_cycle_ AnyTypeReportSid)
    (ReportTraits.sid report.report_type) AnyTypeReportSid = _
  rw [incr_incr_any]
  rfl

/-! ## Theorems on assertions -/

/-- C19: `ReportNthInCycle(n)` holds exactly when the per-cycle report count
it reads equals `n`, and every check evaluated inside `processReport` reads a
per-cycle count that already includes the report being processed (the count
before the call plus one). So the assertion, wherever `processReport` evaluates
it, is true exactly when the report being processed is the n-th of the cycle,
counted from 1. -/
theorem reportNthInCycle_counts_current (ext : Externals) (s : Simulator) (report : Report_)
    (n : Int) :
    (∀ st : SimulatorState,
        ReportNthInCycle.evalInternal n st = true ↔ st.getNumReportsInCycle = n)
    ∧ List.Forall₂
        (fun a e => e.action = a.id ∧ e.report = some report
          ∧ ∃ st : SimulatorState, st.getNumReportsInCycle = s.getNumReportsInCycle + 1
            ∧ e.result = a.evalInternal st (some report))
        (evaluatedActions ext s report) (newEvals s (s.processReport ext report))
    ∧ ∀ (a : ReportAction_) (e : EvalCall),
        (a, e) ∈ List.zip (evaluatedActions ext s report)
          (newEvals s (s.processReport ext report)) →
        (a.evalInternal = fun st _ => ReportNthInCycle.evalInternal n st) →
          (e.result = true ↔ s.getNumReportsInCycle + 1 = n) := by
  have hR := (processReport_results ext s report).imp
    (fun a e he => evaluates_count s report a e he)
  refine ⟨?_, hR, ?_⟩
  · intro st
    simp [ReportNthInCycle.evalInternal]
  · intro a e hmem ha
    obtain ⟨-, -, st, hst, hres⟩ := List.forall₂_zip hR hmem
    rw [hres, ha]
    simp [ReportNthInCycle.evalInternal, hst]

/-- C19, at a concrete input: after one keyboard report in the cycle, the
assertion for the second report, queued, is evaluated to true when the next
report is processed, and that report is the second of the cycle. -/
theorem reportNthInCycle_counts_current_witness :
    exampleSecond.getNumReportsInCycle = 1
    ∧ (ReportNthInCycle 2 7 8,
        ({ action := 7, report := some exampleKeyboardReport, result := true } : EvalCall)) ∈
        List.zip (evaluatedActions exampleExt exampleSecond exampleKeyboardReport)
          (newEvals exampleSecond
            (exampleSecond.processReport exampleExt exampleKeyboardReport))
    ∧ exampleSecond.getNumReportsInCycle + 1 = 2 :=
  ⟨by decide, List.mem_cons_self _ _,
    ((reportNthInCycle_counts_current exampleExt exampleSecond exampleKeyboardReport 2).2.2
      (ReportNthInCycle 2 7 8)
      { action := 7, report := some exampleKeyboardReport, result := true }
      (List.mem_cons_self _ _) rfl).1 rfl⟩

/-- C20: the doc comment of `LayerIsActive` speaks of the current top layer,
the code asks `Layer.isActive`. With layers 0 and 1 active and layer 1 on top,
`LayerIsActive(0)` holds although layer 0 is not the top layer; the comparison
with `Layer.top()`, which `AssertTopActiveLayerIs(0)` makes, is false there. -/
theorem layerIsActive_not_top :
    LayerIsActive.evalInternal exampleLayers 0 = true
    ∧ (0 : Int) ≠ exampleLayers.top
    ∧ AssertTopActiveLayerIs.evalInternal exampleLayers 0 = false := by
  decide

/-- What `LayerIsActive` computes: for every layer id from 0 to 255 and every
layer state, `LayerIsActive(layer_id)` evaluates to true exactly when
`Layer.isActive` reports that layer as active. -/
theorem layerIsActive_iff_active (Layer : Layer_) (layer_id : Int) (h0 : 0 ≤ layer_id)
    (h1 : layer_id < 256) :
    LayerIsActive.evalInternal Layer layer_id = true ↔ Layer.isActive layer_id.toNat = true := by
  have h : toUInt8 layer_id = layer_id.toNat := by
    unfold toUInt8
    rw [Int.emod_eq_of_lt h0 h1]
  rw [LayerIsActive.evalInternal, h]

/-- At a concrete input: in the example state layer 1 is active and
`LayerIsActive(1)` holds; so does `LayerIsActive(0)`. -/
theorem layerIsActive_iff_active_witness :
    (0 : Int) ≤ 1 ∧ (1 : Int) < 256
    ∧ LayerIsActive.evalInternal exampleLayers 1 = true
    ∧ LayerIsActive.evalInternal exampleLayers 0 = true :=
  ⟨by decide, by decide,
    (layerIsActive_iff_active exampleLayers 1 (by decide) (by decide)).2 (by decide),
    (layerIsActive_iff_active exampleLayers 0 (by decide) (by decide)).2 (by decide)⟩

/-! ## Runs that return are runs of `processReport` -/

theorem aborting_error_cases (line : ErrorLine) (s : Simulator) :
    aborting.error line s = .returned (ErrorStream.output line s.error)
      ∨ ∃ t, aborting.error line s = .exited t := by
  rcases Bool.eq_false_or_eq_true s.abort_on_first_error_ with h | h
  · exact Or.inr ⟨_, aborting_error_on line s h⟩
  · exact Or.inl (aborting_error_off line s h)

theorem aborting_processReportAction_cases (ext : Externals) (s : Simulator)
    (a : ReportAction_) (report : Report_) :
    aborting.processReportAction ext s a report =
        .returned (s.processReportAction ext a report)
      ∨ ∃ t, aborting.processReportAction ext s a report = .exited t := by
  rcases Bool.eq_false_or_eq_true s.abort_on_first_error_ with h | h
  · rcases Bool.eq_false_or_eq_true (a.evalInternal s.toSimulatorState (some report))
      with hr | hr <;>
    rcases Bool.eq_false_or_eq_true s.debug_ with hd | hd <;>
    rcases Bool.eq_false_or_eq_true ext.failed_report_is_error with hf | hf <;>
    simp [aborting.processReportAction, Simulator.processReportAction, aborting.report,
      ReportAction_.report, aborting.error, ReportAction_.eval, ReportAction_.setReport,
      ErrorStream.output, Simulator.error, Simulator.getAbortOnFirstError, Bind.bind, Run.bind,
      pure, h, hr, hd, hf]
  · exact Or.inl (aborting_processReportAction_off ext s a report h)

theorem aborting_processReportActionList_cases (ext : Externals) (report : Report_) :
    ∀ (l : List ReportAction_) (s : Simulator),
      aborting.processReportActionList ext s report l =
          .returned (s.processReportActionList ext report l)
        ∨ ∃ t, aborting.processReportActionList ext s report l = .exited t := by
  intro l
  induction l with
  | nil => intro s; exact Or.inl rfl
  | cons a rest ih =>
    intro s
    rcases aborting_processReportAction_cases ext s a report with h | ⟨t, h⟩
    · rcases ih (s.processReportAction ext a report).2 with h2 | ⟨t, h2⟩
      · left
        simp only [aborting.processReportActionList, Simulator.processReportActionList, h,
          Run.returned_bind, h2]
        rfl
      · right
        exact ⟨t, by simp only [aborting.processReportActionList, h, Run.returned_bind, h2,
          Run.exited_bind]⟩
    · right
      exact ⟨t, by simp only [aborting.processReportActionList, h, Run.exited_bind]⟩

theorem aborting_processGenericReportActionList_cases (ext : Externals) (report : Report_) :
    ∀ (l : List ReportAction_) (s : Simulator),
      aborting.processGenericReportActionList ext s report l =
          .returned (s.processGenericReportActionList ext report l)
        ∨ ∃ t, aborting.processGenericReportActionList ext s report l = .exited t := by
  intro l
  induction l with
  | nil => intro s; exact Or.inl rfl
  | cons a rest ih =>
    intro s
    by_cases ha : genericActionApplies ext report.report_type a = true
    · rcases aborting_processReportAction_cases ext s a report with h | ⟨t, h⟩
      · rcases ih (s.processReportAction ext a report).2 with h2 | ⟨t, h2⟩
        · left
          simp only [aborting.processGenericReportActionList,
            Simulator.processGenericReportActionList, ha, if_true, h, Run.returned_bind, h2]
          rfl
        · right
          exact ⟨t, by simp only [aborting.processGenericReportActionList, ha, if_true, h,
            Run.returned_bind, h2, Run.exited_bind]⟩
      · right
        exact ⟨t, by simp only [aborting.processGenericReportActionList, ha, if_true, h,
          Run.exited_bind]⟩
    · rcases ih s with h2 | ⟨t, h2⟩
      · left
        simp only [aborting.processGenericReportActionList,
          Simulator.processGenericReportActionList, ha, Run.pure_bind, h2, Run.returned_bind]
        rfl
      · right
        exact ⟨t, by simp only [aborting.processGenericReportActionList, ha, Run.pure_bind, h2,
          Run.exited_bind, Bool.false_eq_true, if_false]⟩

theorem aborting_processQueuedReportAction_cases (ext : Externals) (s : Simulator)
    (report : Report_) :
    aborting.processQueuedReportAction ext s report =
        .returned (s.processQueuedReportAction ext report)
      ∨ ∃ t, aborting.processQueuedReportAction ext s report = .exited t := by
  unfold aborting.processQueuedReportAction Simulator.processQueuedReportAction
  cases hq : s.queued_report_actions_.queue_ with
  | nil => left; simp [ActionContainer.empty, hq]; rfl
  | cons a rest =>
    simp only [ActionContainer.empty, ActionContainer.popFront, hq, List.isEmpty_cons,
      Bool.not_false, if_true]
    rcases aborting_processReportAction_cases ext
      { s with queued_report_actions_ := { queue_ := rest } } a report with h | ⟨t, h⟩
    · simp only [h, Run.returned_bind]
      split
      · left; rfl
      · split
        · left; rfl
        · exact aborting_error_cases _ _
    · simp only [h, Run.exited_bind]
      split
      · exact Or.inr ⟨t, rfl⟩
      · split
        · exact Or.inr ⟨t, rfl⟩
        · exact aborting_error_cases _ _

theorem aborting_processPermanentReportActions_cases (ext : Externals) (s : Simulator)
    (report : Report_) :
    aborting.processPermanentReportActions ext s report =
        .returned (s.processPermanentReportActions ext report)
      ∨ ∃ t, aborting.processPermanentReportActions ext s report = .exited t := by
  rcases aborting_processReportActionList_cases ext report
    (s.getPermanentReportActions report.report_type).directAccess s with h | ⟨t, h⟩
  · left
    simp only [aborting.processPermanentReportActions, Simulator.processPermanentReportActions,
      h, Run.returned_bind]
    rfl
  · right
    exact ⟨t, by simp only [aborting.processPermanentReportActions, h, Run.exited_bind]⟩

theorem aborting_processPermanentGenericReportActions_cases (ext : Externals) (s : Simulator)
    (report : Report_) :
    aborting.processPermanentGenericReportActions ext s report =
        .returned (s.processPermanentGenericReportActions ext report)
      ∨ ∃ t, aborting.processPermanentGenericReportActions ext s report = .exited t := by
  rcases aborting_processGenericReportActionList_cases ext report
    s.permanent_generic_report_actions_.directAccess s with h | ⟨t, h⟩
  · left
    simp only [aborting.processPermanentGenericReportActions,
      Simulator.processPermanentGenericReportActions, h, Run.returned_bind]
    rfl
  · right
    exact ⟨t, by simp only [aborting.processPermanentGenericReportActions, h,
      Run.exited_bind]⟩

theorem aborting_checkReportWithoutQueuedActions_cases (s : Simulator) (n : Nat)
    (T : ReportType) :
    aborting.checkReportWithoutQueuedActions s n T =
        .returned (s.checkReportWithoutQueuedActions n T)
      ∨ ∃ t, aborting.checkReportWithoutQueuedActions s n T = .exited t := by
  unfold aborting.checkReportWithoutQueuedActions Simulator.checkReportWithoutQueuedActions
  split
  · exact aborting_error_cases _ _
  · exact Or.inl rfl

/-- A run of the engine with error statements that can end it either returns
exactly what `processReport` returns, or it has ended. -/
theorem aborting_processReport_cases (ext : Externals) (s : Simulator) (report : Report_) :
    aborting.processReport ext s report = .returned (s.processReport ext report)
      ∨ ∃ t, aborting.processReport ext s report = .exited t := by
  rcases aborting_processQueuedReportAction_cases ext (s.countReport report.report_type)
    report with h1 | ⟨t, h1⟩
  · rcases aborting_processPermanentReportActions_cases ext
      ((s.countReport report.report_type).processQueuedReportAction ext report) report
      with h2 | ⟨t, h2⟩
    · rcases aborting_processPermanentGenericReportActions_cases ext
        (((s.countReport report.report_type).processQueuedReportAction ext
          report).processPermanentReportActions ext report) report with h3 | ⟨t, h3⟩
      · rcases aborting_checkReportWithoutQueuedActions_cases
          ((((s.countReport report.report_type).processQueuedReportAction ext
            report).processPermanentReportActions ext
            report).processPermanentGenericReportActions ext report)
          (s.countReport report.report_type).queued_report_actions_.size
          report.report_type with h4 | ⟨t, h4⟩
        · left
          simp only [aborting.processReport, Simulator.processReport, h1, h2, h3, h4,
            Run.returned_bind]
        · right
          exact ⟨t, by simp only [aborting.processReport, h1, h2, h3, h4,
            Run.returned_bind]⟩
      · right
        exact ⟨t, by simp only [aborting.processReport, h1, h2, h3, Run.returned_bind,
          Run.exited_bind]⟩
    · right
      exact ⟨t, by simp only [aborting.processReport, h1, h2, Run.returned_bind,
        Run.exited_bind]⟩
  · right
    exact ⟨t, by simp only [aborting.processReport, h1, Run.exited_bind]⟩

theorem aborting_processReport_returned (ext : Externals) (s t : Simulator)
    (report : Report_) (h : aborting.processReport ext s report = .returned t) :
    t = s.processReport ext report := by
  rcases aborting_processReport_cases ext s report with h1 | ⟨u, h1⟩
  · rw [h1] at h
    exact (Run.returned.inj h).symm
  · rw [h1] at h
    cases h

/-! ## Theorems on the layer and report-count assertions -/

theorem toUInt8_of_range (n : Int) (h0 : 0 ≤ n) (h1 : n < 256) : toUInt8 n = n.toNat := by
  unfold toUInt8
  rw [Int.emod_eq_of_lt h0 h1]

/-- What `AssertTopActiveLayerIs` computes for every `int`: the top layer is
compared with the layer id modulo 256. -/
theorem assertTopActiveLayerIs_mod (Layer : Layer_) (layer_id : Int) :
    AssertTopActiveLayerIs.evalInternal Layer layer_id = true ↔
      (Layer.top : Int) = layer_id % 256 := by
  have h : (0 : Int) ≤ layer_id % 256 := Int.emod_nonneg _ (by decide)
  simp only [AssertTopActiveLayerIs.evalInternal, toUInt8, beq_iff_eq]
  omega

/-- C21 as stated fails: with the base layer 0 on top, the action constructed
with the layer id 256 holds although the index of the top layer is not 256. -/
theorem assertTopActiveLayerIs_wraps :
    AssertTopActiveLayerIs.evalInternal exampleBaseLayer 256 = true
    ∧ (exampleBaseLayer.top : Int) ≠ 256 := by
  decide

/-- C21, amended: for every layer id from 0 to 255 and every layer state,
`AssertTopActiveLayerIs(layer_id)` evaluates to true exactly when the index of
the current top layer equals `layer_id`. -/
theorem assertTopActiveLayerIs_iff_top (Layer : Layer_) (layer_id : Int) (h0 : 0 ≤ layer_id)
    (h1 : layer_id < 256) :
    AssertTopActiveLayerIs.evalInternal Layer layer_id = true ↔
      (Layer.top : Int) = layer_id := by
  rw [AssertTopActiveLayerIs.evalInternal, toUInt8_of_range layer_id h0 h1, beq_iff_eq]
  omega

/-- C21, amended, at a concrete input: in the example state layer 1 is on top,
so the action holds for the layer id 1 and does not hold for the layer id 0. -/
theorem assertTopActiveLayerIs_iff_top_witness :
    (0 : Int) ≤ 1 ∧ (1 : Int) < 256
    ∧ AssertTopActiveLayerIs.evalInternal exampleLayers 1 = true
    ∧ ¬ AssertTopActiveLayerIs.evalInternal exampleLayers 0 = true :=
  ⟨by decide, by decide,
    (assertTopActiveLayerIs_iff_top exampleLayers 1 (by decide) (by decide)).2 (by decide),
    fun h => absurd
      ((assertTopActiveLayerIs_iff_top exampleLayers 0 (by decide) (by decide)).1 h)
      (by decide)⟩

/-- C22: `NumOverallReportsGenerated(n)` holds exactly when the cumulative
keyboard-report count of the simulator equals `n`; when the assertion was
instantiated plays no part. For an assertion instantiated after the first
keyboard report and evaluated after the second, one keyboard report was
generated since its instantiation, yet the assertion for 1 fails and the
assertion for 2 holds. -/
theorem numOverallReportsGenerated_counts_from_start :
    (∀ (n : Int) (test_driver : SimulatorState),
      NumOverallReportsGenerated.evalInternal n test_driver = true ↔
        test_driver.getNumOverallKeyboardReports = n)
    ∧ keyboardReportsSince exampleAfterOne.toSimulatorState
        exampleAfterTwo.toSimulatorState = 1
    ∧ NumOverallReportsGenerated.evalInternal 1 exampleAfterTwo.toSimulatorState = false
    ∧ NumOverallReportsGenerated.evalInternal 2 exampleAfterTwo.toSimulatorState = true := by
  refine ⟨?_, by decide, by decide, by decide⟩
  intro n test_driver
  simp [NumOverallReportsGenerated.evalInternal]

/-! ## The wildcard slot is the sum of the typed slots -/

theorem balanced_zero (a : Fin 5 → Int) (h : ∀ i, a i = 0) : balanced a := by
  simp [balanced, h]

theorem balanced_incr (a : Fin 5 → Int) (T : ReportType) (h : balanced a) :
    balanced (incr (incr a AnyTypeReportSid) (ReportTraits.sid T)) := by
  unfold balanced at h ⊢
  cases T <;>
    simp [incr, Function.update, ReportTraits.sid, AnyTypeReportSid, BootKeyboardReportSid,
      KeyboardReportSid, MouseReportSid, AbsoluteMouseReportSid] at h ⊢ <;>
    omega

theorem processReport_balanced (ext : Externals) (s : Simulator) (report : Report_)
    (h : balanced s.n_typed_overall_reports_ ∧ balanced s.n_typed_reports_in_cycle_) :
    balanced (s.processReport ext report).n_typed_overall_reports_
      ∧ balanced (s.processReport ext report).n_typed_reports_in_cycle_ := by
  obtain ⟨Q, P, G, h1, -⟩ := processReport_spec ext s report
  rw [h1]
  exact ⟨balanced_incr _ _ h.1, balanced_incr _ _ h.2⟩

theorem processReports_balanced (ext : Externals) (reports : List Report_) :
    ∀ s : Simulator,
      balanced s.n_typed_overall_reports_ ∧ balanced s.n_typed_reports_in_cycle_ →
      balanced (s.processReports ext reports).n_typed_overall_reports_
        ∧ balanced (s.processReports ext reports).n_typed_reports_in_cycle_ := by
  induction reports with
  | nil => intro s h; exact h
  | cons r rest ih =>
    intro s h
    exact ih _ (processReport_balanced ext s r h)

/-- C23: in every state reached from a simulator whose counters are all zero
by calls of `processReport`, whatever the reports and the registered checks,
`getNumOverallReports` is the sum of the cumulative counts of the four report
classes and `getNumReportsInCycle` is the sum of their per-cycle counts. -/
theorem processReports_wildcard_is_sum (ext : Externals) (s : Simulator)
    (reports : List Report_)
    (hoverall : ∀ i, s.n_typed_overall_reports_ i = 0)
    (hcycle : ∀ i, s.n_typed_reports_in_cycle_ i = 0) :
    (s.processReports ext reports).getNumOverallReports =
        (s.processReports ext reports).getNumTypedOverallReports .BootKeyboardReport
          + (s.processReports ext reports).getNumTypedOverallReports .KeyboardReport
          + (s.processReports ext reports).getNumTypedOverallReports .MouseReport
          + (s.processReports ext reports).getNumTypedOverallReports .AbsoluteMouseReport
    ∧ (s.processReports ext reports).getNumReportsInCycle =
        (s.processReports ext reports).getNumTypedReportsInCycle .BootKeyboardReport
          + (s.processReports ext reports).getNumTypedReportsInCycle .KeyboardReport
          + (s.processReports ext reports).getNumTypedReportsInCycle .MouseReport
          + (s.processReports ext reports).getNumTypedReportsInCycle .AbsoluteMouseReport :=
  processReports_balanced ext reports s
    ⟨balanced_zero _ hoverall, balanced_zero _ hcycle⟩

/-- C23, at a concrete input: after a boot keyboard, a mouse and a keyboard
report in a fresh simulator the wildcard counters are 3, the sum of the typed
counters 1, 1, 1 and 0. -/
theorem processReports_wildcard_is_sum_witness :
    ((Simulator.init false 1 false).processReports exampleExt
        [{ report_type := .BootKeyboardReport, data := [] },
          { report_type := .MouseReport, data := [] }, exampleKeyboardReport]).getNumOverallReports
      = 3
    ∧ ((Simulator.init false 1 false).processReports exampleExt
        [{ report_type := .BootKeyboardReport, data := [] },
          { report_type := .MouseReport, data := [] },
          exampleKeyboardReport]).getNumTypedOverallReports .AbsoluteMouseReport = 0
    ∧ ((Simulator.init false 1 false).processReports exampleExt
        [{ report_type := .BootKeyboardReport, data := [] },
          { report_type := .MouseReport, data := [] }, exampleKeyboardReport]).getNumOverallReports
      = ((Simulator.init false 1 false).processReports exampleExt
          [{ report_type := .BootKeyboardReport, data := [] },
            { report_type := .MouseReport, data := [] },
            exampleKeyboardReport]).getNumTypedOverallReports .BootKeyboardReport
        + ((Simulator.init false 1 false).processReports exampleExt
          [{ report_type := .BootKeyboardReport, data := [] },
            { report_type := .MouseReport, data := [] },
            exampleKeyboardReport]).getNumTypedOverallReports .KeyboardReport
        + ((Simulator.init false 1 false).processReports exampleExt
          [{ report_type := .BootKeyboardReport, data := [] },
            { report_type := .MouseReport, data := [] },
            exampleKeyboardReport]).getNumTypedOverallReports .MouseReport
        + ((Simulator.init false 1 false).processReports exampleExt
          [{ report_type := .BootKeyboardReport, data := [] },
            { report_type := .MouseReport, data := [] },
            exampleKeyboardReport]).getNumTypedOverallReports .AbsoluteMouseReport :=
  ⟨by decide, by decide,
    (processReports_wildcard_is_sum exampleExt (Simulator.init false 1 false)
      [{ report_type := .BootKeyboardReport, data := [] },
        { report_type := .MouseReport, data := [] }, exampleKeyboardReport]
      (fun _ => rfl) (fun _ => rfl)).1⟩

/-! ## The queue is never popped when it is empty -/

theorem popFront_isSome {α : Type} (c : ActionContainer α) (h : c.empty = false) :
    c.popFront.isSome = true := by
  unfold ActionContainer.empty at h
  unfold ActionContainer.popFront
  cases hq : c.queue_ with
  | nil => rw [hq] at h; simp at h
  | cons a rest => rfl

theorem checked_processQueuedReportAction_eq (ext : Externals) (s : Simulator)
    (report : Report_) :
    checked.processQueuedReportAction ext s report =
      some (s.processQueuedReportAction ext report) := by
  unfold checked.processQueuedReportAction Simulator.processQueuedReportAction
  cases hq : s.queued_report_actions_.queue_ with
  | nil => simp [ActionContainer.empty, hq]
  | cons a rest =>
    simp only [ActionContainer.empty, ActionContainer.popFront, hq, List.isEmpty_cons,
      Bool.not_false, if_true]
    split
    · rfl
    · split <;> rfl

/-- C24: `processReport` calls `popFront` only behind the test
`!queued_report_actions_.empty()`, and a container that is not empty gives up
its head: with the failure of `popFront` on an empty container as an outcome of
its own, `processReport` never has that outcome, for every simulator state and
every report, and returns what `processReport` returns. -/
theorem processReport_never_pops_empty (ext : Externals) (s : Simulator) (report : Report_) :
    checked.processReport ext s report = some (s.processReport ext report)
    ∧ checked.processReport ext s report ≠ none
    ∧ ((s.countReport report.report_type).queued_report_actions_.empty = false →
        (s.countReport report.report_type).queued_report_actions_.popFront.isSome = true)
    ∧ ((s.countReport report.report_type).queued_report_actions_.empty = true →
        checked.processQueuedReportAction ext (s.countReport report.report_type) report =
          some (s.countReport report.report_type)) := by
  have h : checked.processReport ext s report = some (s.processReport ext report) := by
    simp only [checked.processReport, checked_processQueuedReportAction_eq,
      Simulator.processReport]
  refine ⟨h, ?_, popFront_isSome _, ?_⟩
  · rw [h]; simp
  · intro he
    simp [checked.processQueuedReportAction, he]

/-- C24, at a concrete input: with an empty queue the queued step does not pop
and returns the state it was given; with a queue of two the pop succeeds. -/
theorem processReport_never_pops_empty_witness :
    (exampleEmpty.countReport .KeyboardReport).queued_report_actions_.empty = true
    ∧ checked.processQueuedReportAction exampleExt (exampleEmpty.countReport .KeyboardReport)
        exampleKeyboardReport = some (exampleEmpty.countReport .KeyboardReport)
    ∧ (exampleMatch.countReport .KeyboardReport).queued_report_actions_.empty = false
    ∧ (exampleMatch.countReport .KeyboardReport).queued_report_actions_.popFront.isSome = true :=
  ⟨rfl,
    (processReport_never_pops_empty exampleExt exampleEmpty exampleKeyboardReport).2.2.2 rfl,
    rfl,
    (processReport_never_pops_empty exampleExt exampleMatch exampleKeyboardReport).2.2.1 rfl⟩

/-! ## A type mismatch and the pass flag -/

theorem queuedActionApplies_false (ext : Externals) (T : ReportType) (a : ReportAction_)
    (hgeneric : a.getReportTypeId ≠ ext.Report_hid_report_type_)
    (htyped : a.getReportTypeId ≠ ext.hid_report_type_ T) :
    queuedActionApplies ext T a = false := by
  simp [queuedActionApplies, hgeneric, htyped]

/-- C25: when the head of the queue does not fit the report, the queued step
counts one error and leaves `actions_passed_` as it was. With no permanent
check registered for the class of the report and no generic permanent check,
the whole call of `processReport` leaves `actions_passed_` as it was (true
stays true) and raises the error count by exactly one. -/
theorem processReport_mismatch_keeps_flag (ext : Externals) (s : Simulator)
    (report : Report_) (a : ReportAction_) (rest : List ReportAction_)
    (hq : s.queued_report_actions_.directAccess = a :: rest)
    (hgeneric : a.getReportTypeId ≠ ext.Report_hid_report_type_)
    (htyped : a.getReportTypeId ≠ ext.hid_report_type_ report.report_type) :
    ((s.countReport report.report_type).processQueuedReportAction ext report).actions_passed_ =
        s.actions_passed_
    ∧ ((s.countReport report.report_type).processQueuedReportAction ext report).getErrorCount =
        s.getErrorCount + 1
    ∧ ((s.getPermanentReportActions report.report_type).directAccess = [] →
        s.permanent_generic_report_actions_.directAccess = [] →
        (s.processReport ext report).actions_passed_ = s.actions_passed_
        ∧ (s.actions_passed_ = true → (s.processReport ext report).actions_passed_ = true)
        ∧ (s.processReport ext report).getErrorCount = s.getErrorCount + 1) := by
  have ha := queuedActionApplies_false ext report.report_type a hgeneric htyped
  have hq1 : (s.countReport report.report_type).queued_report_actions_.directAccess =
      a :: rest := hq
  refine ⟨?_, ?_, ?_⟩
  · rw [processQueuedReportAction_mismatch ext _ report a rest hq1 ha]
    rfl
  · rw [processQueuedReportAction_mismatch ext _ report a rest hq1 ha]
    rfl
  · intro hperm hgen
    obtain ⟨Q, P, G, h1, -, -, hQ, hP, hG⟩ := processReport_spec ext s report
    have hQ0 : Q = [] := by
      have : Q.map EvalCall.key = [] := by rw [hQ]; simp [queuedKeys, hq, ha]
      simpa using this
    have hP0 : P = [] := by
      have : P.map EvalCall.key = [] := by rw [hP]; simp [permanentKeys, hperm]
      simpa using this
    have hG0 : G = [] := by
      have : G.map EvalCall.key = [] := by rw [hG]; simp [genericKeys, hgen]
      simpa using this
    subst hQ0 hP0 hG0
    have hempty : s.queued_report_actions_.empty = false := by
      have : s.queued_report_actions_.queue_ = a :: rest := hq
      simp [ActionContainer.empty, this]
    have hpass : (s.processReport ext report).actions_passed_ = s.actions_passed_ := by
      show (s.processReport ext report).toSimulatorState.actions_passed_ = _
      rw [h1]
      simp
    have herr : (s.processReport ext report).getErrorCount = s.getErrorCount + 1 := by
      show (s.processReport ext report).toSimulatorState.error_count_ = s.error_count_ + 1
      rw [h1]
      simp [reportErrors, queuedErrors, hq, ha, unconsumedErrors, hempty, failLines_nil]
    exact ⟨hpass, fun ht => hpass.trans ht, herr⟩

/-- C25, at a concrete input: a keyboard report meets a mouse check at the head
of the queue and nothing permanent; `actions_passed_` is true before and after
and the error count goes from 0 to 1. -/
theorem processReport_mismatch_keeps_flag_witness :
    ({ Simulator.init false 1 false with
        queued_report_actions_ := { queue_ := [exampleMouseAction] } } : Simulator).actions_passed_
      = true
    ∧ (({ Simulator.init false 1 false with
        queued_report_actions_ := { queue_ := [exampleMouseAction] } } : Simulator).processReport
          exampleExt exampleKeyboardReport).actions_passed_ = true
    ∧ (({ Simulator.init false 1 false with
        queued_report_actions_ := { queue_ := [exampleMouseAction] } } : Simulator).processReport
          exampleExt exampleKeyboardReport).getErrorCount = 0 + 1 :=
  ⟨rfl,
    ((processReport_mismatch_keeps_flag exampleExt
      { Simulator.init false 1 false with
        queued_report_actions_ := { queue_ := [exampleMouseAction] } }
      exampleKeyboardReport exampleMouseAction [] rfl (by decide) (by decide)).2.2
        rfl rfl).2.1 rfl,
    ((processReport_mismatch_keeps_flag exampleExt
      { Simulator.init false 1 false with
        queued_report_actions_ := { queue_ := [exampleMouseAction] } }
      exampleKeyboardReport exampleMouseAction [] rfl (by decide) (by decide)).2.2
        rfl rfl).2.2⟩

/-! ## Routing of HID reports -/

theorem incr_incr_eq (a : Fin 5 → Int) (T : ReportType) (i : Fin 5) :
    incr (incr a AnyTypeReportSid) (ReportTraits.sid T) i =
      a i + (if i = AnyTypeReportSid ∨ i = ReportTraits.sid T then 1 else 0) := by
  by_cases h0 : i = AnyTypeReportSid
  · subst h0
    rw [incr_incr_any]
    simp
  · by_cases h1 : i = ReportTraits.sid T
    · subst h1
      rw [incr_incr_sid]
      simp
    · rw [incr_incr_other a T i h0 h1]
      simp [h0, h1]

theorem routesTo_of_eq (ext : Externals) (ids : HIDReportIds) (s : Simulator) (id : Nat)
    (data : List Nat) (T : ReportType)
    (h : s.processHIDReport ext ids id data =
      s.processReport ext { report_type := T, data := data }) :
    routesTo ext ids s id data T := by
  refine ⟨h, fun i => ?_⟩
  rw [h]
  obtain ⟨Q, P, G, h1, -⟩ := processReport_spec ext s { report_type := T, data := data }
  rw [h1]
  exact ⟨incr_incr_eq _ _ _, incr_incr_eq _ _ _⟩

theorem distinct_ne (ids : HIDReportIds) (h : ids.distinct) :
    ids.HID_REPORTID_KEYBOARD ≠ ids.HID_REPORTID_GAMEPAD
    ∧ ids.HID_REPORTID_KEYBOARD ≠ ids.HID_REPORTID_CONSUMERCONTROL
    ∧ ids.HID_REPORTID_KEYBOARD ≠ ids.HID_REPORTID_SYSTEMCONTROL
    ∧ ids.HID_REPORTID_MOUSE_ABSOLUTE ≠ ids.HID_REPORTID_GAMEPAD
    ∧ ids.HID_REPORTID_MOUSE_ABSOLUTE ≠ ids.HID_REPORTID_CONSUMERCONTROL
    ∧ ids.HID_REPORTID_MOUSE_ABSOLUTE ≠ ids.HID_REPORTID_SYSTEMCONTROL
    ∧ ids.HID_REPORTID_MOUSE_ABSOLUTE ≠ ids.HID_REPORTID_KEYBOARD
    ∧ ids.HID_REPORTID_MOUSE ≠ ids.HID_REPORTID_GAMEPAD
    ∧ ids.HID_REPORTID_MOUSE ≠ ids.HID_REPORTID_CONSUMERCONTROL
    ∧ ids.HID_REPORTID_MOUSE ≠ ids.HID_REPORTID_SYSTEMCONTROL
    ∧ ids.HID_REPORTID_MOUSE ≠ ids.HID_REPORTID_KEYBOARD
    ∧ ids.HID_REPORTID_MOUSE ≠ ids.HID_REPORTID_MOUSE_ABSOLUTE
    ∧ ids.HID_REPORTID_NKRO_KEYBOARD ≠ ids.HID_REPORTID_GAMEPAD
    ∧ ids.HID_REPORTID_NKRO_KEYBOARD ≠ ids.HID_REPORTID_CONSUMERCONTROL
    ∧ ids.HID_REPORTID_NKRO_KEYBOARD ≠ ids.HID_REPORTID_SYSTEMCONTROL
    ∧ ids.HID_REPORTID_NKRO_KEYBOARD ≠ ids.HID_REPORTID_KEYBOARD
    ∧ ids.HID_REPORTID_NKRO_KEYBOARD ≠ ids.HID_REPORTID_MOUSE_ABSOLUTE
    ∧ ids.HID_REPORTID_NKRO_KEYBOARD ≠ ids.HID_REPORTID_MOUSE := by
  unfold HIDReportIds.distinct at h
  repeat' apply And.intro
  all_goals
    intro he
    simp [he] at h

/-- C26: `processHIDReport` hands a report with id `HID_REPORTID_KEYBOARD` to
`processReport` as a boot keyboard report, `HID_REPORTID_NKRO_KEYBOARD` as a
keyboard report, `HID_REPORTID_MOUSE` as a mouse report and
`HID_REPORTID_MOUSE_ABSOLUTE` as an absolute mouse report. Each time the
cumulative and the per-cycle counter of that class and of the wildcard slot
grow by one and no other counter changes. -/
theorem processHIDReport_routes (ext : Externals) (ids : HIDReportIds) (s : Simulator)
    (data : List Nat) (hids : ids.distinct) :
    routesTo ext ids s ids.HID_REPORTID_KEYBOARD data .BootKeyboardReport
    ∧ routesTo ext ids s ids.HID_REPORTID_NKRO_KEYBOARD data .KeyboardReport
    ∧ routesTo ext ids s ids.HID_REPORTID_MOUSE data .MouseReport
    ∧ routesTo ext ids s ids.HID_REPORTID_MOUSE_ABSOLUTE data .AbsoluteMouseReport := by
  obtain ⟨h1, h2, h3, h4, h5, h6, h7, h8, h9, h10, h11, h12, h13, h14, h15, h16, h17, h18⟩ :=
    distinct_ne ids hids
  refine ⟨routesTo_of_eq _ _ _ _ _ _ ?_, routesTo_of_eq _ _ _ _ _ _ ?_,
    routesTo_of_eq _ _ _ _ _ _ ?_, routesTo_of_eq _ _ _ _ _ _ ?_⟩
  · simp [Simulator.processHIDReport, h1, h2, h3]
  · simp [Simulator.processHIDReport, h13, h14, h15, h16, h17, h18]
  · simp [Simulator.processHIDReport, h8, h9, h10, h11, h12]
  · simp [Simulator.processHIDReport, h4, h5, h6, h7]

/-- C26, at a concrete input: with the ids of the HID library, report id 8
(NKRO keyboard) raises the cumulative keyboard counter and the wildcard counter
of the example simulator from 0 to 1 and leaves the mouse counter at 0. -/
theorem processHIDReport_routes_witness :
    exampleIds.distinct
    ∧ (exampleEmpty.processHIDReport exampleExt exampleIds 8 [4]).n_typed_overall_reports_
        KeyboardReportSid = 0 + 1
    ∧ (exampleEmpty.processHIDReport exampleExt exampleIds 8 [4]).n_typed_overall_reports_
        AnyTypeReportSid = 0 + 1
    ∧ (exampleEmpty.processHIDReport exampleExt exampleIds 8 [4]).n_typed_overall_reports_
        MouseReportSid = 0 + 0 :=
  ⟨by decide,
    ((processHIDReport_routes exampleExt exampleIds exampleEmpty [4] (by decide)).2.1.2
      KeyboardReportSid).1,
    ((processHIDReport_routes exampleExt exampleIds exampleEmpty [4] (by decide)).2.1.2
      AnyTypeReportSid).1,
    ((processHIDReport_routes exampleExt exampleIds exampleEmpty [4] (by decide)).2.1.2
      MouseReportSid).1⟩

/-! ## A type mismatch with and without abort-on-first-error -/

/-- C9 as stated fails when abort-on-first-error is enabled: in the example a
permanent keyboard check is registered, a mouse check heads the queue and a
keyboard report arrives; the run ends at the type-mismatch error, no check
has been evaluated and the final test is never reached. -/
theorem processReport_mismatch_aborted :
    exampleAbort.abort_on_first_error_ = true
    ∧ (exampleAbort.getPermanentReportActions .KeyboardReport).directAccess =
        [exampleKeyboardAction]
    ∧ aborting.processReport exampleExt exampleAbort exampleKeyboardReport =
        .exited (ErrorStream.output (.typeMismatch "mouse" .KeyboardReport)
          { exampleAbort.countReport .KeyboardReport with
            queued_report_actions_ := { queue_ := [exampleKeyboardAction] } }.error)
    ∧ newEvals exampleAbort
        (ErrorStream.output (.typeMismatch "mouse" .KeyboardReport)
          { exampleAbort.countReport .KeyboardReport with
            queued_report_actions_ := { queue_ := [exampleKeyboardAction] } }.error) = [] :=
  ⟨rfl, rfl,
    aborting_processReport_mismatch exampleExt exampleAbort exampleKeyboardReport
      exampleMouseAction [exampleKeyboardAction] rfl (by decide) (by decide) rfl,
    rfl⟩

/-- C9, amended: with abort-on-first-error disabled, when the head `a` of the
queue does not apply to the report, the call of `processReport` is not ended by
the type-mismatch error: it returns, the permanent actions of the class and the
applicable generic permanent actions are all evaluated, in the same order as
after a head `b` that applies, and the final test for a report without queued
actions is carried out on the resulting state. -/
theorem processReport_mismatch_continues (ext : Externals) (s : Simulator)
    (report : Report_) (a b : ReportAction_) (rest : List ReportAction_)
    (habort : s.abort_on_first_error_ = false)
    (hq : s.queued_report_actions_.directAccess = a :: rest)
    (hgeneric : a.getReportTypeId ≠ ext.Report_hid_report_type_)
    (htyped : a.getReportTypeId ≠ ext.hid_report_type_ report.report_type)
    (hb : b.getReportTypeId = ext.Report_hid_report_type_
      ∨ b.getReportTypeId = ext.hid_report_type_ report.report_type) :
    aborting.processReport ext s report = .returned (s.processReport ext report)
    ∧ aborting.processReport ext { s with queued_report_actions_ := { queue_ := b :: rest } }
        report =
        .returned
          ({ s with queued_report_actions_ := { queue_ := b :: rest } }.processReport ext report)
    ∧ (s.processReport ext report).eval_calls_.map EvalCall.key =
        s.eval_calls_.map EvalCall.key ++
          ((s.getPermanentReportActions report.report_type).directAccess.map
              (fun p => (p.id, some report)) ++
            (s.permanent_generic_report_actions_.directAccess.filter
              (fun g => decide (g.getReportTypeId = ext.hid_report_type_ report.report_type
                ∨ g.getReportTypeId = ext.GenericReportTypeId))).map
              (fun g => (g.id, some report)))
    ∧ ({ s with queued_report_actions_ := { queue_ := b :: rest } }.processReport ext
          report).eval_calls_.map EvalCall.key =
        s.eval_calls_.map EvalCall.key ++
          ((b.id, some report) ::
            ((s.getPermanentReportActions report.report_type).directAccess.map
                (fun p => (p.id, some report)) ++
              (s.permanent_generic_report_actions_.directAccess.filter
                (fun g => decide (g.getReportTypeId = ext.hid_report_type_ report.report_type
                  ∨ g.getReportTypeId = ext.GenericReportTypeId))).map
                (fun g => (g.id, some report))))
    ∧ s.processReport ext report =
        (((ErrorStream.output (.typeMismatch a.getTypeString report.report_type)
              { s.countReport report.report_type with
                queued_report_actions_ := { queue_ := rest } }.error
            ).processPermanentReportActions ext report
          ).processPermanentGenericReportActions ext report
        ).checkReportWithoutQueuedActions (rest.length + 1) report.report_type := by
  obtain ⟨h1, h2, h3⟩ :=
    processReport_mismatch_falls_through ext s report a b rest hq hgeneric htyped hb
  exact ⟨aborting_processReport_off ext s report habort,
    aborting_processReport_off ext _ report habort, h1, h2, h3⟩

/-- C9, amended, at a concrete input: abort-on-first-error is disabled, a mouse
check heads the queue, and a keyboard report still reaches the permanent
keyboard check (id 1) and the generic permanent check (id 3); the call
returns. -/
theorem processReport_mismatch_continues_witness :
    exampleMismatch.abort_on_first_error_ = false
    ∧ exampleMouseAction.getReportTypeId ≠ exampleExt.Report_hid_report_type_
    ∧ exampleMouseAction.getReportTypeId ≠
        exampleExt.hid_report_type_ exampleKeyboardReport.report_type
    ∧ aborting.processReport exampleExt exampleMismatch exampleKeyboardReport =
        .returned (exampleMismatch.processReport exampleExt exampleKeyboardReport)
    ∧ (exampleMismatch.processReport exampleExt exampleKeyboardReport).eval_calls_.map
        EvalCall.key = [(1, some exampleKeyboardReport), (3, some exampleKeyboardReport)] :=
  ⟨rfl, by decide, by decide,
    (processReport_mismatch_continues exampleExt exampleMismatch exampleKeyboardReport
      exampleMouseAction exampleKeyboardAction [exampleKeyboardAction] rfl rfl (by decide)
      (by decide) (Or.inr (by decide))).1,
    (processReport_mismatch_continues exampleExt exampleMismatch exampleKeyboardReport
      exampleMouseAction exampleKeyboardAction [exampleKeyboardAction] rfl rfl (by decide)
      (by decide) (Or.inr (by decide))).2.2.1⟩

end simulator
end kaleidoscope
